import Mathlib

/-!
# duckOS tasking core: processes, mutexes, the process table and the run queue

A shallow embedding of `kernel/tasking/Process.cpp`, `kernel/tasking/Mutex.cpp` and
`kernel/tasking/TaskManager.cpp`.

Conventions of the embedding.

* The kernel is one value of type `Kernel`: the globals of `TaskManager.cpp`, the heap of
  `Process` objects (by address) and the heap of `Thread` objects (by tid).  A member function
  of `Process` takes the kernel and the address `self` of `this`.
* A `kstd::Arc<Thread>` or `Thread*` is the tid of the object it points to; a nullable one is an
  `Option Int`.  A `Process*` is a `Nat`.
* `PANIC` and a failed `ASSERT` (kstdio.h: `ASSERT` always expands to `PANIC`) halt the kernel:
  a function that can reach one returns `Except String _`, the string naming the panic.
* The model is sequential.  Memory orders of the atomics are dropped.  The `Mutex` member
  functions and the critical sections of `TaskManager` are modelled in full.
* A function of `Process.cpp` or `TaskManager.cpp` that takes a lock with `LOCK(...)` or
  `CRITICAL_LOCK(...)` is given twice: under its plain name (`remove_thread`, `kill`, ...) the
  statements inside the lock scope, and under its qualified name (`Process.remove_thread`,
  `Process.kill`, `TaskManager.reparent_orphans`, ...) the whole call, which takes the lock,
  runs the statements and gives the lock back.  The whole call fails where an assertion of
  `Mutex::acquire` or `TaskManager::leave_critical` fails.
* `KLog` output is dropped.
-/

namespace DuckOS

/-! ## Data model -/

/-- Process::State of Process.h. -/
inductive ProcState where
  | ALIVE
  | ZOMBIE
  | DEAD
  | STOPPED
deriving DecidableEq, Repr

/-- Modelled from the spec: Thread::State (Thread.h is not among the sources). The spec lists
the states of a thread as Alive, Blocked, Stopped and Dead. -/
inductive ThreadState where
  | ALIVE
  | BLOCKED
  | STOPPED
  | DEAD
deriving DecidableEq, Repr

/-- Modelled from the spec: class Thread (Thread.h and Thread.cpp are not among the sources).
Only what the functions below read or write is kept: the state, the return value handed to
`Process::remove_thread`, the answers of `Thread::can_be_run()` and `Thread::should_unblock()`
(the current blocker reports ready), which are taken as given, the owning process, and the three
signal flags that `TaskManager::preempt` reads and writes through their accessors. The two given
answers are fields of their own: they are not derived from the state, and a write to the state
leaves them as they were. -/
structure Thread where
  state : ThreadState
  return_value : Nat
  can_be_run : Bool
  process : Nat := 0
  should_unblock : Bool := false
  in_signal_handler : Bool := false
  just_finished_signal : Bool := false
  ready_to_handle_signal : Bool := false
deriving DecidableEq, Repr

/-- The fields of class Process (Process.h) that the tasking code reads or writes. `threads` holds
the keys of the map `_threads` (the Arc stored under a key points to the thread of that tid),
`tids` is the vector `_tids`. -/
structure Process where
  pid : Int
  ppid : Int
  sid : Int
  pgid : Int
  state : ProcState
  ready_to_destroy : Bool
  stopping : Bool
  threads : List Int
  thread_return_values : List (Int × Nat)
  tids : List Int
  last_active_thread : Int
deriving DecidableEq, Repr

/-- The two atomics of a Mutex (Mutex.cpp): the holder, `-1` when unheld, and the recursion
counter. Mutex.h is not among the sources; the counter is an integer without a width. -/
structure Mutex where
  holding_thread : Int
  times_locked : Int
deriving DecidableEq, Repr

/-- Result of kernel/Result.cpp: an integer code, zero meaning success. -/
structure Result where
  code : Int
deriving DecidableEq, Repr

/-- Result::is_success. -/
def Result.is_success (r : Result) : Bool :=
  r.code == 0

/-- Result::is_error. -/
def Result.is_error (r : Result) : Bool :=
  r.code != 0

/-- Constants of headers that are not among the sources (errno and signal numbers); they are
parameters of the kernel state. -/
structure Consts where
  ENOENT : Int
  SIGCHLD : Int
  NSIG : Int
  SIGSTOP : Int
  SIGTSTP : Int
  SIGCONT : Int
deriving DecidableEq, Repr

/-- The place a stack pointer is saved to or loaded from in a context switch: the `gp.esp` of
the `registers` or of the `signal_registers` of a thread. -/
inductive EspSlot where
  | registers (tid : Int)
  | signal_registers (tid : Int)
deriving DecidableEq, Repr

/-- The value written to `tss.esp0`: nothing yet, or the `kernel_stack_top()` or the
`signal_stack_top()` of a thread. -/
inductive StackTop where
  | unset
  | kernel_stack_top (tid : Int)
  | signal_stack_top (tid : Int)
deriving DecidableEq, Repr

/-- The kernel state: the globals of TaskManager.cpp, the two object heaps, and ghost logs.

`g_critical_count` starts at zero and `leave_critical` asserts it positive before it decrements,
so it is a natural number. `g_next_thread` is the run queue: the chain of threads reachable from
the cursor, the cursor's thread first. `next_pid` is the `Atomic<int>` counter, a 32-bit signed
integer. `in_interrupt` is the answer of `Processor::in_interrupt()` and `accepts_signal tid sig`
the answer of `Thread::handle_signal(sig)` on thread `tid`; both are taken as given.
`thread_lock p` and `starting_lock p` are the members `_thread_lock` and `m_starting_lock` of the
Process object at address `p`; they are kept beside the heap of Process objects, both unheld at
the start.

Ghost logs, each in call order: `deleted` (the objects `delete this` ran on), `kill_log` (the
`Process::kill` calls made by `alert_thread_died`), `signal_log` (the `Thread::handle_signal`
calls: thread and signal), `wait_log` (the `WaitBlocker::notify_all` stop notifications:
process and signal), `interrupt_log` (the `Thread::interrupt` calls), `unblock_log` (the
`Thread::unblock` calls) and `switch_log` (the `preempt_asm` calls: where the outgoing stack
pointer is saved and where the incoming one is loaded from). -/
structure Kernel where
  consts : Consts
  proc : Nat → Process
  thread : Int → Thread
  processes : List Nat
  kernel_process : Nat
  cur_thread : Option Int
  g_next_thread : List Int
  tasking_enabled : Bool
  g_panicking : Bool
  g_critical_count : Nat
  interrupts_enabled : Bool
  g_tasking_lock : Mutex
  g_process_lock : Mutex
  deleted : List Nat
  kill_log : List (Nat × Int)
  thread_lock : Nat → Mutex := fun _ => { holding_thread := -1, times_locked := 0 }
  starting_lock : Nat → Mutex := fun _ => { holding_thread := -1, times_locked := 0 }
  next_pid : Int := 0
  yield_async : Bool := false
  preempting : Bool := false
  in_interrupt : Bool := false
  tss_esp0 : StackTop := .unset
  accepts_signal : Int → Int → Bool := fun _ _ => false
  signal_log : List (Int × Int) := []
  wait_log : List (Nat × Int) := []
  interrupt_log : List Int := []
  unblock_log : List Int := []
  switch_log : List (EspSlot × EspSlot) := []

/-- Store through a `Process*`. -/
def Kernel.set_proc (k : Kernel) (self : Nat) (p : Process) : Kernel :=
  { k with proc := fun a => if a = self then p else k.proc a }

/-- Store through a `Thread*`. -/
def Kernel.set_thread (k : Kernel) (tid : Int) (t : Thread) : Kernel :=
  { k with thread := fun a => if a = tid then t else k.thread a }

/-! ## Process table lookups (TaskManager.cpp) -/

/-- TaskManager::process_for_pid. -/
def process_for_pid (k : Kernel) (pid : Int) : Except Result Nat :=
  if pid == 0 then
    .error ⟨-k.consts.ENOENT⟩
  else
    match k.processes.find? (fun cur => (k.proc cur).pid == pid && (k.proc cur).state != .DEAD) with
    | some cur => .ok cur
    | none => .error ⟨-k.consts.ENOENT⟩

/-- TaskManager::process_for_pgid. -/
def process_for_pgid (k : Kernel) (pgid : Int) (excl : Int) : Except Result Nat :=
  if pgid == 0 then
    .error ⟨-k.consts.ENOENT⟩
  else
    match k.processes.find? (fun cur =>
        (k.proc cur).pgid == pgid && (k.proc cur).pid != excl && (k.proc cur).state != .DEAD) with
    | some cur => .ok cur
    | none => .error ⟨-k.consts.ENOENT⟩

/-- TaskManager::process_for_ppid. -/
def process_for_ppid (k : Kernel) (ppid : Int) (excl : Int) : Except Result Nat :=
  if ppid == 0 then
    .error ⟨-k.consts.ENOENT⟩
  else
    match k.processes.find? (fun cur =>
        (k.proc cur).ppid == ppid && (k.proc cur).pid != excl && (k.proc cur).state != .DEAD) with
    | some cur => .ok cur
    | none => .error ⟨-k.consts.ENOENT⟩

/-- TaskManager::process_for_sid. -/
def process_for_sid (k : Kernel) (sid : Int) (excl : Int) : Except Result Nat :=
  if sid == 0 then
    .error ⟨-k.consts.ENOENT⟩
  else
    match k.processes.find? (fun cur =>
        (k.proc cur).sid == sid && (k.proc cur).pid != excl && (k.proc cur).state != .DEAD) with
    | some cur => .ok cur
    | none => .error ⟨-k.consts.ENOENT⟩

/-- The loop of TaskManager::reparent_orphans, the statements inside its
`CRITICAL_LOCK(g_tasking_lock)`; the whole call is `TaskManager.reparent_orphans`. -/
def reparent_orphans (k : Kernel) (dead : Nat) : Kernel :=
  k.processes.foldl
    (fun k1 process =>
      if (k1.proc process).ppid == (k1.proc dead).pid then
        k1.set_proc process { k1.proc process with ppid := 1 }
      else k1)
    k

/-- The statements of TaskManager::remove_process inside its `LOCK(g_process_lock)`: the first
table slot holding `proc` is erased. The whole call is `TaskManager.remove_process`. -/
def remove_process (k : Kernel) (proc : Nat) : Kernel :=
  { k with processes := k.processes.erase proc }

/-! ## Process lifecycle (Process.cpp) -/

/-- Assignment `m[key] = v` on a kstd::map, kept as an association list. -/
def map_assign (m : List (Int × Nat)) (key : Int) (v : Nat) : List (Int × Nat) :=
  if m.any (fun e => e.1 == key) then
    m.map (fun e => if e.1 == key then (key, v) else e)
  else
    m ++ [(key, v)]

/-- Atomic compare_exchange_strong on a boolean holding `cur`: the success flag and the value
the atomic holds afterwards. -/
def compare_exchange_strong (cur expected desired : Bool) : Bool × Bool :=
  if cur == expected then (true, desired) else (false, cur)

/-- The statement `delete this` of a Process, without the lock scope of remove_process: the
destructor takes the object out of the process table; the deletion is recorded in the ghost log.
The detaching of tracers is not modelled. The whole statement is `Process.delete_this`. -/
def delete_this (k : Kernel) (self : Nat) : Kernel :=
  { remove_process k self with deleted := k.deleted ++ [self] }

/-- The statements of Process::remove_thread inside its `LOCK(_thread_lock)`; the whole call is
`Process.remove_thread`. -/
def remove_thread (k : Kernel) (self : Nat) (thread : Int) : Kernel :=
  let p := k.proc self
  k.set_proc self
    { p with
      thread_return_values := map_assign p.thread_return_values thread (k.thread thread).return_value
      threads := p.threads.filter (fun t => t != thread)
      tids := p.tids.erase thread }

/-- The writes of Process::alert_thread_died to the process objects, the table and the logs,
without the lock scopes of the functions it calls. The call `parent.value()->kill(SIGCHLD)` is
recorded in `kill_log` and not run here. The whole call, with the lock scopes and with the kill
run in place, is `Process.alert_thread_died`. -/
def alert_thread_died (k : Kernel) (self : Nat) (thread : Int) : Kernel :=
  let k1 := remove_thread k self thread
  if (k1.proc self).threads.length == 0 then
    let k2 :=
      match process_for_pid k1 (k1.proc self).ppid with
      | .ok parent =>
        if parent != self then
          { k1 with kill_log := k1.kill_log ++ [(parent, k1.consts.SIGCHLD)] }
        else k1
      | .error _ => k1
    let k3 := reparent_orphans k2 self
    let r := compare_exchange_strong (k3.proc self).ready_to_destroy false true
    if r.1 then
      k3.set_proc self { k3.proc self with ready_to_destroy := r.2, state := .ZOMBIE }
    else
      delete_this k3 self
  else k1

/-- Process::reap without the lock scope of remove_process inside `delete this`; the whole call
is `Process.reap`. -/
def reap (k : Kernel) (self : Nat) : Kernel :=
  let r := compare_exchange_strong (k.proc self).ready_to_destroy false true
  let k1 := k.set_proc self { k.proc self with ready_to_destroy := r.2 }
  if !r.1 then delete_this k1 self else k1

/-! ## Sequences of destruction calls on one process -/

/-- The two calls of the destruction protocol. -/
inductive LifeCall where
  | reap
  | alert_thread_died (thread : Int)
deriving DecidableEq, Repr

/-- One call on the process at `self`. Once the object has been deleted no further call is made
on it. -/
def life_step (self : Nat) (k : Kernel) (c : LifeCall) : Kernel :=
  if self ∈ k.deleted then k
  else
    match c with
    | .reap => reap k self
    | .alert_thread_died t => alert_thread_died k self t

/-- A sequence of calls on the process at `self`, run from left to right. -/
def life_run (self : Nat) (k : Kernel) (cs : List LifeCall) : Kernel :=
  cs.foldl (life_step self) k

/-- Every alert_thread_died call of the sequence reports a thread that is in the thread set of
the process when the call is made. -/
def reports_own_threads (self : Nat) : Kernel → List LifeCall → Bool
  | _, [] => true
  | k, c :: cs =>
    (match c with
      | .reap => true
      | .alert_thread_died t => decide (self ∈ k.deleted) || decide (t ∈ (k.proc self).threads)) &&
    reports_own_threads self (life_step self k c) cs

/-! ## Critical sections (TaskManager.cpp) and the Mutex (Mutex.cpp)

`Atomic<T>::add` and `Atomic<T>::sub` (Atomic.h is not among the sources) are fetch-and-add and
fetch-and-sub: they return the value held before the update, which is how `release` ("if the
counter is zero, release the lock") and `leave_critical` use their results. -/

/-- TaskManager::enter_critical. -/
def enter_critical (k : Kernel) : Kernel :=
  { k with interrupts_enabled := false, g_critical_count := k.g_critical_count + 1 }

/-- TaskManager::leave_critical. -/
def leave_critical (k : Kernel) : Except String Kernel :=
  if k.g_critical_count > 0 then
    .ok { k with
          g_critical_count := k.g_critical_count - 1
          interrupts_enabled := if k.g_critical_count == 1 then true else k.interrupts_enabled }
  else
    .error "Assertion failed: g_critical_count.load() > 0"

/-- TaskManager::in_critical. -/
def in_critical (k : Kernel) : Bool :=
  k.g_critical_count != 0

/-- The template parameter Mutex::AcquireMode. -/
inductive AcquireMode where
  | Normal
  | Try
  | EnterCritical
deriving DecidableEq, Repr

/-- How a call on a Mutex ends: it returns (with its boolean result, `true` for a void function),
or it has reached `TaskManager::yield()` inside the acquire loop. In the second case the call has
not returned: once the thread runs again the loop body is run again from the top, on the Mutex as
the other threads have left it. -/
inductive Acquired where
  | returned (ret : Bool)
  | yields
deriving DecidableEq, Repr

/-- Mutex::release. The bookkeeping call `released_lock` on the current thread (Thread.cpp, not
among the sources) is dropped. -/
def Mutex.release (k : Kernel) (m : Mutex) : Except String (Kernel × Mutex) :=
  if !k.tasking_enabled || k.g_panicking then
    .ok (k, m)
  else
    let k1 := enter_critical k
    let old := m.times_locked
    let m1 := { m with times_locked := m.times_locked - 1 }
    let m2 := if old == 1 then { m1 with holding_thread := -1 } else m1
    match leave_critical k1 with
    | .ok k2 => .ok (k2, m2)
    | .error e => .error e

/-- Mutex::acquire_with_mode, up to the first exit of its loop. The bookkeeping call
`acquired_lock` and the debug-only contest counter are dropped. -/
def Mutex.acquire_with_mode (mode : AcquireMode) (k : Kernel) (m : Mutex) :
    Except String (Acquired × Kernel × Mutex) :=
  match k.cur_thread with
  | none => .ok (.returned true, k, m)
  | some cur_tid =>
    if !k.tasking_enabled || k.g_panicking then
      .ok (.returned true, k, m)
    else
      let k1 := if mode == .EnterCritical then enter_critical k else k
      if m.holding_thread == -1 then
        .ok (.returned true, k1, { holding_thread := cur_tid, times_locked := m.times_locked + 1 })
      else if m.holding_thread == cur_tid then
        .ok (.returned true, k1, { m with times_locked := m.times_locked + 1 })
      else
        match mode with
        | .Try => .ok (.returned false, k1, m)
        | .Normal => .ok (.yields, k1, m)
        | .EnterCritical =>
          match leave_critical k1 with
          | .error e => .error e
          | .ok k2 =>
            if in_critical k2 then .error "Assertion failed: !TaskManager::in_critical()"
            else .ok (.yields, k2, m)

/-- Mutex::acquire. -/
def Mutex.acquire (k : Kernel) (m : Mutex) : Except String (Acquired × Kernel × Mutex) :=
  match Mutex.acquire_with_mode .Normal k m with
  | .error e => .error e
  | .ok (.yields, k1, m1) => .ok (.yields, k1, m1)
  | .ok (.returned r, k1, m1) =>
    if !in_critical k1 || k1.g_panicking then .ok (.returned r, k1, m1)
    else .error "Assertion failed: !TaskManager::in_critical() || g_panicking"

/-- Mutex::try_acquire. -/
def Mutex.try_acquire (k : Kernel) (m : Mutex) : Except String (Acquired × Kernel × Mutex) :=
  Mutex.acquire_with_mode .Try k m

/-- Mutex::acquire_and_enter_critical. -/
def Mutex.acquire_and_enter_critical (k : Kernel) (m : Mutex) :
    Except String (Acquired × Kernel × Mutex) :=
  Mutex.acquire_with_mode .EnterCritical k m

/-- Mutex::locked. -/
def Mutex.locked (m : Mutex) : Bool :=
  m.holding_thread != -1

/-- Mutex::held_by_current_thread. -/
def Mutex.held_by_current_thread (k : Kernel) (m : Mutex) : Bool :=
  match k.cur_thread with
  | none => true
  | some tid => tid == m.holding_thread

/-- The four calls a thread can make on a Mutex. -/
inductive MutexCall where
  | acquire
  | try_acquire
  | acquire_and_enter_critical
  | release
deriving DecidableEq, Repr

/-- One call on a Mutex, made in kernel state `k` by the thread `k.cur_thread`. -/
def mutex_call (c : MutexCall) (k : Kernel) (m : Mutex) :
    Except String (Acquired × Kernel × Mutex) :=
  match c with
  | .acquire => Mutex.acquire k m
  | .try_acquire => Mutex.try_acquire k m
  | .acquire_and_enter_critical => Mutex.acquire_and_enter_critical k m
  | .release =>
    match Mutex.release k m with
    | .ok (k1, m1) => .ok (.returned true, k1, m1)
    | .error e => .error e

/-- The same call made `n` times in a row by the current thread. A call that ends in
`yield` has not returned, so the next call cannot be made: the run stops there. -/
def call_n (c : MutexCall) : Nat → Kernel → Mutex → Except String (Kernel × Mutex)
  | 0, k, m => .ok (k, m)
  | n + 1, k, m =>
    match mutex_call c k m with
    | .ok (.returned _, k1, m1) => call_n c n k1 m1
    | .ok (.yields, _, _) => .error "the call has not returned"
    | .error e => .error e

/-- The Mutex after one call made in kernel state `k`. A call that panics halts the kernel and
a call that yields has not got the lock: both leave the Mutex as it was. -/
def mutex_after (c : MutexCall) (k : Kernel) (m : Mutex) : Mutex :=
  match mutex_call c k m with
  | .ok (_, _, m1) => m1
  | .error _ => m

/-- A sequence of calls on one Mutex, each made in a kernel state of its own (any thread
current, tasking enabled or not), run from left to right. -/
def mutex_run (calls : List (MutexCall × Kernel)) (m : Mutex) : Mutex :=
  calls.foldl (fun m1 c => mutex_after c.1 c.2 m1) m

/-- The calls of the sequence are made by threads with a tid other than `-1`, and a release()
that takes effect (tasking enabled, no panic in progress) is only made while the counter is
positive. -/
def releases_held : Mutex → List (MutexCall × Kernel) → Bool
  | _, [] => true
  | m, c :: cs =>
    decide (c.2.cur_thread ≠ some (-1)) &&
    (!(c.1 == .release && c.2.tasking_enabled && !c.2.g_panicking) || decide (0 < m.times_locked)) &&
    releases_held (mutex_after c.1 c.2 m) cs

/-! ## The run queue (TaskManager.cpp)

The run queue is the chain of `Thread` objects linked through their "next" pointers, entered at
the cursor `g_next_thread`. It is kept as the list of the threads on the chain, the cursor's
thread first; a null cursor is the empty list. -/

/-- Modelled from the spec: Thread::enqueue_thread (Thread.cpp is not among the sources), called
on the first thread of a chain. The spec has queue_thread append the thread "to the tail of the
run queue": the thread is linked behind the last thread of the chain. Neither the sources nor
the spec say what the call does with a thread that is on the chain already; the list is the
chain for a thread that is not on it. -/
def enqueue_thread (chain : List Int) (thread : Int) : List Int :=
  chain ++ [thread]

/-- Modelled from the spec: Thread::next_thread (Thread.cpp is not among the sources), called on
the first thread of a chain: the chain that starts at its successor. -/
def next_thread (chain : List Int) : List Int :=
  chain.tail

/-- Process::get_thread: the Arc stored under `tid` in the map `_threads`, null if there is
none. -/
def get_thread (k : Kernel) (self : Nat) (tid : Int) : Option Int :=
  if tid ∈ (k.proc self).threads then some tid else none

/-- TaskManager::queue_thread. -/
def queue_thread (k : Kernel) (thread : Option Int) : Except String Kernel :=
  match thread with
  | none => .ok k
  | some t =>
    if t == (k.proc k.kernel_process).pid then .ok k
    else if (k.thread t).state != .ALIVE then .ok k
    else
      let k1 := enter_critical k
      let k2 :=
        if k1.g_next_thread != [] then
          { k1 with g_next_thread := enqueue_thread k1.g_next_thread t }
        else
          { k1 with g_next_thread := [t] }
      leave_critical k2

/-- The loop at the head of pick_next_thread: while the cursor is not null and its thread cannot
be run, the cursor moves to the next thread (`next_thread (t :: rest)` is `rest`). -/
def skip_unrunnable (k : Kernel) : List Int → List Int
  | [] => []
  | t :: rest => if (k.thread t).can_be_run then t :: rest else skip_unrunnable k rest

/-- TaskManager::pick_next_thread: the thread picked and the kernel state left behind.
Dereferencing a null `cur_thread`, or the null Arc that get_thread returns when the kernel
process has lost its idle thread, is a fault and ends the run like a panic. -/
def pick_next_thread (k : Kernel) : Except String (Int × Kernel) :=
  if !Mutex.held_by_current_thread k k.g_tasking_lock then
    .error "Assertion failed: g_tasking_lock.held_by_current_thread()"
  else
    let k1 := { k with g_next_thread := skip_unrunnable k k.g_next_thread }
    match k1.g_next_thread with
    | [] =>
      match k1.cur_thread with
      | none => .error "null dereference: cur_thread"
      | some cur =>
        if (k1.thread cur).can_be_run then .ok (cur, k1)
        else
          match get_thread k1 k1.kernel_process (k1.proc k1.kernel_process).pid with
          | none => .error "null dereference: idle thread"
          | some idle =>
            if (k1.thread idle).state != .ALIVE then
              .error "KTHREAD_DEADLOCK: The kernel idle thread is blocked!"
            else .ok (idle, k1)
    | next :: rest => .ok (next, { k1 with g_next_thread := next_thread (next :: rest) })

/-- Successive pick_next_thread calls: the threads picked, in order, and the final state. -/
def pick_times : Nat → Kernel → Except String (List Int × Kernel)
  | 0, k => .ok ([], k)
  | n + 1, k =>
    match pick_next_thread k with
    | .error e => .error e
    | .ok (t, k1) =>
      match pick_times n k1 with
      | .error e => .error e
      | .ok (ts, k2) => .ok (t :: ts, k2)

/-! ## Process ids and critical-section sequences (TaskManager.cpp) -/

/-- A value of the C type `int`: the integer reduced into the 32-bit two's complement range. -/
def wrap_int32 (x : Int) : Int :=
  (x + 2147483648) % 4294967296 - 2147483648

/-- TaskManager::get_new_pid: `next_pid.add(1)` hands out the value the counter held and
advances the counter by one, modulo 2^32. -/
def get_new_pid (k : Kernel) : Int × Kernel :=
  (k.next_pid, { k with next_pid := wrap_int32 (k.next_pid + 1) })

/-- The ids handed out by `n` successive get_new_pid calls, in call order, and the final
state. -/
def get_new_pids : Nat → Kernel → List Int × Kernel
  | 0, k => ([], k)
  | n + 1, k =>
    ((get_new_pid k).1 :: (get_new_pids n (get_new_pid k).2).1,
      (get_new_pids n (get_new_pid k).2).2)

/-- The two calls that open and close a critical section. -/
inductive CriticalCall where
  | enter_critical
  | leave_critical
deriving DecidableEq, Repr

/-- One call on the critical-section counter. -/
def critical_step (k : Kernel) (c : CriticalCall) : Except String Kernel :=
  match c with
  | .enter_critical => .ok (enter_critical k)
  | .leave_critical => leave_critical k

/-- A sequence of enter_critical / leave_critical calls, run from left to right; a failed
assertion ends the run. -/
def critical_run : List CriticalCall → Kernel → Except String Kernel
  | [], k => .ok k
  | c :: cs, k =>
    match critical_step k c with
    | .ok k1 => critical_run cs k1
    | .error e => .error e

/-- The sequence is well bracketed from nesting depth `depth`: no prefix of it holds more
leave_critical calls than `depth` plus its enter_critical calls. -/
def well_bracketed : Nat → List CriticalCall → Bool
  | _, [] => true
  | depth, .enter_critical :: cs => well_bracketed (depth + 1) cs
  | 0, .leave_critical :: _ => false
  | depth + 1, .leave_critical :: cs => well_bracketed depth cs

/-! ## Thread member functions used by Process and TaskManager

Thread.cpp is not among the sources: each function below is modelled from what the spec says
about it, and every call is recorded in a ghost log of the kernel state. -/

/-- Modelled from the spec: Thread::is_blocked (Thread.cpp is not among the sources); the thread
is in state Blocked. -/
def Thread.is_blocked (t : Thread) : Bool :=
  t.state == .BLOCKED

/-- Modelled from the spec: Thread::unblock (Thread.cpp is not among the sources). The spec has
a thread whose blocker reports ready "transitioned to Alive and enqueued". -/
def Thread.unblock (k : Kernel) (tid : Int) : Except String Kernel :=
  queue_thread
    ({ k with unblock_log := k.unblock_log ++ [tid] }.set_thread tid
      { k.thread tid with state := .ALIVE })
    (some tid)

/-- Modelled from the spec: Thread::interrupt (Thread.cpp is not among the sources). The spec has
interrupt() force "an early wake of a blocked thread", the transition from Blocked to Alive that
the unblock pass makes when the blocker is ready: the thread becomes Alive and is enqueued. -/
def Thread.interrupt (k : Kernel) (tid : Int) : Except String Kernel :=
  queue_thread
    ({ k with interrupt_log := k.interrupt_log ++ [tid] }.set_thread tid
      { k.thread tid with state := .ALIVE })
    (some tid)

/-- Modelled from the spec: Thread::handle_signal (Thread.cpp is not among the sources). The
answer - whether the thread is able to handle the signal - is the given `accepts_signal`; the
call is recorded, what it stores in the thread is not modelled. -/
def Thread.handle_signal (k : Kernel) (tid : Int) (signal : Int) : Kernel × Bool :=
  ({ k with signal_log := k.signal_log ++ [(tid, signal)] }, k.accepts_signal tid signal)

/-- Modelled from the spec: Thread::enter_critical (Thread.cpp is not among the sources): the
thread enters "the caller's own critical section" (spec, on die()), during which work on the
thread is deferred. It is kept by the thread, apart from the interrupt-masking count of
TaskManager: Process::kill and Process::die go on to for_each_thread right after it, whose
LOCK(_thread_lock) reaches the assertion of Mutex::acquire that this count is zero. No function
among the sources reads it, and the kernel state is as before. -/
def Thread.enter_critical (k : Kernel) (_tid : Int) : Kernel :=
  k

/-- Modelled from the spec: Thread::leave_critical (Thread.cpp is not among the sources): the
thread leaves its own critical section. The deferred work of the thread that the spec lets run
at this point (signal dispatch, the end of a death sequence) is not modelled. -/
def Thread.leave_critical (k : Kernel) (_tid : Int) : Except String Kernel :=
  .ok k

/-! ## Signals, stop and continue (Process.cpp) -/

/-- Process::for_each_thread, from the position in `_tids` where `rest` starts. The callback
gets the kernel state, the local variables `acc` it has captured by reference and the thread; it
gives back both and its boolean result, `false` to break out of the loop. -/
def for_each_thread_from {σ : Type} (self : Nat)
    (callback : Kernel → σ → Int → Except String (Kernel × σ × Bool)) :
    List Int → Kernel → σ → Except String (Kernel × σ)
  | [], k, acc => .ok (k, acc)
  | tid :: rest, k, acc =>
    match get_thread k self tid with
    | none => for_each_thread_from self callback rest k acc
    | some thread =>
      match callback k acc thread with
      | .error e => .error e
      | .ok (k1, acc1, go_on) =>
        if go_on then for_each_thread_from self callback rest k1 acc1 else .ok (k1, acc1)

/-- The loop of Process::for_each_thread, the statements inside its `LOCK(_thread_lock)`; the
whole call is `Process.for_each_thread`. -/
def for_each_thread {σ : Type} (k : Kernel) (self : Nat) (acc : σ)
    (callback : Kernel → σ → Int → Except String (Kernel × σ × Bool)) :
    Except String (Kernel × σ) :=
  for_each_thread_from self callback (k.proc self).tids k acc

/-- The lambda Process::stop passes to for_each_thread: a blocked thread is interrupted. -/
def stop_callback (k : Kernel) (_acc : Unit) (thread : Int) :
    Except String (Kernel × Unit × Bool) :=
  if (k.thread thread).is_blocked then
    match Thread.interrupt k thread with
    | .ok k1 => .ok (k1, (), true)
    | .error e => .error e
  else .ok (k, (), true)

/-- Process::stop: the boolean result and the kernel state, the loop over the threads without
the lock scope of for_each_thread. The whole call is `Process.stop`. -/
def stop (k : Kernel) (self : Nat) (signal : Int) : Except String (Bool × Kernel) :=
  let r := compare_exchange_strong (k.proc self).stopping false true
  let k1 := k.set_proc self { k.proc self with stopping := r.2 }
  if r.1 then
    match for_each_thread { k1 with wait_log := k1.wait_log ++ [(self, signal)] } self ()
        stop_callback with
    | .ok (k2, _) => .ok (true, k2)
    | .error e => .error e
  else .ok (false, k1)

/-- The lambda Process::notify_thread_stopping passes to for_each_thread; `all_stopped` is the
local variable it captures. -/
def notify_callback (stopping_thread : Option Int) (k : Kernel) (all_stopped : Bool)
    (thread : Int) : Except String (Kernel × Bool × Bool) :=
  let all_stopped1 :=
    if some thread != stopping_thread && (k.thread thread).state != .STOPPED then false
    else all_stopped
  .ok (k, all_stopped1, all_stopped1)

/-- Process::notify_thread_stopping. -/
def notify_thread_stopping (k : Kernel) (self : Nat) (stopping_thread : Option Int) :
    Except String Kernel :=
  match for_each_thread k self true (notify_callback stopping_thread) with
  | .ok (k1, all_stopped) =>
    if all_stopped then .ok (k1.set_proc self { k1.proc self with state := .STOPPED })
    else .ok k1
  | .error e => .error e

/-- The lambda Process::cont passes to for_each_thread: the thread is made Alive and queued. -/
def cont_callback (k : Kernel) (_acc : Unit) (thread : Int) :
    Except String (Kernel × Unit × Bool) :=
  match queue_thread (k.set_thread thread { k.thread thread with state := .ALIVE })
      (some thread) with
  | .ok k1 => .ok (k1, (), true)
  | .error e => .error e

/-- The statements of Process::cont that follow its `LOCK(m_starting_lock)`, the loop over the
threads without the lock scope of for_each_thread. The whole call is `Process.cont`. -/
def cont (k : Kernel) (self : Nat) : Except String Kernel :=
  if (k.proc self).state != .STOPPED then .ok k
  else
    match for_each_thread (k.set_proc self { k.proc self with state := .ALIVE }) self ()
        cont_callback with
    | .ok (k1, _) => .ok (k1.set_proc self { k1.proc self with stopping := false })
    | .error e => .error e

/-- The lambda Process::kill passes to for_each_thread; `did_handle` is the local variable it
captures. -/
def kill_callback (signal : Int) (k : Kernel) (_did_handle : Bool) (thread : Int) :
    Except String (Kernel × Bool × Bool) :=
  let r := Thread.handle_signal k thread signal
  .ok (r.1, r.2, !r.2)

/-- Process::kill, with stop, cont and the loop over the threads without their lock scopes; the
whole call is `Process.kill`. A null `TaskManager::current_thread()` is dereferenced by the call
of its enter_critical: a fault, which ends the run like a panic. -/
def kill (k : Kernel) (self : Nat) (signal : Int) : Except String Kernel :=
  if signal ≤ 0 || signal ≥ k.consts.NSIG then .ok k
  else if signal == k.consts.SIGSTOP || signal == k.consts.SIGTSTP then
    match stop k self signal with
    | .ok (_, k1) => .ok k1
    | .error e => .error e
  else if signal == k.consts.SIGCONT then cont k self
  else
    match k.cur_thread with
    | none => .error "null dereference: current_thread"
    | some cur =>
      match for_each_thread (Thread.enter_critical k cur) self false (kill_callback signal) with
      | .ok (k1, _) => Thread.leave_critical k1 cur
      | .error e => .error e

/-! ## Preemption (TaskManager.cpp)

The floating-point state and the page directory handed to `preempt_asm` are not modelled; the
context switch itself is recorded in `switch_log`. -/

/-- The body of the inner loop of the unblock pass of preempt, for one entry of `_tids`. -/
def unblock_if_ready (process : Nat) (k : Kernel) (tid : Int) : Except String Kernel :=
  match get_thread k process tid with
  | none => .ok k
  | some thread =>
    if (k.thread thread).state == .BLOCKED && (k.thread thread).should_unblock then
      Thread.unblock k thread
    else .ok k

/-- The inner loop of the unblock pass of preempt, over the `_tids` of one process. -/
def unblock_threads (process : Nat) : List Int → Kernel → Except String Kernel
  | [], k => .ok k
  | tid :: rest, k =>
    match unblock_if_ready process k tid with
    | .ok k1 => unblock_threads process rest k1
    | .error e => .error e

/-- The outer loop of the unblock pass of preempt, over the process table. -/
def unblock_processes : List Nat → Kernel → Except String Kernel
  | [], k => .ok k
  | process :: rest, k =>
    if (k.proc process).state != .ALIVE && (k.proc process).state != .STOPPED then
      unblock_processes rest k
    else
      match unblock_threads process (k.proc process).tids k with
      | .ok k1 => unblock_processes rest k1
      | .error e => .error e

/-- The unblock pass of preempt: `if(g_process_lock.try_acquire())` and its body. -/
def unblock_pass (k : Kernel) : Except String Kernel :=
  match Mutex.try_acquire k k.g_process_lock with
  | .error e => .error e
  | .ok (r, k1, m1) =>
    let k2 := { k1 with g_process_lock := m1 }
    if r = .returned true then
      match unblock_processes k2.processes k2 with
      | .error e => .error e
      | .ok k3 =>
        match Mutex.release k3 k3.g_process_lock with
        | .ok (k4, m4) => .ok { k4 with g_process_lock := m4 }
        | .error e => .error e
    else .ok k2

/-- TaskManager::preempt_finish. -/
def preempt_finish (k : Kernel) : Except String Kernel :=
  if k.g_tasking_lock.times_locked != 1 then
    .error "Assertion failed: g_tasking_lock.times_locked() == 1"
  else
    match Mutex.release k k.g_tasking_lock with
    | .error e => .error e
    | .ok (k1, m1) =>
      match leave_critical { k1 with g_tasking_lock := m1 } with
      | .error e => .error e
      | .ok k2 =>
        match k2.cur_thread with
        | none => .error "null dereference: cur_thread"
        | some cur => Thread.leave_critical (Thread.enter_critical k2 cur) cur

/-- The part of TaskManager::preempt from "Pick a new thread" to the end, `old_thread` being the
copy of `cur_thread` taken before the pick. A null `old_thread` is dereferenced when the place
for the outgoing stack pointer is chosen (the test for it is not followed by an `else`): a
fault, which ends the run like a panic. -/
def preempt_switch (k : Kernel) : Except String Kernel :=
  let old_thread := k.cur_thread
  match pick_next_thread k with
  | .error e => .error e
  | .ok (next, k1) =>
    let should_preempt := old_thread != some next
    match old_thread with
    | none => .error "null dereference: old_thread"
    | some old =>
      let old_esp :=
        if (k1.thread old).in_signal_handler then EspSlot.signal_registers old
        else EspSlot.registers old
      let finished := (k1.thread old).just_finished_signal
      let k2 :=
        if finished then
          k1.set_thread old
            { k1.thread old with just_finished_signal := false, in_signal_handler := false }
        else k1
      let should_preempt1 := if finished then true else should_preempt
      let ready := (k2.thread next).ready_to_handle_signal
      let k3 :=
        if ready then
          k2.set_thread next
            { k2.thread next with in_signal_handler := true, ready_to_handle_signal := false }
        else k2
      let should_preempt2 := if ready then true else should_preempt1
      let new_esp :=
        if (k3.thread next).in_signal_handler then EspSlot.signal_registers next
        else EspSlot.registers next
      let k4 :=
        if (k3.thread next).in_signal_handler then
          { k3 with tss_esp0 := StackTop.signal_stack_top next }
        else
          { k3 with tss_esp0 := StackTop.kernel_stack_top next }
      let k5 :=
        if should_preempt2 then
          k4.set_proc (k4.thread next).process
            { k4.proc (k4.thread next).process with last_active_thread := next }
        else k4
      let k6 := { k5 with preempting := false }
      if !(k6.thread next).can_be_run then
        .error "INVALID_CONTEXT_SWITCH: Tried to switch to a thread that cannot be run"
      else if should_preempt2 then
        match
          (if old != (k6.proc k6.kernel_process).pid && (k6.thread old).can_be_run then
            queue_thread k6 (some old)
          else .ok k6) with
        | .error e => .error e
        | .ok k7 =>
          preempt_finish
            { k7 with cur_thread := some next, switch_log := k7.switch_log ++ [(old_esp, new_esp)] }
      else preempt_finish k6

/-- TaskManager::preempt. If the tasking lock is held by another thread, the loop of
acquire_and_enter_critical ends in `yield`, which cannot get the lock either: the call does not
return, and the run ends there. -/
def preempt (k : Kernel) : Except String Kernel :=
  if !k.tasking_enabled then .ok k
  else if k.g_critical_count != 0 then .error "Assertion failed: !g_critical_count.load()"
  else
    match Mutex.acquire_and_enter_critical k k.g_tasking_lock with
    | .error e => .error e
    | .ok (.yields, _, _) => .error "preempt does not return: g_tasking_lock is held"
    | .ok (.returned _, k1, m1) =>
      match unblock_pass { k1 with g_tasking_lock := m1, preempting := true } with
      | .error e => .error e
      | .ok k2 => preempt_switch k2

/-- TaskManager::yield: the boolean result and the kernel state. -/
def yield (k : Kernel) : Except String (Bool × Kernel) :=
  if k.preempting then .error "Assertion failed: !preempting"
  else if k.in_interrupt then .ok (false, { k with yield_async := true })
  else
    match preempt k with
    | .ok k1 => .ok (true, k1)
    | .error e => .error e

/-- TaskManager::tick. -/
def tick (k : Kernel) : Except String Kernel :=
  if !k.in_interrupt then .error "Assertion failed: Processor::in_interrupt()"
  else
    match yield k with
    | .ok (_, k1) => .ok k1
    | .error e => .error e

/-- TaskManager::do_yield_async. -/
def do_yield_async (k : Kernel) : Except String Kernel :=
  if k.yield_async then preempt { k with yield_async := false } else .ok k

/-- The threads a signal is offered to: those of the list, in order, up to and including the
first one that accepts it. -/
def offered_threads (accepts : Int → Bool) : List Int → List Int
  | [] => []
  | t :: rest => if accepts t then [t] else t :: offered_threads accepts rest

/-- The threads for_each_thread calls back on: the entries of `_tids`, in order, that have a
thread in the map `_threads`. -/
def visited_threads (k : Kernel) (self : Nat) : List Int :=
  (k.proc self).tids.filter (fun tid => decide (tid ∈ (k.proc self).threads))

/-! ## The step relation of the Process operations -/

/-- The calls `parent->kill(SIGCHLD)` that `alert_thread_died` has recorded in `kill_log`, made
in order (`kill`, without lock scopes). -/
def deliver_kills : List (Nat × Int) → Kernel → Except String Kernel
  | [], k => .ok k
  | (process, signal) :: rest, k =>
    match kill k process signal with
    | .ok k1 => deliver_kills rest k1
    | .error e => .error e

/-- One call of an operation of Process, on the process object at `process`. -/
inductive ProcCall where
  | kill (process : Nat) (signal : Int)
  | stop (process : Nat) (signal : Int)
  | notify_thread_stopping (process : Nat) (stopping_thread : Option Int)
  | cont (process : Nat)
  | alert_thread_died (process : Nat) (thread : Int)
  | reap (process : Nat)
deriving DecidableEq, Repr

/-- The process object a call is made on. -/
def ProcCall.process : ProcCall → Nat
  | .kill p _ => p
  | .stop p _ => p
  | .notify_thread_stopping p _ => p
  | .cont p => p
  | .alert_thread_died p _ => p
  | .reap p => p

/-- One call, run to its end, without lock scopes. `alert_thread_died` is followed by the
`parent->kill(SIGCHLD)` it has recorded: that call reads and writes the parent's state and flags,
its threads, the run queue and the critical-section counter, none of which the rest of
alert_thread_died reads or writes. A panic or fault ends the run. -/
def proc_call (k : Kernel) : ProcCall → Except String Kernel
  | .kill p signal => kill k p signal
  | .stop p signal =>
    match stop k p signal with
    | .ok (_, k1) => .ok k1
    | .error e => .error e
  | .notify_thread_stopping p t => notify_thread_stopping k p t
  | .cont p => cont k p
  | .alert_thread_died p t =>
    deliver_kills ((alert_thread_died k p t).kill_log.drop k.kill_log.length)
      (alert_thread_died k p t)
  | .reap p => .ok (reap k p)

/-- One step of the relation generated by the operations of Process. Once a process object has
been deleted no further call is made on it. -/
def proc_step (k : Kernel) (c : ProcCall) : Except String Kernel :=
  if c.process ∈ k.deleted then .ok k else proc_call k c

/-- A sequence of steps, run from left to right up to the first panic. -/
def proc_run : Kernel → List ProcCall → Except String Kernel
  | k, [] => .ok k
  | k, c :: cs =>
    match proc_step k c with
    | .ok k1 => proc_run k1 cs
    | .error e => .error e

/-! ## Thread lookup and group signals (TaskManager.cpp) -/

/-- The inner loop of TaskManager::thread_for_tid over `cur->threads()`, the vector `_tids` of the
process `cur`: `none` when the loop ends without a return. -/
def thread_for_tid_threads (k : Kernel) (cur : Nat) (tid : Int) :
    List Int → Option (Except Result Int)
  | [] => none
  | thread :: rest =>
    if thread != tid then thread_for_tid_threads k cur tid rest
    else
      match get_thread k cur thread with
      | some threadobj => some (.ok threadobj)
      | none => some (.error ⟨k.consts.ENOENT⟩)

/-- The outer loop of TaskManager::thread_for_tid over the process table. -/
def thread_for_tid_processes (k : Kernel) (tid : Int) : List Nat → Except Result Int
  | [] => .error ⟨k.consts.ENOENT⟩
  | cur :: rest =>
    if (k.proc cur).pid == 0 || (k.proc cur).state != .DEAD then
      match thread_for_tid_threads k cur tid (k.proc cur).tids with
      | some r => r
      | none => thread_for_tid_processes k tid rest
    else thread_for_tid_processes k tid rest

/-- TaskManager::thread_for_tid. -/
def thread_for_tid (k : Kernel) (tid : Int) : Except Result Int :=
  if tid == 0 then .error ⟨-k.consts.ENOENT⟩
  else thread_for_tid_processes k tid k.processes

/-- The loop of TaskManager::kill_pgid over the process table: the first process of the group is
sent the signal and the function returns. -/
def kill_pgid_processes (pgid sig : Int) : List Nat → Kernel → Except String Kernel
  | [], k => .ok k
  | cur :: rest, k =>
    if (k.proc cur).pgid == pgid then kill k cur sig
    else kill_pgid_processes pgid sig rest k

/-- TaskManager::kill_pgid. -/
def kill_pgid (k : Kernel) (pgid sig : Int) : Except String Kernel :=
  if pgid == 0 then .ok k
  else kill_pgid_processes pgid sig k.processes k

/-! ## The thread set of a process (Process.cpp) -/

/-- Process::insert_thread. The assignment `_threads[tid] = thread` adds the key `tid` to the map
when the map does not hold it and replaces the Arc stored under it otherwise. -/
def insert_thread (k : Kernel) (self : Nat) (thread : Int) : Kernel :=
  let p := k.proc self
  k.set_proc self
    { p with
      threads := if thread ∈ p.threads then p.threads else p.threads ++ [thread]
      tids := p.tids ++ [thread] }

/-- The value a kstd::map kept as an association list holds under `key`. -/
def map_lookup (m : List (Int × Nat)) (key : Int) : Option Nat :=
  (m.find? (fun e => e.1 == key)).map (fun e => e.2)

/-- The two calls that change the thread set of a process. -/
inductive ThreadSetCall where
  | insert_thread (thread : Int)
  | remove_thread (thread : Int)
deriving DecidableEq, Repr

/-- One call on the process at `self`. -/
def thread_set_step (self : Nat) (k : Kernel) (c : ThreadSetCall) : Kernel :=
  match c with
  | .insert_thread t => insert_thread k self t
  | .remove_thread t => remove_thread k self t

/-- A sequence of insert_thread / remove_thread calls on the process at `self`, run from left to
right. -/
def thread_set_run (self : Nat) (k : Kernel) (cs : List ThreadSetCall) : Kernel :=
  cs.foldl (thread_set_step self) k

/-- No insert_thread call of the sequence inserts a tid that `_tids` holds when the call is
made. -/
def inserts_absent (self : Nat) : Kernel → List ThreadSetCall → Bool
  | _, [] => true
  | k, c :: cs =>
    (match c with
      | .insert_thread t => !decide (t ∈ (k.proc self).tids)
      | .remove_thread _ => true) &&
    inserts_absent self (thread_set_step self k c) cs

/-- The ids a sequence of calls leaves, in insertion order: an insert_thread puts its tid behind
the ids present, a remove_thread takes its tid out and keeps the others in their order. -/
def ids_in_insertion_order : List Int → List ThreadSetCall → List Int
  | ids, [] => ids
  | ids, .insert_thread t :: cs => ids_in_insertion_order (ids ++ [t]) cs
  | ids, .remove_thread t :: cs => ids_in_insertion_order (ids.filter (fun x => x != t)) cs

/-! ## kstd::string (kstd/string.cpp)

A `char` is kept as its numeric value, a C string as the list of the chars of its buffer, the
terminating zero included. `size_t` arithmetic is modulo 2^bits, `bits` being the width of
`size_t` on the target. -/

/-- The members `_cstring` (the buffer, `_size` chars long) and `_length` of a kstd::string. -/
structure string where
  cstring : List Nat
  length : Nat
deriving DecidableEq, Repr

/-- Modelled from the spec: strlen (kstd/cstring.h is not among the sources); the number of chars
in front of the first zero. -/
def strlen (str : List Nat) : Nat :=
  (str.takeWhile (fun c => c != 0)).length

/-- The inner loop of string::find(const char*, size_t) at position `i`, from `j` on, with `n`
chars of the needle left: it runs to the first mismatch or to the end of the needle. A read
outside a buffer is a fault. -/
def find_compare (s : string) (str : List Nat) (i : Nat) : Nat → Nat → Except String Unit
  | 0, _ => .ok ()
  | n + 1, j =>
    match s.cstring.get? (i + j), str.get? j with
    | some a, some b => if a != b then .ok () else find_compare s str i n (j + 1)
    | _, _ => .error "read outside the buffer"

/-- The outer loop of string::find(const char*, size_t) from position `i` on, `cells` being the
part of the buffer of the string that starts at `i`, `limit` the value of `_length - len` and
`len` the value of `strlen(str)`. -/
def find_scan (bits : Nat) (s : string) (str : List Nat) (limit len : Nat) :
    List Nat → Nat → Except String Nat
  | [], i => if i ≤ limit then .error "read outside the buffer" else .ok (2 ^ bits - 1)
  | c :: rest, i =>
    if i ≤ limit then
      match str.head? with
      | none => .error "read outside the buffer"
      | some first =>
        if c == first then
          match find_compare s str i len 0 with
          | .ok _ => .ok i
          | .error e => .error e
        else find_scan bits s str limit len rest ((i + 1) % 2 ^ bits)
    else .ok (2 ^ bits - 1)

/-- kstd::string::find(const char* str, size_t start). -/
def string.find (bits : Nat) (s : string) (str : List Nat) (start : Nat) : Except String Nat :=
  let len := strlen str
  find_scan bits s str ((s.length + 2 ^ bits - len) % 2 ^ bits) len (s.cstring.drop start) start

/-! ## The stages of preempt (TaskManager.cpp) -/

/-- The part of TaskManager::preempt from its assertion to the comment "Pick a new thread", for a
call made with tasking enabled: the assertion, the tasking lock and the unblock pass. -/
def preempt_enter (k : Kernel) : Except String Kernel :=
  if k.g_critical_count != 0 then .error "Assertion failed: !g_critical_count.load()"
  else
    match Mutex.acquire_and_enter_critical k k.g_tasking_lock with
    | .error e => .error e
    | .ok (.yields, _, _) => .error "preempt does not return: g_tasking_lock is held"
    | .ok (.returned _, k1, m1) =>
      unblock_pass { k1 with g_tasking_lock := m1, preempting := true }

/-- The statement `if(old_thread && old_thread->just_finished_signal())` of preempt with its
two assignments to the flags of the outgoing thread. -/
def finish_signal (k : Kernel) (old : Int) : Kernel :=
  if (k.thread old).just_finished_signal then
    k.set_thread old
      { k.thread old with just_finished_signal := false, in_signal_handler := false }
  else k

/-- The statement `if(next_thread->ready_to_handle_signal())` of preempt with its two
assignments to the flags of the selected thread. -/
def start_signal (k : Kernel) (next : Int) : Kernel :=
  if (k.thread next).ready_to_handle_signal then
    k.set_thread next
      { k.thread next with in_signal_handler := true, ready_to_handle_signal := false }
  else k

/-- The value the local variable `should_preempt` of preempt has when the switch is decided:
the selected thread is not the outgoing one, or one of the two signal statements has set it. -/
def should_preempt (k : Kernel) (old next : Int) : Bool :=
  old != next || (k.thread old).just_finished_signal ||
    ((finish_signal k old).thread next).ready_to_handle_signal

/-- The place `old_esp` of preempt: where the stack pointer of the outgoing thread is saved. -/
def old_esp (k : Kernel) (old : Int) : EspSlot :=
  if (k.thread old).in_signal_handler then .signal_registers old else .registers old

/-- The place `new_esp` of preempt: where the stack pointer of the selected thread is taken
from. -/
def new_esp (k : Kernel) (next : Int) : EspSlot :=
  if (k.thread next).in_signal_handler then .signal_registers next else .registers next

/-- The value preempt stores in `tss.esp0`. -/
def new_stack_top (k : Kernel) (next : Int) : StackTop :=
  if (k.thread next).in_signal_handler then .signal_stack_top next else .kernel_stack_top next

/-! ## Lock scopes, and the functions that take a lock (Process.cpp, TaskManager.cpp)

`remove_thread`, `reparent_orphans`, `remove_process` and `for_each_thread` above - and through
them `stop`, `cont`, `kill`, `alert_thread_died` and `reap` - are the statements of these
functions without their `LOCK(...)` / `CRITICAL_LOCK(...)` scopes. Here each call is given whole,
lock scope included, under the qualified name it has in the source. A `Mutex::acquire` that finds
the lock held by another thread yields and does not return before that thread has run; in this
sequential model the call ends there. -/

/-- A `Mutex&`: the Mutex object of the kernel state that a lock scope is on. -/
inductive LockRef where
  | g_tasking_lock
  | g_process_lock
  | thread_lock (process : Nat)
  | starting_lock (process : Nat)
deriving DecidableEq, Repr

/-- Reading a Mutex object through a `Mutex&`. -/
def Kernel.lock (k : Kernel) : LockRef → Mutex
  | .g_tasking_lock => k.g_tasking_lock
  | .g_process_lock => k.g_process_lock
  | .thread_lock process => k.thread_lock process
  | .starting_lock process => k.starting_lock process

/-- Writing a Mutex object through a `Mutex&`. -/
def Kernel.set_lock (k : Kernel) : LockRef → Mutex → Kernel
  | .g_tasking_lock, m => { k with g_tasking_lock := m }
  | .g_process_lock, m => { k with g_process_lock := m }
  | .thread_lock process, m =>
    { k with thread_lock := fun a => if a = process then m else k.thread_lock a }
  | .starting_lock process, m =>
    { k with starting_lock := fun a => if a = process then m else k.starting_lock a }

/-- Modelled from the spec: the scope of `LOCK(lock)`, a ScopedLocker (Lock.h declares the class;
its constructor and destructor are in Lock.cpp, which is not among the sources). Like its sibling
ScopedCriticalLocker of Mutex.cpp it takes the lock when it is constructed, with `acquire()`, and
gives it back with `release()` when the scope is left, on every path out of `body`. -/
def LOCK {α : Type} (lock : LockRef) (body : Kernel → Except String (Kernel × α))
    (k : Kernel) : Except String (Kernel × α) :=
  match Mutex.acquire k (k.lock lock) with
  | .error e => .error e
  | .ok (.yields, _, _) => .error "acquire does not return: the lock is held by another thread"
  | .ok (.returned _, k1, m1) =>
    match body (k1.set_lock lock m1) with
    | .error e => .error e
    | .ok (k2, a) =>
      match Mutex.release k2 (k2.lock lock) with
      | .error e => .error e
      | .ok (k3, m3) => .ok (k3.set_lock lock m3, a)

/-- The scope of `CRITICAL_LOCK(lock)`, a ScopedCriticalLocker (Mutex.cpp): the constructor calls
acquire_and_enter_critical(), and the destructor release() followed by
TaskManager::leave_critical(). -/
def CRITICAL_LOCK (lock : LockRef) (body : Kernel → Except String Kernel) (k : Kernel) :
    Except String Kernel :=
  match Mutex.acquire_and_enter_critical k (k.lock lock) with
  | .error e => .error e
  | .ok (.yields, _, _) =>
    .error "acquire_and_enter_critical does not return: the lock is held by another thread"
  | .ok (.returned _, k1, m1) =>
    match body (k1.set_lock lock m1) with
    | .error e => .error e
    | .ok k2 =>
      match Mutex.release k2 (k2.lock lock) with
      | .error e => .error e
      | .ok (k3, m3) => leave_critical (k3.set_lock lock m3)

/-- Process::for_each_thread (Process.h): the loop inside `LOCK(_thread_lock)`. -/
def Process.for_each_thread {σ : Type} (k : Kernel) (self : Nat) (acc : σ)
    (callback : Kernel → σ → Int → Except String (Kernel × σ × Bool)) :
    Except String (Kernel × σ) :=
  LOCK (.thread_lock self) (fun k1 => DuckOS.for_each_thread k1 self acc callback) k

/-- Process::remove_thread: the three updates inside `LOCK(_thread_lock)`. -/
def Process.remove_thread (k : Kernel) (self : Nat) (thread : Int) : Except String Kernel :=
  match LOCK (.thread_lock self) (fun k1 => .ok (DuckOS.remove_thread k1 self thread, ())) k with
  | .ok (k1, _) => .ok k1
  | .error e => .error e

/-- TaskManager::reparent_orphans: the loop inside `CRITICAL_LOCK(g_tasking_lock)`. -/
def TaskManager.reparent_orphans (k : Kernel) (dead : Nat) : Except String Kernel :=
  CRITICAL_LOCK .g_tasking_lock (fun k1 => .ok (DuckOS.reparent_orphans k1 dead)) k

/-- TaskManager::remove_process: the erasure inside `LOCK(g_process_lock)`. -/
def TaskManager.remove_process (k : Kernel) (proc : Nat) : Except String Kernel :=
  match LOCK .g_process_lock (fun k1 => .ok (DuckOS.remove_process k1 proc, ())) k with
  | .ok (k1, _) => .ok k1
  | .error e => .error e

/-- The statement `delete this` of a Process: the destructor calls TaskManager::remove_process;
the deletion is recorded in the ghost log. -/
def Process.delete_this (k : Kernel) (self : Nat) : Except String Kernel :=
  match TaskManager.remove_process k self with
  | .ok k1 => .ok { k1 with deleted := k1.deleted ++ [self] }
  | .error e => .error e

/-- Process::stop, the loop over the threads being that of Process::for_each_thread. -/
def Process.stop (k : Kernel) (self : Nat) (signal : Int) : Except String (Bool × Kernel) :=
  let r := compare_exchange_strong (k.proc self).stopping false true
  let k1 := k.set_proc self { k.proc self with stopping := r.2 }
  if r.1 then
    match Process.for_each_thread { k1 with wait_log := k1.wait_log ++ [(self, signal)] } self ()
        stop_callback with
    | .ok (k2, _) => .ok (true, k2)
    | .error e => .error e
  else .ok (false, k1)

/-- The statements of Process::cont that follow its `LOCK(m_starting_lock)`, the loop over the
threads being that of Process::for_each_thread. -/
def Process.cont_locked (self : Nat) (k : Kernel) : Except String (Kernel × Unit) :=
  if (k.proc self).state != .STOPPED then .ok (k, ())
  else
    match Process.for_each_thread (k.set_proc self { k.proc self with state := .ALIVE })
        self () cont_callback with
    | .ok (k1, _) => .ok (k1.set_proc self { k1.proc self with stopping := false }, ())
    | .error e => .error e

/-- Process::cont: the whole body is inside `LOCK(m_starting_lock)`, the early return
included. -/
def Process.cont (k : Kernel) (self : Nat) : Except String Kernel :=
  match LOCK (.starting_lock self) (Process.cont_locked self) k with
  | .ok (k1, _) => .ok k1
  | .error e => .error e

/-- Process::kill. A null `TaskManager::current_thread()` is dereferenced by the call of its
enter_critical: a fault, which ends the run like a panic. -/
def Process.kill (k : Kernel) (self : Nat) (signal : Int) : Except String Kernel :=
  if signal ≤ 0 || signal ≥ k.consts.NSIG then .ok k
  else if signal == k.consts.SIGSTOP || signal == k.consts.SIGTSTP then
    match Process.stop k self signal with
    | .ok (_, k1) => .ok k1
    | .error e => .error e
  else if signal == k.consts.SIGCONT then Process.cont k self
  else
    match k.cur_thread with
    | none => .error "null dereference: current_thread"
    | some cur =>
      match Process.for_each_thread (Thread.enter_critical k cur) self false
          (kill_callback signal) with
      | .ok (k1, _) => Thread.leave_critical k1 cur
      | .error e => .error e

/-- The statements of Process::alert_thread_died that tell the parent: the lookup of the parent
and, if it is found and is not this process, `parent.value()->kill(SIGCHLD)`, made in place and
recorded in `kill_log`. -/
def Process.alert_thread_died_signal (k : Kernel) (self : Nat) : Except String Kernel :=
  match process_for_pid k (k.proc self).ppid with
  | .ok parent =>
    if parent != self then
      Process.kill { k with kill_log := k.kill_log ++ [(parent, k.consts.SIGCHLD)] } parent
        k.consts.SIGCHLD
    else .ok k
  | .error _ => .ok k

/-- The end of Process::alert_thread_died: reparent_orphans, then the compare-exchange on
`_ready_to_destroy` that decides between the state Zombie and `delete this`. -/
def Process.alert_thread_died_finish (k : Kernel) (self : Nat) : Except String Kernel :=
  match TaskManager.reparent_orphans k self with
  | .error e => .error e
  | .ok k3 =>
    let r := compare_exchange_strong (k3.proc self).ready_to_destroy false true
    if r.1 then
      .ok (k3.set_proc self { k3.proc self with ready_to_destroy := r.2, state := .ZOMBIE })
    else Process.delete_this k3 self

/-- Process::alert_thread_died: remove_thread and, if no thread is left, the three steps
above. -/
def Process.alert_thread_died (k : Kernel) (self : Nat) (thread : Int) : Except String Kernel :=
  match Process.remove_thread k self thread with
  | .error e => .error e
  | .ok k1 =>
    if (k1.proc self).threads.length == 0 then
      match Process.alert_thread_died_signal k1 self with
      | .error e => .error e
      | .ok k2 => Process.alert_thread_died_finish k2 self
    else .ok k1

/-- Process::reap. -/
def Process.reap (k : Kernel) (self : Nat) : Except String Kernel :=
  let r := compare_exchange_strong (k.proc self).ready_to_destroy false true
  let k1 := k.set_proc self { k.proc self with ready_to_destroy := r.2 }
  if !r.1 then Process.delete_this k1 self else .ok k1

/-- The Mutex is unheld, or held by the thread `cur`: `cur` gets it without yielding. -/
def Mutex.free_or_held_by (m : Mutex) (cur : Int) : Prop :=
  (m.holding_thread = -1 ∧ m.times_locked = 0) ∨ (m.holding_thread = cur ∧ 1 ≤ m.times_locked)

/-- The state a thread can take locks in: tasking is enabled, no panic is in progress, no
critical section is open, `cur` is the current thread and no lock is held by another thread. -/
def locks_available (k : Kernel) (cur : Int) : Prop :=
  k.tasking_enabled = true ∧ k.g_panicking = false ∧ k.g_critical_count = 0 ∧
    k.cur_thread = some cur ∧ ∀ lock, (k.lock lock).free_or_held_by cur

/-- The kernel states `k` and `k1` agree on what taking a lock depends on: the tasking switches,
the critical-section count, the current thread and every Mutex. -/
def same_control (k k1 : Kernel) : Prop :=
  k1.tasking_enabled = k.tasking_enabled ∧ k1.g_panicking = k.g_panicking ∧
    k1.g_critical_count = k.g_critical_count ∧ k1.cur_thread = k.cur_thread ∧
    ∀ lock, k1.lock lock = k.lock lock

/-- The kernel states `k` and `k1` agree on the process table, the deletion log, the log of kill
calls and the constants. -/
def same_table (k k1 : Kernel) : Prop :=
  k1.processes = k.processes ∧ k1.deleted = k.deleted ∧ k1.kill_log = k.kill_log ∧
    k1.consts = k.consts ∧ k1.kernel_process = k.kernel_process

/-! ## A concrete kernel for evaluating the model -/

/-- A process object with the given ids and thread set, Alive and with both flags clear. -/
def mk_process (pid ppid : Int) (tids : List Int) : Process :=
  { pid := pid, ppid := ppid, sid := 0, pgid := 0, state := .ALIVE, ready_to_destroy := false,
    stopping := false, threads := tids, thread_return_values := [], tids := tids,
    last_active_thread := 1 }

/-- A small kernel: the kernel process (pid 0, at address 100, threads 0 and 2), init (pid 1,
at address 101) and a user process (pid 5, child of init, at address 102) with the single
thread 5. Every thread is Alive and can be run; the run queue is empty and thread 0 is
current. -/
def sample_kernel : Kernel :=
  { consts := { ENOENT := 2, SIGCHLD := 17, NSIG := 32, SIGSTOP := 19, SIGTSTP := 20, SIGCONT := 18 }
    proc := fun a =>
      if a = 100 then mk_process 0 0 [0, 2]
      else if a = 101 then mk_process 1 0 [1]
      else mk_process 5 1 [5]
    thread := fun _ => { state := .ALIVE, return_value := 0, can_be_run := true }
    processes := [100, 101, 102]
    kernel_process := 100
    cur_thread := some 0
    g_next_thread := []
    tasking_enabled := true
    g_panicking := false
    g_critical_count := 0
    interrupts_enabled := true
    g_tasking_lock := { holding_thread := -1, times_locked := 0 }
    g_process_lock := { holding_thread := -1, times_locked := 0 }
    deleted := []
    kill_log := [] }

/-- The sample kernel with thread `tid` current. -/
def sample_kernel_as (tid : Int) : Kernel :=
  { sample_kernel with cur_thread := some tid }

/-- The sample kernel after thread 5 has blocked. -/
def sample_kernel_blocked : Kernel :=
  sample_kernel.set_thread 5 { state := .BLOCKED, return_value := 0, can_be_run := false }

/-- The sample kernel with a second user process (pid 7, child of init, at address 103) that has
the threads 7, 8 and 9. Thread 8 is blocked; it alone is able to handle a signal. -/
def sample_kernel_threads : Kernel :=
  { sample_kernel with
    proc := fun a => if a = 103 then mk_process 7 1 [7, 8, 9] else sample_kernel.proc a
    thread := fun t =>
      if t = 8 then { state := .BLOCKED, return_value := 0, can_be_run := false }
      else sample_kernel.thread t
    processes := [100, 101, 102, 103]
    accepts_signal := fun t _ => t == 8 }

/-- The process at address 103 of `sample_kernel_threads` on its way to a stop: `stopping` is
set and the threads 8 and 9 have reached Stopped, thread 7 has not. -/
def sample_kernel_stopping : Kernel :=
  { sample_kernel_threads with
    proc := fun a =>
      if a = 103 then { mk_process 7 1 [7, 8, 9] with stopping := true }
      else sample_kernel.proc a
    thread := fun t =>
      if t = 8 ∨ t = 9 then { state := .STOPPED, return_value := 0, can_be_run := false }
      else sample_kernel.thread t }

/-- The process at address 103 of `sample_kernel_threads` stopped: its state is Stopped,
`stopping` is set and its three threads are Stopped. -/
def sample_kernel_stopped : Kernel :=
  { sample_kernel_threads with
    proc := fun a =>
      if a = 103 then { mk_process 7 1 [7, 8, 9] with state := .STOPPED, stopping := true }
      else sample_kernel.proc a
    thread := fun t =>
      if t = 7 ∨ t = 8 ∨ t = 9 then { state := .STOPPED, return_value := 0, can_be_run := false }
      else sample_kernel.thread t }

/-- The kernel `sample_kernel_threads` inside preempt: the current thread 0 holds the tasking
lock. -/
def sample_kernel_locked : Kernel :=
  { sample_kernel_threads with g_tasking_lock := { holding_thread := 0, times_locked := 1 } }

/-- A kernel with nothing left to run: every thread is blocked, the idle thread (thread 0 of the
kernel process) included; the run queue is empty and the current thread 5 holds the tasking
lock. -/
def sample_kernel_deadlock : Kernel :=
  { sample_kernel with
    thread := fun _ => { state := .BLOCKED, return_value := 0, can_be_run := false }
    cur_thread := some 5
    g_tasking_lock := { holding_thread := 5, times_locked := 1 } }

/-- The kernel `sample_kernel_threads` with the two user processes (at 102, thread 5, and at 103,
threads 7, 8 and 9) placed in the process group 9. -/
def sample_kernel_group : Kernel :=
  { sample_kernel_threads with
    proc := fun a =>
      if a = 102 then { mk_process 5 1 [5] with pgid := 9 }
      else if a = 103 then { mk_process 7 1 [7, 8, 9] with pgid := 9 }
      else sample_kernel.proc a }

/-- The kernel `sample_kernel_threads` with thread 8 ready to be unblocked and a Zombie process
at 102 whose thread 5 is blocked and ready as well. -/
def sample_kernel_ready : Kernel :=
  { sample_kernel_threads with
    proc := fun a =>
      if a = 102 then { mk_process 5 1 [5] with state := .ZOMBIE }
      else sample_kernel_threads.proc a
    thread := fun t =>
      if t = 8 ∨ t = 5 then
        { state := .BLOCKED, return_value := 0, can_be_run := false, should_unblock := true }
      else sample_kernel.thread t }

/-- A kernel inside preempt, about to pick a thread: thread 7 of the process at 103 is current,
holds the tasking lock and has just finished a signal handler; the run queue holds the blocked
thread 8 and thread 9, which is ready to handle a signal. -/
def sample_kernel_switching : Kernel :=
  { sample_kernel_threads with
    thread := fun t =>
      if t = 7 then
        { state := .ALIVE, return_value := 0, can_be_run := true, process := 103,
          in_signal_handler := true, just_finished_signal := true }
      else if t = 9 then
        { state := .ALIVE, return_value := 0, can_be_run := true, process := 103,
          ready_to_handle_signal := true }
      else sample_kernel_threads.thread t
    cur_thread := some 7
    g_next_thread := [8, 9]
    g_critical_count := 1
    interrupts_enabled := false
    preempting := true
    g_tasking_lock := { holding_thread := 7, times_locked := 1 } }

/-- The kernel `sample_kernel_deadlock` with an idle thread that is Alive but cannot be run. -/
def sample_kernel_idle_unrunnable : Kernel :=
  { sample_kernel_deadlock with
    thread := fun t =>
      if t = 0 then { state := .ALIVE, return_value := 0, can_be_run := false }
      else sample_kernel_deadlock.thread t }

/-- The kernel `sample_kernel_threads` at a timer tick: thread 7 is current, the run queue holds
the blocked thread 8 and thread 9, and nobody holds the tasking lock. -/
def sample_kernel_queued : Kernel :=
  { sample_kernel_threads with
    thread := fun t =>
      if t = 7 ∨ t = 9 then
        { state := .ALIVE, return_value := 0, can_be_run := true, process := 103 }
      else sample_kernel_threads.thread t
    cur_thread := some 7
    g_next_thread := [8, 9] }

/-- The kernel `sample_kernel_ready` while thread 5 holds the process-table lock. -/
def sample_kernel_contended : Kernel :=
  { sample_kernel_ready with g_process_lock := { holding_thread := 5, times_locked := 1 } }

/-- The kernel `sample_kernel_threads` for the lookups by group, parent and session: the process
at 102 (pid 5) is Dead, and it and the process at 103 (pid 7) are in the process group 9 and
the session 4. Both are children of init. -/
def sample_kernel_lookup : Kernel :=
  { sample_kernel_threads with
    proc := fun a =>
      if a = 102 then { mk_process 5 1 [5] with pgid := 9, sid := 4, state := .DEAD }
      else if a = 103 then { mk_process 7 1 [7, 8, 9] with pgid := 9, sid := 4 }
      else sample_kernel.proc a }
/-! ## Theorems -/

/-! ### Process destruction -/

theorem foldl_reparent_fields (l : List Nat) (k : Kernel) (dead : Nat) :
    (∀ a, ∃ pp, (l.foldl
      (fun k1 process =>
        if (k1.proc process).ppid == (k1.proc dead).pid then
          k1.set_proc process { k1.proc process with ppid := 1 }
        else k1) k).proc a = { k.proc a with ppid := pp }) ∧
    (∀ k2, k2 = l.foldl
      (fun k1 process =>
        if (k1.proc process).ppid == (k1.proc dead).pid then
          k1.set_proc process { k1.proc process with ppid := 1 }
        else k1) k →
      k2.deleted = k.deleted ∧ k2.processes = k.processes ∧ k2.kill_log = k.kill_log ∧
      k2.thread = k.thread ∧ k2.g_next_thread = k.g_next_thread ∧ k2.consts = k.consts) := by
  induction l generalizing k with
  | nil =>
    refine ⟨fun a => ⟨(k.proc a).ppid, rfl⟩, ?_⟩
    intro k2 h
    subst h
    exact ⟨rfl, rfl, rfl, rfl, rfl, rfl⟩
  | cons x xs ih =>
    simp only [List.foldl_cons]
    split
    · obtain ⟨h1, h2⟩ := ih (k.set_proc x { k.proc x with ppid := 1 })
      refine ⟨fun a => ?_, fun k2 h => h2 k2 h⟩
      obtain ⟨pp, hpp⟩ := h1 a
      refine ⟨pp, ?_⟩
      rw [hpp]
      simp only [Kernel.set_proc]
      by_cases h : a = x
      · subst h
        simp
      · simp [h]
    · exact ih k

theorem reparent_orphans_fields (k : Kernel) (dead : Nat) :
    (∀ a, ∃ pp, (reparent_orphans k dead).proc a = { k.proc a with ppid := pp }) ∧
      (reparent_orphans k dead).deleted = k.deleted ∧
      (reparent_orphans k dead).processes = k.processes ∧
      (reparent_orphans k dead).kill_log = k.kill_log ∧
      (reparent_orphans k dead).thread = k.thread ∧
      (reparent_orphans k dead).g_next_thread = k.g_next_thread ∧
      (reparent_orphans k dead).consts = k.consts :=
  ⟨(foldl_reparent_fields k.processes k dead).1,
    (foldl_reparent_fields k.processes k dead).2 _ rfl⟩

theorem remove_thread_fields (k : Kernel) (self : Nat) (t : Int) :
    ((remove_thread k self t).proc self).threads = (k.proc self).threads.filter (fun x => x != t) ∧
      ((remove_thread k self t).proc self).ready_to_destroy = (k.proc self).ready_to_destroy ∧
      ((remove_thread k self t).proc self).state = (k.proc self).state ∧
      (remove_thread k self t).deleted = k.deleted ∧
      (remove_thread k self t).processes = k.processes := by
  simp [remove_thread, Kernel.set_proc]

theorem alert_thread_died_not_last (k : Kernel) (self : Nat) (t : Int)
    (h : (k.proc self).threads.filter (fun x => x != t) ≠ []) :
    alert_thread_died k self t = remove_thread k self t := by
  obtain ⟨h1, -⟩ := remove_thread_fields k self t
  unfold alert_thread_died
  simp only [h1]
  rw [if_neg]
  simpa using h

theorem alert_thread_died_last_eq (k : Kernel) (self : Nat) (t : Int)
    (h : (k.proc self).threads.filter (fun x => x != t) = []) :
    ∃ k3 : Kernel,
      (∃ pp, k3.proc self = { (remove_thread k self t).proc self with ppid := pp }) ∧
      k3.deleted = k.deleted ∧ k3.processes = k.processes ∧
      alert_thread_died k self t =
        if (k3.proc self).ready_to_destroy = false then
          k3.set_proc self { k3.proc self with ready_to_destroy := true, state := .ZOMBIE }
        else delete_this k3 self := by
  obtain ⟨h1, -, -, h4, h5⟩ := remove_thread_fields k self t
  rw [h] at h1
  have hk2 : ∀ k2 : Kernel, k2.proc = (remove_thread k self t).proc →
      k2.deleted = k.deleted → k2.processes = k.processes →
      ∃ k3 : Kernel,
        (∃ pp, k3.proc self = { (remove_thread k self t).proc self with ppid := pp }) ∧
        k3.deleted = k.deleted ∧ k3.processes = k.processes ∧
        (let r := compare_exchange_strong ((reparent_orphans k2 self).proc self).ready_to_destroy
            false true
         if r.1 then
          (reparent_orphans k2 self).set_proc self
            { (reparent_orphans k2 self).proc self with ready_to_destroy := r.2, state := .ZOMBIE }
         else delete_this (reparent_orphans k2 self) self) =
        if (k3.proc self).ready_to_destroy = false then
          k3.set_proc self { k3.proc self with ready_to_destroy := true, state := .ZOMBIE }
        else delete_this k3 self := by
    intro k2 e1 e2 e3
    obtain ⟨g1, g2, g3, -⟩ := reparent_orphans_fields k2 self
    refine ⟨reparent_orphans k2 self, ?_, by rw [g2, e2], by rw [g3, e3], ?_⟩
    · obtain ⟨pp, hpp⟩ := g1 self
      exact ⟨pp, by rw [hpp, e1]⟩
    · cases hr : ((reparent_orphans k2 self).proc self).ready_to_destroy <;>
        simp [compare_exchange_strong]
  have hc : (((remove_thread k self t).proc self).threads.length == 0) = true := by
    rw [h1]
    rfl
  unfold alert_thread_died
  simp only [hc, if_true]
  apply hk2
  · split
    · split <;> rfl
    · rfl
  · rw [← h4]
    split
    · split <;> rfl
    · rfl
  · rw [← h5]
    split
    · split <;> rfl
    · rfl

theorem alert_thread_died_last (k : Kernel) (self : Nat) (t : Int)
    (h : (k.proc self).threads.filter (fun x => x != t) = []) :
    ((k.proc self).ready_to_destroy = false →
      ((alert_thread_died k self t).proc self).ready_to_destroy = true ∧
      ((alert_thread_died k self t).proc self).state = .ZOMBIE ∧
      ((alert_thread_died k self t).proc self).threads = [] ∧
      (alert_thread_died k self t).deleted = k.deleted ∧
      (alert_thread_died k self t).processes = k.processes) ∧
    ((k.proc self).ready_to_destroy = true →
      ((alert_thread_died k self t).proc self).threads = [] ∧
      (alert_thread_died k self t).deleted = k.deleted ++ [self] ∧
      (alert_thread_died k self t).processes = k.processes.erase self) := by
  obtain ⟨h1, h2, -, -, -⟩ := remove_thread_fields k self t
  rw [h] at h1
  obtain ⟨k3, ⟨pp, hpp⟩, hd, hp, heq⟩ := alert_thread_died_last_eq k self t h
  have hrtd : (k3.proc self).ready_to_destroy = (k.proc self).ready_to_destroy := by
    rw [hpp]
    exact h2
  have hthr : (k3.proc self).threads = [] := by
    rw [hpp]
    exact h1
  rw [heq, hrtd]
  constructor
  · intro hf
    simp [hf, Kernel.set_proc, hd, hp, hthr]
  · intro ht
    simp [ht, delete_this, remove_process, hd, hp, hthr]

theorem reap_fields (k : Kernel) (self : Nat) :
    ((k.proc self).ready_to_destroy = false →
      (reap k self).proc self = { k.proc self with ready_to_destroy := true } ∧
      (reap k self).deleted = k.deleted ∧ (reap k self).processes = k.processes) ∧
    ((k.proc self).ready_to_destroy = true →
      (reap k self).proc self = k.proc self ∧
      (reap k self).deleted = k.deleted ++ [self] ∧
      (reap k self).processes = k.processes.erase self) := by
  constructor
  · intro h
    simp [reap, compare_exchange_strong, h, Kernel.set_proc]
  · intro h
    simp [reap, compare_exchange_strong, h, Kernel.set_proc, delete_this, remove_process]
    rw [← h]

/-- C2 as stated fails. A second reap() deletes the sample process 102 while thread 5 is still in
its thread set and no thread has died; and a second alert_thread_died deletes it although reap()
was never called. -/
theorem deleted_before_both_events :
    ((life_run 102 sample_kernel [.reap]).deleted = [] ∧
      (life_run 102 sample_kernel [.reap, .reap]).deleted = [102] ∧
      ((life_run 102 sample_kernel [.reap, .reap]).proc 102).threads = [5]) ∧
    ((life_run 102 sample_kernel [.alert_thread_died 5]).deleted = [] ∧
      (life_run 102 sample_kernel [.alert_thread_died 5, .alert_thread_died 5]).deleted = [102] ∧
      LifeCall.reap ∉ [LifeCall.alert_thread_died 5, LifeCall.alert_thread_died 5]) := by
  refine ⟨⟨rfl, rfl, rfl⟩, rfl, rfl, ?_⟩
  decide

/-- The invariant of the destruction protocol for the process at `self`, `reaped` telling whether
reap() has run: a deleted process has been reaped and has no thread left; on a process that still
exists the flag is set exactly when one of the two events has occurred. -/
theorem life_step_invariant (self : Nat) (k : Kernel) (c : LifeCall) (reaped : Bool)
    (hdel : self ∈ k.deleted → reaped = true ∧ (k.proc self).threads = [])
    (hflag : self ∉ k.deleted →
      ((k.proc self).ready_to_destroy = true ↔ (reaped = true ∨ (k.proc self).threads = [])))
    (honce : reaped = true → c ≠ .reap)
    (hown : ∀ t, c = .alert_thread_died t → self ∉ k.deleted → t ∈ (k.proc self).threads) :
    (self ∈ (life_step self k c).deleted →
      (reaped || decide (c = .reap)) = true ∧ ((life_step self k c).proc self).threads = []) ∧
    (self ∉ (life_step self k c).deleted →
      (((life_step self k c).proc self).ready_to_destroy = true ↔
        ((reaped || decide (c = .reap)) = true ∨
          ((life_step self k c).proc self).threads = []))) := by
  by_cases hd : self ∈ k.deleted
  · obtain ⟨h1, h2⟩ := hdel hd
    simp only [life_step, hd, if_true]
    simp [h1, h2]
  · have hfl := hflag hd
    simp only [life_step, hd, if_false]
    cases c with
    | reap =>
      have hr : reaped = false := by
        cases reaped
        · rfl
        · exact absurd rfl (honce rfl)
      subst hr
      cases hrt : (k.proc self).ready_to_destroy
      · obtain ⟨r1, r2, -⟩ := (reap_fields k self).1 hrt
        simp [r1, r2, hd]
      · obtain ⟨r1, r2, -⟩ := (reap_fields k self).2 hrt
        have hth : (k.proc self).threads = [] := by
          have := hfl.mp hrt
          simpa using this
        simp [r1, r2, hth]
    | alert_thread_died t =>
      have hmem := hown t rfl hd
      have hne : (k.proc self).threads ≠ [] := List.ne_nil_of_mem hmem
      have hiff : (k.proc self).ready_to_destroy = true ↔ reaped = true := by
        rw [hfl]
        simp [hne]
      by_cases hf : (k.proc self).threads.filter (fun x => x != t) = []
      · cases hrt : (k.proc self).ready_to_destroy
        · obtain ⟨a1, -, a3, a4, -⟩ := (alert_thread_died_last k self t hf).1 hrt
          simp [a1, a3, a4, hd]
        · obtain ⟨a1, a2, -⟩ := (alert_thread_died_last k self t hf).2 hrt
          have := hiff.mp hrt
          simp [a1, a2, this]
      · dsimp only
        rw [alert_thread_died_not_last k self t hf]
        obtain ⟨b1, b2, -, b4, -⟩ := remove_thread_fields k self t
        simp only [b1, b2, b4]
        simp [hd, hf, hiff]

theorem life_run_invariant (self : Nat) (cs : List LifeCall) :
    ∀ (k : Kernel) (reaped : Bool),
      (self ∈ k.deleted → reaped = true ∧ (k.proc self).threads = []) →
      (self ∉ k.deleted →
        ((k.proc self).ready_to_destroy = true ↔ (reaped = true ∨ (k.proc self).threads = []))) →
      (reaped = true → LifeCall.reap ∉ cs) →
      cs.count LifeCall.reap ≤ 1 →
      reports_own_threads self k cs = true →
      (self ∈ (life_run self k cs).deleted →
        (reaped || decide (LifeCall.reap ∈ cs)) = true ∧
          ((life_run self k cs).proc self).threads = []) ∧
      (self ∉ (life_run self k cs).deleted →
        (((life_run self k cs).proc self).ready_to_destroy = true ↔
          ((reaped || decide (LifeCall.reap ∈ cs)) = true ∨
            ((life_run self k cs).proc self).threads = []))) := by
  induction cs with
  | nil =>
    intro k reaped hdel hflag _ _ _
    simpa [life_run] using ⟨hdel, hflag⟩
  | cons c cs ih =>
    intro k reaped hdel hflag honce hcount hown
    have hown2 : (∀ t, c = .alert_thread_died t → self ∉ k.deleted → t ∈ (k.proc self).threads) ∧
        reports_own_threads self (life_step self k c) cs = true := by
      cases c with
      | reap => simpa [reports_own_threads] using hown
      | alert_thread_died t =>
        simp only [reports_own_threads, Bool.and_eq_true, Bool.or_eq_true, decide_eq_true_eq] at hown
        refine ⟨fun t2 ht2 hnd => ?_, hown.2⟩
        cases ht2
        exact hown.1.resolve_left hnd
    have hstep := life_step_invariant self k c reaped hdel hflag
      (fun hr hc => honce hr (by simp [hc])) hown2.1
    have hcount2 : cs.count LifeCall.reap ≤ 1 := by
      have := List.count_le_count_cons LifeCall.reap c cs
      omega
    have honce2 : (reaped || decide (c = .reap)) = true → LifeCall.reap ∉ cs := by
      intro hr hmem
      rcases Bool.or_eq_true _ _ ▸ hr with h1 | h1
      · exact honce h1 (List.mem_cons_of_mem _ hmem)
      · have hc : c = .reap := by simpa using h1
        subst hc
        have : 0 < cs.count LifeCall.reap := List.count_pos_iff.mpr hmem
        simp only [List.count_cons_self] at hcount
        omega
    have := ih (life_step self k c) (reaped || decide (c = .reap)) hstep.1 hstep.2 honce2 hcount2
      hown2.2
    have hb : ((reaped || decide (c = .reap)) || decide (LifeCall.reap ∈ cs)) =
        (reaped || decide (LifeCall.reap ∈ c :: cs)) := by
      by_cases hc : c = .reap <;> by_cases hm : LifeCall.reap ∈ cs <;> cases reaped <;>
        simp [hc, hm, eq_comm]
    rw [hb] at this
    exact this

/-- C2, amended: for every sequence of reap() and alert_thread_died() calls on a process that
starts with ready_to_destroy clear, at least one thread and not deleted, in which reap() occurs
at most once and every alert_thread_died call reports a thread of the thread set, the object is
deleted only after reap() has been called and the thread set has become empty. In particular
the process is not deleted while a thread remains in its thread set. -/
theorem deleted_only_after_both_events (k : Kernel) (self : Nat) (cs : List LifeCall)
    (hflag : (k.proc self).ready_to_destroy = false)
    (hthreads : (k.proc self).threads ≠ [])
    (hexists : self ∉ k.deleted)
    (honce : cs.count LifeCall.reap ≤ 1)
    (hown : reports_own_threads self k cs = true)
    (hdeleted : self ∈ (life_run self k cs).deleted) :
    LifeCall.reap ∈ cs ∧ ((life_run self k cs).proc self).threads = [] := by
  have h := (life_run_invariant self cs k false (fun h => absurd h hexists)
    (fun _ => by simp [hflag, hthreads]) (fun h => by simp at h) honce hown).1 hdeleted
  simpa using h

theorem deleted_only_after_both_events_witness :
    LifeCall.reap ∈ [LifeCall.reap, LifeCall.alert_thread_died 5] ∧
      ((life_run 102 sample_kernel [.reap, .alert_thread_died 5]).proc 102).threads = [] :=
  deleted_only_after_both_events sample_kernel 102 [.reap, .alert_thread_died 5]
    rfl (by decide) (by decide) (by decide) rfl (by decide)

/-! ### Mutex -/

theorem acquire_unheld (k : Kernel) (m : Mutex) (A : Int)
    (hen : k.tasking_enabled = true) (hp : k.g_panicking = false) (hc : k.g_critical_count = 0)
    (hcur : k.cur_thread = some A) (hm : m.holding_thread = -1) :
    mutex_call .acquire k m =
      .ok (.returned true, k, { holding_thread := A, times_locked := m.times_locked + 1 }) := by
  simp [mutex_call, Mutex.acquire, Mutex.acquire_with_mode, hen, hp, hc, hcur, hm, in_critical]

theorem acquire_held_by_caller (k : Kernel) (m : Mutex) (A : Int)
    (hen : k.tasking_enabled = true) (hp : k.g_panicking = false) (hc : k.g_critical_count = 0)
    (hcur : k.cur_thread = some A) (hA : A ≠ -1) (hm : m.holding_thread = A) :
    mutex_call .acquire k m =
      .ok (.returned true, k, { holding_thread := A, times_locked := m.times_locked + 1 }) := by
  simp [mutex_call, Mutex.acquire, Mutex.acquire_with_mode, hen, hp, hc, hcur, hm, hA, in_critical]

theorem call_n_acquire_held (n : Nat) (k : Kernel) (A c : Int)
    (hen : k.tasking_enabled = true) (hp : k.g_panicking = false) (hc : k.g_critical_count = 0)
    (hcur : k.cur_thread = some A) (hA : A ≠ -1) :
    call_n .acquire n k { holding_thread := A, times_locked := c } =
      .ok (k, { holding_thread := A, times_locked := c + n }) := by
  induction n generalizing c with
  | zero => simp [call_n]
  | succ n ih =>
    rw [call_n, acquire_held_by_caller k _ A hen hp hc hcur hA rfl]
    simp only []
    rw [ih]
    simp only [Nat.cast_add, Nat.cast_one]
    congr 3
    ring

/-- The kernel state a release() returns to when no critical section is open: interrupts are
enabled by the closing ScopedCritical, everything else is as before. -/
theorem release_counted (k : Kernel) (m : Mutex)
    (hen : k.tasking_enabled = true) (hp : k.g_panicking = false) (hc : k.g_critical_count = 0) :
    mutex_call .release k m =
      .ok (.returned true, { k with interrupts_enabled := true },
        if m.times_locked = 1 then { holding_thread := -1, times_locked := 0 }
        else { m with times_locked := m.times_locked - 1 }) := by
  by_cases h1 : m.times_locked = 1
  · simp [mutex_call, Mutex.release, hen, hp, enter_critical, leave_critical, hc, h1]
  · simp [mutex_call, Mutex.release, hen, hp, enter_critical, leave_critical, hc, h1]

theorem call_n_release_partial (j : Nat) (k : Kernel) (A c : Int)
    (hen : k.tasking_enabled = true) (hp : k.g_panicking = false) (hc : k.g_critical_count = 0)
    (hj : (j : Int) < c) :
    ∃ kj, call_n .release j k { holding_thread := A, times_locked := c } =
        .ok (kj, { holding_thread := A, times_locked := c - j }) ∧
      kj.tasking_enabled = true ∧ kj.g_panicking = false ∧ kj.g_critical_count = 0 ∧
      kj.cur_thread = k.cur_thread := by
  induction j generalizing k c with
  | zero => exact ⟨k, by simp [call_n], hen, hp, hc, rfl⟩
  | succ j ih =>
    have hc1 : c ≠ 1 := by
      intro h
      subst h
      simp only [Nat.cast_add, Nat.cast_one] at hj
      omega
    rw [call_n, release_counted k _ hen hp hc]
    simp only [hc1, if_false]
    obtain ⟨kj, e1, e2, e3, e4, e5⟩ := ih { k with interrupts_enabled := true } (c - 1) hen hp hc
      (by simp only [Nat.cast_add, Nat.cast_one] at hj; omega)
    refine ⟨kj, ?_, e2, e3, e4, e5⟩
    rw [e1]
    simp only [Nat.cast_add, Nat.cast_one]
    congr 3
    ring

theorem call_n_release_all (j : Nat) (k : Kernel) (A : Int)
    (hen : k.tasking_enabled = true) (hp : k.g_panicking = false) (hc : k.g_critical_count = 0)
    (hj : 1 ≤ j) :
    ∃ kj, call_n .release j k { holding_thread := A, times_locked := j } =
        .ok (kj, { holding_thread := -1, times_locked := 0 }) ∧
      kj.tasking_enabled = true ∧ kj.g_panicking = false ∧ kj.g_critical_count = 0 ∧
      kj.cur_thread = k.cur_thread := by
  obtain ⟨i, rfl⟩ : ∃ i, j = i + 1 := ⟨j - 1, by omega⟩
  induction i generalizing k with
  | zero =>
    refine ⟨{ k with interrupts_enabled := true }, ?_, hen, hp, hc, rfl⟩
    rw [call_n, release_counted k _ hen hp hc]
    simp [call_n]
  | succ i ih =>
    rw [call_n, release_counted k _ hen hp hc]
    have hne : ((i + 1 + 1 : Nat) : Int) ≠ 1 := by
      simp only [Nat.cast_add, Nat.cast_one]
      omega
    simp only [hne, if_false]
    obtain ⟨kj, e1, e2, e3, e4, e5⟩ := ih { k with interrupts_enabled := true } hen hp hc (by omega)
    refine ⟨kj, ?_, e2, e3, e4, e5⟩
    rw [← e1]
    congr 2
    simp only [Nat.cast_add, Nat.cast_one]
    ring_nf

theorem try_acquire_other_holder (k : Kernel) (m : Mutex) (B : Int)
    (hen : k.tasking_enabled = true) (hp : k.g_panicking = false)
    (hcur : k.cur_thread = some B) (hheld : m.holding_thread ≠ -1) (hB : m.holding_thread ≠ B) :
    Mutex.try_acquire k m = .ok (.returned false, k, m) := by
  simp [Mutex.try_acquire, Mutex.acquire_with_mode, hen, hp, hcur, hheld, hB]

theorem try_acquire_unheld (k : Kernel) (m : Mutex) (B : Int)
    (hen : k.tasking_enabled = true) (hp : k.g_panicking = false)
    (hcur : k.cur_thread = some B) (hm : m.holding_thread = -1) :
    Mutex.try_acquire k m =
      .ok (.returned true, k, { holding_thread := B, times_locked := m.times_locked + 1 }) := by
  simp [Mutex.try_acquire, Mutex.acquire_with_mode, hen, hp, hcur, hm]

/-- C3: with tasking enabled, no panic in progress and no critical section open, let thread A make
N >= 1 acquire() calls on an unheld Mutex. All N calls return and leave the Mutex held by A with
counter N. For every j < N, after j release() calls the holder is still A and try_acquire() by
another thread B returns false without changing the Mutex; after exactly N release() calls the
Mutex is unheld (holder -1, counter 0) and try_acquire() by B returns true and makes B the
holder. -/
theorem mutex_recursive_release (k : Kernel) (m : Mutex) (A B : Int) (N : Nat)
    (hen : k.tasking_enabled = true) (hp : k.g_panicking = false) (hc : k.g_critical_count = 0)
    (hA : A ≠ -1) (hAB : B ≠ A) (hunheld : m.holding_thread = -1) (hzero : m.times_locked = 0)
    (hN : 1 ≤ N) :
    ∃ kN, call_n .acquire N { k with cur_thread := some A } m =
        .ok (kN, { holding_thread := A, times_locked := N }) ∧
      ∀ j, j ≤ N → ∃ kj mj, call_n .release j kN { holding_thread := A, times_locked := N } =
          .ok (kj, mj) ∧
        (j < N → mj.holding_thread = A ∧
          Mutex.try_acquire { kj with cur_thread := some B } mj =
            .ok (.returned false, { kj with cur_thread := some B }, mj)) ∧
        (j = N → mj = { holding_thread := -1, times_locked := 0 } ∧
          Mutex.try_acquire { kj with cur_thread := some B } mj =
            .ok (.returned true, { kj with cur_thread := some B },
              { holding_thread := B, times_locked := 1 })) := by
  obtain ⟨n, rfl⟩ : ∃ n, N = n + 1 := ⟨N - 1, by omega⟩
  refine ⟨{ k with cur_thread := some A }, ?_, ?_⟩
  · rw [call_n, acquire_unheld { k with cur_thread := some A } m A hen hp hc rfl hunheld]
    simp only [hzero]
    rw [call_n_acquire_held n { k with cur_thread := some A } A (0 + 1) hen hp hc rfl hA]
    simp only [Nat.cast_add, Nat.cast_one]
    congr 3
    ring
  · intro j hj
    by_cases hlt : j < n + 1
    · obtain ⟨kj, e1, e2, e3, -, -⟩ := call_n_release_partial j { k with cur_thread := some A } A
        ((n + 1 : Nat) : Int) hen hp hc (by exact_mod_cast hlt)
      refine ⟨kj, _, e1, fun _ => ⟨rfl, ?_⟩, fun h => absurd h (by omega)⟩
      exact try_acquire_other_holder _ _ B e2 e3 rfl hA (fun h => hAB h.symm)
    · have hje : j = n + 1 := by omega
      subst hje
      obtain ⟨kj, e1, e2, e3, -, -⟩ := call_n_release_all (n + 1) { k with cur_thread := some A } A
        hen hp hc (by omega)
      refine ⟨kj, _, e1, fun h => absurd h hlt, fun _ => ⟨rfl, ?_⟩⟩
      rw [try_acquire_unheld { kj with cur_thread := some B } _ B e2 e3 rfl rfl]
      simp

theorem mutex_recursive_release_witness :
    ∃ kN, call_n .acquire 2 { sample_kernel with cur_thread := some 5 }
          { holding_thread := -1, times_locked := 0 } =
        .ok (kN, { holding_thread := 5, times_locked := (2 : Nat) }) ∧
      (∃ k1 m1, call_n .release 1 kN { holding_thread := 5, times_locked := (2 : Nat) } =
          .ok (k1, m1) ∧ m1.holding_thread = 5 ∧
        Mutex.try_acquire { k1 with cur_thread := some 7 } m1 =
          .ok (.returned false, { k1 with cur_thread := some 7 }, m1)) ∧
      (∃ k2 m2, call_n .release 2 kN { holding_thread := 5, times_locked := (2 : Nat) } =
          .ok (k2, m2) ∧ m2 = { holding_thread := -1, times_locked := 0 } ∧
        Mutex.try_acquire { k2 with cur_thread := some 7 } m2 =
          .ok (.returned true, { k2 with cur_thread := some 7 },
            { holding_thread := 7, times_locked := 1 })) := by
  obtain ⟨kN, h1, h2⟩ :=
    mutex_recursive_release sample_kernel { holding_thread := -1, times_locked := 0 } 5 7 2
      rfl rfl rfl (by decide) (by decide) rfl rfl (by decide)
  obtain ⟨k1, m1, a1, a2, -⟩ := h2 1 (by decide)
  obtain ⟨k2, m2, b1, -, b2⟩ := h2 2 (by decide)
  exact ⟨kN, h1, ⟨k1, m1, a1, (a2 (by decide)).1, (a2 (by decide)).2⟩,
    ⟨k2, m2, b1, (b2 rfl).1, (b2 rfl).2⟩⟩

/-- C4 as stated fails: on an unheld Mutex, a release() followed by an acquire() of thread 5
(tasking enabled) leaves the Mutex held by thread 5 with the counter at zero. -/
theorem mutex_invariant_broken :
    mutex_run [(.release, sample_kernel_as 5), (.acquire, sample_kernel_as 5)]
        { holding_thread := -1, times_locked := 0 } =
      { holding_thread := 5, times_locked := 0 } ∧
    ¬ (0 < (mutex_run [(.release, sample_kernel_as 5), (.acquire, sample_kernel_as 5)]
          { holding_thread := -1, times_locked := 0 }).times_locked ↔
        (mutex_run [(.release, sample_kernel_as 5), (.acquire, sample_kernel_as 5)]
          { holding_thread := -1, times_locked := 0 }).holding_thread ≠ -1) := by
  have h : mutex_run [(.release, sample_kernel_as 5), (.acquire, sample_kernel_as 5)]
      { holding_thread := -1, times_locked := 0 } = { holding_thread := 5, times_locked := 0 } := by
    decide
  rw [h]
  exact ⟨rfl, by decide⟩

theorem acquire_with_mode_invariant (mode : AcquireMode) (k : Kernel) (m : Mutex)
    (hcaller : k.cur_thread ≠ some (-1))
    (hnn : 0 ≤ m.times_locked) (hinv : 0 < m.times_locked ↔ m.holding_thread ≠ -1) :
    ∀ r k1 m1, Mutex.acquire_with_mode mode k m = .ok (r, k1, m1) →
      0 ≤ m1.times_locked ∧ (0 < m1.times_locked ↔ m1.holding_thread ≠ -1) := by
  intro r k1 m1 h
  unfold Mutex.acquire_with_mode at h
  split at h
  · cases h
    exact ⟨hnn, hinv⟩
  · rename_i cur_tid hcur
    have hct : cur_tid ≠ -1 := by
      intro he
      rw [he] at hcur
      exact hcaller hcur
    split at h
    · cases h
      exact ⟨hnn, hinv⟩
    · simp only [] at h
      split at h
      · cases h
        rename_i hh
        have hm : m.holding_thread = -1 := by simpa using hh
        have h0 : m.times_locked = 0 := by
          have : ¬ 0 < m.times_locked := fun hp => (hinv.mp hp) hm
          omega
        simp [h0, hct]
      · split at h
        · cases h
          rename_i hh1 hh2
          have hm : m.holding_thread = cur_tid := by simpa using hh2
          simp only [hm, ne_eq, hct, not_false_eq_true, iff_true]
          constructor <;> omega
        · split at h
          · cases h
            exact ⟨hnn, hinv⟩
          · cases h
            exact ⟨hnn, hinv⟩
          · split at h
            · cases h
            · split at h
              · cases h
              · cases h
                exact ⟨hnn, hinv⟩

theorem mutex_after_invariant (c : MutexCall) (k : Kernel) (m : Mutex)
    (hcaller : k.cur_thread ≠ some (-1))
    (hrel : c = .release → k.tasking_enabled = true → k.g_panicking = false → 0 < m.times_locked)
    (hnn : 0 ≤ m.times_locked) (hinv : 0 < m.times_locked ↔ m.holding_thread ≠ -1) :
    0 ≤ (mutex_after c k m).times_locked ∧
      (0 < (mutex_after c k m).times_locked ↔ (mutex_after c k m).holding_thread ≠ -1) := by
  unfold mutex_after
  split
  · rename_i r k1 m1 h
    cases c with
    | acquire =>
      simp only [mutex_call, Mutex.acquire] at h
      split at h
      · cases h
      · cases h
        rename_i h2
        exact acquire_with_mode_invariant _ k m hcaller hnn hinv _ _ _ h2
      · rename_i h2
        split at h
        · cases h
          exact acquire_with_mode_invariant _ k m hcaller hnn hinv _ _ _ h2
        · cases h
    | try_acquire =>
      exact acquire_with_mode_invariant _ k m hcaller hnn hinv _ _ _ h
    | acquire_and_enter_critical =>
      exact acquire_with_mode_invariant _ k m hcaller hnn hinv _ _ _ h
    | release =>
      simp only [mutex_call, Mutex.release] at h
      split at h
      · rename_i k2 m2 h2
        cases h
        split at h2
        · cases h2
          exact ⟨hnn, hinv⟩
        · rename_i hcond
          have hboth : k.tasking_enabled = true ∧ k.g_panicking = false := by
            simpa using hcond
          have hpos := hrel rfl hboth.1 hboth.2
          split at h2
          · cases h2
            by_cases h1 : m.times_locked = 1
            · simp [h1]
            · have hne : m.holding_thread ≠ -1 := hinv.mp hpos
              simp only [beq_iff_eq, h1, if_false, ne_eq, hne, not_false_eq_true, iff_true]
              constructor <;> omega
          · cases h2
      · cases h
  · exact ⟨hnn, hinv⟩

theorem mutex_run_invariant (calls : List (MutexCall × Kernel)) :
    ∀ m : Mutex, 0 ≤ m.times_locked → (0 < m.times_locked ↔ m.holding_thread ≠ -1) →
      releases_held m calls = true →
      0 ≤ (mutex_run calls m).times_locked ∧
        (0 < (mutex_run calls m).times_locked ↔ (mutex_run calls m).holding_thread ≠ -1) := by
  induction calls with
  | nil =>
    intro m hnn hinv _
    exact ⟨hnn, hinv⟩
  | cons c cs ih =>
    intro m hnn hinv hw
    simp only [releases_held, Bool.and_eq_true, decide_eq_true_eq, Bool.or_eq_true,
      Bool.not_eq_true', Bool.and_eq_false_imp] at hw
    obtain ⟨⟨hcaller, hrel⟩, hrest⟩ := hw
    have hstep := mutex_after_invariant c.1 c.2 m hcaller
      (fun h1 h2 h3 => by
        rcases hrel with hr | hr
        · have := hr ⟨by simp [h1], h2⟩
          simp [h3] at this
        · exact hr)
      hnn hinv
    exact ih _ hstep.1 hstep.2 hrest

/-- C4, amended: take any sequence of acquire(), try_acquire(), acquire_and_enter_critical()
and release() calls on a Mutex that starts unheld (holder -1, counter 0), each call made in any
kernel state (any current thread with a tid other than -1, tasking enabled or not), such that a
release() that takes effect is only made while the counter is positive. Then after every call
times_locked > 0 if and only if holding_thread != -1. -/
theorem mutex_invariant (calls : List (MutexCall × Kernel)) (m : Mutex)
    (hholder : m.holding_thread = -1) (hcount : m.times_locked = 0)
    (hheld : releases_held m calls = true) :
    0 < (mutex_run calls m).times_locked ↔ (mutex_run calls m).holding_thread ≠ -1 :=
  (mutex_run_invariant calls m (by omega) (by simp [hholder, hcount]) hheld).2

theorem mutex_invariant_witness :
    0 < (mutex_run [(.acquire, sample_kernel_as 5), (.try_acquire, sample_kernel_as 7),
          (.release, sample_kernel_as 7)] { holding_thread := -1, times_locked := 0 }).times_locked ↔
      (mutex_run [(.acquire, sample_kernel_as 5), (.try_acquire, sample_kernel_as 7),
          (.release, sample_kernel_as 7)]
        { holding_thread := -1, times_locked := 0 }).holding_thread ≠ -1 :=
  mutex_invariant [(.acquire, sample_kernel_as 5), (.try_acquire, sample_kernel_as 7),
      (.release, sample_kernel_as 7)] { holding_thread := -1, times_locked := 0 } rfl rfl
    (by decide)

/-- C5 as stated fails: thread 7 is not the holder, yet its release() of a Mutex held once by
thread 5 takes the counter to zero and clears the holder; on a Mutex held twice it takes the
counter from 2 to 1. -/
theorem release_by_non_holder_changes_mutex :
    (sample_kernel_as 7).cur_thread = some 7 ∧
    mutex_after .release (sample_kernel_as 7) { holding_thread := 5, times_locked := 1 } =
      { holding_thread := -1, times_locked := 0 } ∧
    mutex_after .release (sample_kernel_as 7) { holding_thread := 5, times_locked := 2 } =
      { holding_thread := 5, times_locked := 1 } := by
  decide

theorem release_mutex_after (k : Kernel) (m : Mutex) :
    mutex_after .release k m =
      if k.tasking_enabled = true ∧ k.g_panicking = false then
        (if m.times_locked = 1 then { holding_thread := -1, times_locked := 0 }
          else { m with times_locked := m.times_locked - 1 })
      else m := by
  by_cases hen : k.tasking_enabled = true <;> by_cases hp : k.g_panicking = false <;>
    by_cases h1 : m.times_locked = 1 <;>
    simp [mutex_after, mutex_call, Mutex.release, enter_critical, leave_critical, hen, hp, h1]

theorem acquire_with_mode_other_holder (mode : AcquireMode) (k : Kernel) (m : Mutex) (B : Int)
    (hcur : k.cur_thread = some B) (hheld : m.holding_thread ≠ -1) (hB : m.holding_thread ≠ B) :
    ∀ r k1 m1, Mutex.acquire_with_mode mode k m = .ok (r, k1, m1) →
      m1 = m ∧ (k.tasking_enabled = true → k.g_panicking = false → r ≠ .returned true) := by
  intro r k1 m1 h
  by_cases hc : (!k.tasking_enabled || k.g_panicking) = true
  · simp only [Mutex.acquire_with_mode, hcur, hc, if_true] at h
    cases h
    refine ⟨rfl, fun h1 h2 => ?_⟩
    simp [h1, h2] at hc
  · cases mode
    · simp only [Mutex.acquire_with_mode, hcur, hc, if_false, beq_iff_eq, hheld, hB] at h
      cases h
      exact ⟨rfl, fun _ _ => by simp⟩
    · simp only [Mutex.acquire_with_mode, hcur, hc, if_false, beq_iff_eq, hheld, hB] at h
      cases h
      exact ⟨rfl, fun _ _ => by simp⟩
    · simp only [Mutex.acquire_with_mode, hcur, hc, if_false, beq_iff_eq, hheld, hB] at h
      simp only [Bool.false_eq_true, if_false, if_true] at h
      split at h
      · cases h
      · split at h
        · cases h
        · cases h
          exact ⟨rfl, fun _ _ => by simp⟩

/-- C5, amended: release() does not look at the calling thread. With tasking enabled and no
panic in progress a release() of a held Mutex (counter at least 1) decrements times_locked and,
when the counter was 1, sets holding_thread to -1, whichever thread is current; with tasking
disabled or a panic in progress it changes nothing. An acquire(), try_acquire() or
acquire_and_enter_critical() by a thread B never changes times_locked or holding_thread while
another thread holds the Mutex, and with tasking enabled and no panic it does not return true. -/
theorem release_unchecked_acquire_guarded (k : Kernel) (m : Mutex) (B : Int) :
    (∀ caller, mutex_after .release { k with cur_thread := caller } m = mutex_after .release k m) ∧
    (k.tasking_enabled = true → k.g_panicking = false → 1 ≤ m.times_locked →
      mutex_after .release k m =
        if m.times_locked = 1 then { holding_thread := -1, times_locked := 0 }
        else { m with times_locked := m.times_locked - 1 }) ∧
    ((k.tasking_enabled = false ∨ k.g_panicking = true) → mutex_after .release k m = m) ∧
    (k.cur_thread = some B → m.holding_thread ≠ -1 → m.holding_thread ≠ B →
      ∀ c, c ≠ .release →
        mutex_after c k m = m ∧
        (k.tasking_enabled = true → k.g_panicking = false →
          ∀ k1 m1, mutex_call c k m ≠ .ok (.returned true, k1, m1))) := by
  refine ⟨fun caller => ?_, fun hen hp _ => ?_, fun h => ?_, fun hcur hheld hB c hc => ?_⟩
  · rw [release_mutex_after, release_mutex_after]
  · rw [release_mutex_after]
    simp [hen, hp]
  · rw [release_mutex_after]
    rcases h with h | h <;> simp [h]
  · have key := acquire_with_mode_other_holder
    cases c with
    | release => exact absurd rfl hc
    | try_acquire =>
      refine ⟨?_, fun hen hp k1 m1 he => ?_⟩
      · unfold mutex_after
        split
        · rename_i r k1 m1 h
          exact (key .Try k m B hcur hheld hB r k1 m1 h).1
        · rfl
      · exact (key .Try k m B hcur hheld hB _ k1 m1 he).2 hen hp rfl
    | acquire_and_enter_critical =>
      refine ⟨?_, fun hen hp k1 m1 he => ?_⟩
      · unfold mutex_after
        split
        · rename_i r k1 m1 h
          exact (key .EnterCritical k m B hcur hheld hB r k1 m1 h).1
        · rfl
      · exact (key .EnterCritical k m B hcur hheld hB _ k1 m1 he).2 hen hp rfl
    | acquire =>
      have hacq : ∀ r k1 m1, mutex_call .acquire k m = .ok (r, k1, m1) →
          Mutex.acquire_with_mode .Normal k m = .ok (r, k1, m1) := by
        intro r k1 m1 h
        simp only [mutex_call, Mutex.acquire] at h
        split at h
        · cases h
        · cases h
          assumption
        · split at h
          · cases h
            assumption
          · cases h
      refine ⟨?_, fun hen hp k1 m1 he => ?_⟩
      · unfold mutex_after
        split
        · rename_i r k1 m1 h
          exact (key .Normal k m B hcur hheld hB r k1 m1 (hacq _ _ _ h)).1
        · rfl
      · exact (key .Normal k m B hcur hheld hB _ k1 m1 (hacq _ _ _ he)).2 hen hp rfl

theorem release_unchecked_acquire_guarded_witness :
    mutex_after .release (sample_kernel_as 7) { holding_thread := 5, times_locked := 2 } =
      { holding_thread := 5, times_locked := 1 } ∧
    mutex_after .release { sample_kernel_as 7 with tasking_enabled := false }
        { holding_thread := 5, times_locked := 2 } = { holding_thread := 5, times_locked := 2 } ∧
    mutex_after .acquire (sample_kernel_as 7) { holding_thread := 5, times_locked := 2 } =
      { holding_thread := 5, times_locked := 2 } :=
  ⟨(release_unchecked_acquire_guarded (sample_kernel_as 7)
      { holding_thread := 5, times_locked := 2 } 7).2.1 rfl rfl (by decide),
    (release_unchecked_acquire_guarded { sample_kernel_as 7 with tasking_enabled := false }
      { holding_thread := 5, times_locked := 2 } 7).2.2.1 (Or.inl rfl),
    ((release_unchecked_acquire_guarded (sample_kernel_as 7)
      { holding_thread := 5, times_locked := 2 } 7).2.2.2 rfl (by decide) (by decide)
        .acquire (by decide)).1⟩

/-! ### Process table lookups -/

/-- The shape shared by the four process_for_* lookups: the guard on a zero id, then the first
table entry that satisfies the test. -/
theorem lookup_scan (l : List Nat) (test : Nat → Bool) (id : Int) (e : Result) :
    (∀ p, (if id == 0 then (Except.error e : Except Result Nat)
        else match l.find? test with
          | some cur => .ok cur
          | none => .error e) = .ok p →
      test p = true ∧ ∃ pre post, l = pre ++ p :: post ∧ ∀ q ∈ pre, test q = false) ∧
    ((∀ q ∈ l, test q = false) →
      (if id == 0 then (Except.error e : Except Result Nat)
        else match l.find? test with
          | some cur => .ok cur
          | none => .error e) = .error e) ∧
    (∀ pre p post, id ≠ 0 → l = pre ++ p :: post → (∀ q ∈ pre, test q = false) → test p = true →
      (if id == 0 then (Except.error e : Except Result Nat)
        else match l.find? test with
          | some cur => .ok cur
          | none => .error e) = .ok p) := by
  refine ⟨fun p h => ?_, fun h => ?_, fun pre p post hid hl hpre hp => ?_⟩
  · split at h
    · cases h
    · split at h
      · rename_i cur hf
        cases h
        obtain ⟨h1, pre, post, h2, h3⟩ := List.find?_eq_some.mp hf
        exact ⟨h1, pre, post, h2, fun q hq => by simpa using h3 q hq⟩
      · cases h
  · split
    · rfl
    · have : l.find? test = none := List.find?_eq_none.mpr (fun x hx => by simp [h x hx])
      rw [this]
  · have hf : l.find? test = some p :=
      List.find?_eq_some.mpr ⟨hp, pre, post, hl, fun q hq => by simp [hpre q hq]⟩
    have hid2 : (id == 0) = false := by simpa using hid
    rw [hid2, hf]
    rfl

/-- C6: if process_for_pid(pid) returns a process p, then p is a table entry with p.pid() == pid
and p.state() != Dead. If every table entry with that pid is Dead the result is the not-found
error. A Dead entry does not hide a live one: the result is the same as on the table with the
Dead entries taken out, and for pid != 0 a live entry with that pid is returned whenever every
entry with that pid before it in the table is Dead. -/
theorem process_for_pid_never_dead (k : Kernel) (pid : Int) :
    (∀ p, process_for_pid k pid = .ok p →
      p ∈ k.processes ∧ (k.proc p).pid = pid ∧ (k.proc p).state ≠ .DEAD) ∧
    ((∀ q ∈ k.processes, (k.proc q).pid = pid → (k.proc q).state = .DEAD) →
      process_for_pid k pid = .error ⟨-k.consts.ENOENT⟩) ∧
    process_for_pid
        { k with processes := k.processes.filter (fun q => (k.proc q).state != .DEAD) } pid =
      process_for_pid k pid ∧
    (∀ pre live post, pid ≠ 0 → k.processes = pre ++ live :: post →
      (∀ q ∈ pre, (k.proc q).pid = pid → (k.proc q).state = .DEAD) →
      (k.proc live).pid = pid → (k.proc live).state ≠ .DEAD →
      process_for_pid k pid = .ok live) := by
  obtain ⟨s1, s2, s3⟩ := lookup_scan k.processes
    (fun cur => (k.proc cur).pid == pid && (k.proc cur).state != .DEAD) pid ⟨-k.consts.ENOENT⟩
  refine ⟨fun p h => ?_, fun h => ?_, ?_, fun pre live post hpid hl hpre h1 h2 => ?_⟩
  · obtain ⟨t1, pre, post, t2, -⟩ := s1 p h
    simp only [Bool.and_eq_true, beq_iff_eq, bne_iff_ne, ne_eq] at t1
    exact ⟨by simp [t2], t1.1, t1.2⟩
  · apply s2
    intro q hq
    by_cases hqp : (k.proc q).pid = pid
    · simp [h q hq hqp]
    · simp [hqp]
  · unfold process_for_pid
    simp only [List.find?_filter]
    have hfun : (fun a => decide (((k.proc a).state != ProcState.DEAD) = true ∧
        ((k.proc a).pid == pid && (k.proc a).state != ProcState.DEAD) = true)) =
        (fun cur => (k.proc cur).pid == pid && (k.proc cur).state != ProcState.DEAD) := by
      funext a
      generalize ((k.proc a).state != ProcState.DEAD) = b
      generalize ((k.proc a).pid == pid) = c
      cases b <;> cases c <;> rfl
    rw [hfun]
  · apply s3 pre live post hpid hl
    · intro q hq
      by_cases hqp : (k.proc q).pid = pid
      · simp [hpre q hq hqp]
      · simp [hqp]
    · simp [h1, h2]

theorem process_for_pid_never_dead_witness :
    (102 ∈ sample_kernel.processes ∧ (sample_kernel.proc 102).pid = 5 ∧
      (sample_kernel.proc 102).state ≠ .DEAD) ∧
    process_for_pid
        (sample_kernel.set_proc 101 { mk_process 5 0 [1] with state := .DEAD }) 5 = .ok 102 ∧
    process_for_pid
        (sample_kernel.set_proc 102 { mk_process 5 0 [1] with state := .DEAD }) 5 =
      .error ⟨-2⟩ :=
  ⟨(process_for_pid_never_dead sample_kernel 5).1 102 rfl,
    (process_for_pid_never_dead
      (sample_kernel.set_proc 101 { mk_process 5 0 [1] with state := .DEAD }) 5).2.2.2
        [100, 101] 102 [] (by decide) rfl (by decide) rfl (by decide),
    (process_for_pid_never_dead
      (sample_kernel.set_proc 102 { mk_process 5 0 [1] with state := .DEAD }) 5).2.1 (by decide)⟩

/-- C7: for process_for_pgid, process_for_ppid and process_for_sid alike, a returned process p
has the requested id, a pid other than excl and a state other than Dead, and no entry before it
in the table has all three; if no table entry has all three, the call returns the not-found
error; and for an id other than 0 a table entry that has all three is returned whenever no
entry before it in the table has all three. -/
theorem process_for_group_first_live (k : Kernel) (id excl : Int) :
    ((∀ p, process_for_pgid k id excl = .ok p →
        ((k.proc p).pgid = id ∧ (k.proc p).pid ≠ excl ∧ (k.proc p).state ≠ .DEAD) ∧
        ∃ pre post, k.processes = pre ++ p :: post ∧
          ∀ q ∈ pre, ¬ ((k.proc q).pgid = id ∧ (k.proc q).pid ≠ excl ∧ (k.proc q).state ≠ .DEAD)) ∧
      ((∀ q ∈ k.processes,
          ¬ ((k.proc q).pgid = id ∧ (k.proc q).pid ≠ excl ∧ (k.proc q).state ≠ .DEAD)) →
        process_for_pgid k id excl = .error ⟨-k.consts.ENOENT⟩) ∧
      (∀ pre p post, id ≠ 0 → k.processes = pre ++ p :: post →
        (∀ q ∈ pre,
          ¬ ((k.proc q).pgid = id ∧ (k.proc q).pid ≠ excl ∧ (k.proc q).state ≠ .DEAD)) →
        (k.proc p).pgid = id → (k.proc p).pid ≠ excl → (k.proc p).state ≠ .DEAD →
        process_for_pgid k id excl = .ok p)) ∧
    ((∀ p, process_for_ppid k id excl = .ok p →
        ((k.proc p).ppid = id ∧ (k.proc p).pid ≠ excl ∧ (k.proc p).state ≠ .DEAD) ∧
        ∃ pre post, k.processes = pre ++ p :: post ∧
          ∀ q ∈ pre, ¬ ((k.proc q).ppid = id ∧ (k.proc q).pid ≠ excl ∧ (k.proc q).state ≠ .DEAD)) ∧
      ((∀ q ∈ k.processes,
          ¬ ((k.proc q).ppid = id ∧ (k.proc q).pid ≠ excl ∧ (k.proc q).state ≠ .DEAD)) →
        process_for_ppid k id excl = .error ⟨-k.consts.ENOENT⟩) ∧
      (∀ pre p post, id ≠ 0 → k.processes = pre ++ p :: post →
        (∀ q ∈ pre,
          ¬ ((k.proc q).ppid = id ∧ (k.proc q).pid ≠ excl ∧ (k.proc q).state ≠ .DEAD)) →
        (k.proc p).ppid = id → (k.proc p).pid ≠ excl → (k.proc p).state ≠ .DEAD →
        process_for_ppid k id excl = .ok p)) ∧
    ((∀ p, process_for_sid k id excl = .ok p →
        ((k.proc p).sid = id ∧ (k.proc p).pid ≠ excl ∧ (k.proc p).state ≠ .DEAD) ∧
        ∃ pre post, k.processes = pre ++ p :: post ∧
          ∀ q ∈ pre, ¬ ((k.proc q).sid = id ∧ (k.proc q).pid ≠ excl ∧ (k.proc q).state ≠ .DEAD)) ∧
      ((∀ q ∈ k.processes,
          ¬ ((k.proc q).sid = id ∧ (k.proc q).pid ≠ excl ∧ (k.proc q).state ≠ .DEAD)) →
        process_for_sid k id excl = .error ⟨-k.consts.ENOENT⟩) ∧
      (∀ pre p post, id ≠ 0 → k.processes = pre ++ p :: post →
        (∀ q ∈ pre,
          ¬ ((k.proc q).sid = id ∧ (k.proc q).pid ≠ excl ∧ (k.proc q).state ≠ .DEAD)) →
        (k.proc p).sid = id → (k.proc p).pid ≠ excl → (k.proc p).state ≠ .DEAD →
        process_for_sid k id excl = .ok p)) := by
  have conv : ∀ (a : Int) (_ : Nat) (q : Nat),
      ((a == id && (k.proc q).pid != excl && (k.proc q).state != .DEAD) = true ↔
        (a = id ∧ (k.proc q).pid ≠ excl ∧ (k.proc q).state ≠ .DEAD)) := by
    intro a _ q
    simp [and_assoc]
  have conv2 : ∀ (a : Int) (q : Nat),
      ((a == id && (k.proc q).pid != excl && (k.proc q).state != .DEAD) = false ↔
        ¬ (a = id ∧ (k.proc q).pid ≠ excl ∧ (k.proc q).state ≠ .DEAD)) := by
    intro a q
    rw [← conv a 0 q]
    simp
  refine ⟨⟨fun p h => ?_, fun h => ?_, fun pre p post hid hl hpre h1 h2 h3 => ?_⟩,
    ⟨fun p h => ?_, fun h => ?_, fun pre p post hid hl hpre h1 h2 h3 => ?_⟩,
    ⟨fun p h => ?_, fun h => ?_, fun pre p post hid hl hpre h1 h2 h3 => ?_⟩⟩
  · obtain ⟨t1, pre, post, t2, t3⟩ := (lookup_scan k.processes
      (fun cur => (k.proc cur).pgid == id && (k.proc cur).pid != excl && (k.proc cur).state != .DEAD)
      id ⟨-k.consts.ENOENT⟩).1 p h
    exact ⟨(conv _ 0 p).mp t1, pre, post, t2, fun q hq => (conv2 _ q).mp (t3 q hq)⟩
  · exact (lookup_scan k.processes
      (fun cur => (k.proc cur).pgid == id && (k.proc cur).pid != excl && (k.proc cur).state != .DEAD)
      id ⟨-k.consts.ENOENT⟩).2.1 (fun q hq => (conv2 _ q).mpr (h q hq))
  · exact (lookup_scan k.processes
      (fun cur => (k.proc cur).pgid == id && (k.proc cur).pid != excl && (k.proc cur).state != .DEAD)
      id ⟨-k.consts.ENOENT⟩).2.2 pre p post hid hl (fun q hq => (conv2 _ q).mpr (hpre q hq))
      ((conv _ 0 p).mpr ⟨h1, h2, h3⟩)
  · obtain ⟨t1, pre, post, t2, t3⟩ := (lookup_scan k.processes
      (fun cur => (k.proc cur).ppid == id && (k.proc cur).pid != excl && (k.proc cur).state != .DEAD)
      id ⟨-k.consts.ENOENT⟩).1 p h
    exact ⟨(conv _ 0 p).mp t1, pre, post, t2, fun q hq => (conv2 _ q).mp (t3 q hq)⟩
  · exact (lookup_scan k.processes
      (fun cur => (k.proc cur).ppid == id && (k.proc cur).pid != excl && (k.proc cur).state != .DEAD)
      id ⟨-k.consts.ENOENT⟩).2.1 (fun q hq => (conv2 _ q).mpr (h q hq))
  · exact (lookup_scan k.processes
      (fun cur => (k.proc cur).ppid == id && (k.proc cur).pid != excl && (k.proc cur).state != .DEAD)
      id ⟨-k.consts.ENOENT⟩).2.2 pre p post hid hl (fun q hq => (conv2 _ q).mpr (hpre q hq))
      ((conv _ 0 p).mpr ⟨h1, h2, h3⟩)
  · obtain ⟨t1, pre, post, t2, t3⟩ := (lookup_scan k.processes
      (fun cur => (k.proc cur).sid == id && (k.proc cur).pid != excl && (k.proc cur).state != .DEAD)
      id ⟨-k.consts.ENOENT⟩).1 p h
    exact ⟨(conv _ 0 p).mp t1, pre, post, t2, fun q hq => (conv2 _ q).mp (t3 q hq)⟩
  · exact (lookup_scan k.processes
      (fun cur => (k.proc cur).sid == id && (k.proc cur).pid != excl && (k.proc cur).state != .DEAD)
      id ⟨-k.consts.ENOENT⟩).2.1 (fun q hq => (conv2 _ q).mpr (h q hq))
  · exact (lookup_scan k.processes
      (fun cur => (k.proc cur).sid == id && (k.proc cur).pid != excl && (k.proc cur).state != .DEAD)
      id ⟨-k.consts.ENOENT⟩).2.2 pre p post hid hl (fun q hq => (conv2 _ q).mpr (hpre q hq))
      ((conv _ 0 p).mpr ⟨h1, h2, h3⟩)

theorem process_for_group_first_live_witness :
    ((sample_kernel_lookup.proc 103).pgid = 9 ∧ (sample_kernel_lookup.proc 103).pid ≠ 5 ∧
      (sample_kernel_lookup.proc 103).state ≠ .DEAD) ∧
    process_for_pgid sample_kernel_lookup 9 5 = .ok 103 ∧
    process_for_ppid sample_kernel_lookup 1 5 = .ok 103 ∧
    process_for_sid sample_kernel_lookup 4 5 = .ok 103 ∧
    process_for_pgid sample_kernel_lookup 9 7 = .error ⟨-2⟩ ∧
    process_for_ppid sample_kernel_lookup 3 (-1) = .error ⟨-2⟩ ∧
    process_for_sid sample_kernel_lookup 4 7 = .error ⟨-2⟩ :=
  ⟨((process_for_group_first_live sample_kernel_lookup 9 5).1.1 103 rfl).1,
    (process_for_group_first_live sample_kernel_lookup 9 5).1.2.2 [100, 101, 102] 103 []
      (by decide) rfl (by decide) rfl (by decide) (by decide),
    (process_for_group_first_live sample_kernel_lookup 1 5).2.1.2.2 [100, 101, 102] 103 []
      (by decide) rfl (by decide) rfl (by decide) (by decide),
    (process_for_group_first_live sample_kernel_lookup 4 5).2.2.2.2 [100, 101, 102] 103 []
      (by decide) rfl (by decide) rfl (by decide) (by decide),
    (process_for_group_first_live sample_kernel_lookup 9 7).1.2.1 (by decide),
    (process_for_group_first_live sample_kernel_lookup 3 (-1)).2.1.2.1 (by decide),
    (process_for_group_first_live sample_kernel_lookup 4 7).2.2.2.1 (by decide)⟩

/-! ### The run queue -/

theorem queue_thread_guards (k : Kernel) (thread : Option Int)
    (h : thread = none ∨ ∃ t, thread = some t ∧
      (t = (k.proc k.kernel_process).pid ∨ (k.thread t).state ≠ .ALIVE)) :
    queue_thread k thread = .ok k := by
  rcases h with h | ⟨t, ht, h | h⟩
  · subst h
    rfl
  · subst ht
    simp [queue_thread, h]
  · subst ht
    simp [queue_thread, h]

/-- C8: queue_thread returns with the whole kernel state as it found it, and so with the cursor
g_next_thread and the chain behind it unchanged, whenever the thread is null, its tid equals
the pid of the kernel (idle) process, or its state is not Alive. -/
theorem queue_thread_rejects (k : Kernel) (thread : Option Int)
    (h : thread = none ∨ ∃ t, thread = some t ∧
      (t = (k.proc k.kernel_process).pid ∨ (k.thread t).state ≠ .ALIVE)) :
    queue_thread k thread = .ok k ∧
      ∀ k1, queue_thread k thread = .ok k1 → k1.g_next_thread = k.g_next_thread := by
  have hq := queue_thread_guards k thread h
  refine ⟨hq, fun k1 h1 => ?_⟩
  rw [hq] at h1
  cases h1
  rfl

theorem queue_thread_rejects_witness :
    queue_thread sample_kernel (some 0) = .ok sample_kernel ∧
    queue_thread sample_kernel_blocked (some 5) = .ok sample_kernel_blocked :=
  ⟨(queue_thread_rejects sample_kernel (some 0) (Or.inr ⟨0, rfl, Or.inl rfl⟩)).1,
    (queue_thread_rejects sample_kernel_blocked (some 5) (Or.inr ⟨5, rfl, Or.inr (by decide)⟩)).1⟩

theorem queue_thread_accepts (k : Kernel) (t : Int)
    (hidle : t ≠ (k.proc k.kernel_process).pid) (halive : (k.thread t).state = .ALIVE) :
    queue_thread k (some t) =
      .ok { k with
            g_next_thread := k.g_next_thread ++ [t]
            interrupts_enabled := k.g_critical_count == 0 } := by
  by_cases hq : k.g_next_thread = []
  · by_cases hc : k.g_critical_count = 0 <;>
      simp [queue_thread, hidle, halive, enter_critical, leave_critical, hq, hc]
  · by_cases hc : k.g_critical_count = 0 <;>
      simp [queue_thread, hidle, halive, enter_critical, leave_critical, hq, hc, enqueue_thread]

theorem skip_unrunnable_heap (k : Kernel) (q l : List Int) :
    skip_unrunnable { k with g_next_thread := q } l = skip_unrunnable k l := by
  induction l with
  | nil => rfl
  | cons x xs ih => simp [skip_unrunnable, ih]

theorem pick_next_thread_skips (k : Kernel) (x : Int) (xs : List Int)
    (hx : (k.thread x).can_be_run = false) (hq : k.g_next_thread = x :: xs) :
    pick_next_thread k = pick_next_thread { k with g_next_thread := xs } := by
  unfold pick_next_thread
  simp only [hq, skip_unrunnable, hx, Bool.false_eq_true, if_false, skip_unrunnable_heap,
    Mutex.held_by_current_thread]

theorem pick_next_thread_head (k : Kernel) (x : Int) (xs : List Int)
    (hheld : Mutex.held_by_current_thread k k.g_tasking_lock = true)
    (hx : (k.thread x).can_be_run = true) (hq : k.g_next_thread = x :: xs) :
    pick_next_thread k = .ok (x, { k with g_next_thread := xs }) := by
  unfold pick_next_thread
  simp [hq, skip_unrunnable, hx, hheld, next_thread]

theorem pick_times_chain (l : List Int) :
    ∀ (k : Kernel) (t : Int),
      Mutex.held_by_current_thread k k.g_tasking_lock = true →
      (k.thread t).can_be_run = true →
      k.g_next_thread = l ++ [t] →
      pick_times ((l.filter (fun x => (k.thread x).can_be_run)).length + 1) k =
        .ok (l.filter (fun x => (k.thread x).can_be_run) ++ [t], { k with g_next_thread := [] }) := by
  induction l with
  | nil =>
    intro k t hheld ht hq
    simp only [List.filter_nil, List.length_nil, Nat.zero_add, List.nil_append]
    rw [pick_times, pick_next_thread_head k t [] hheld ht (by simpa using hq)]
    rfl
  | cons x xs ih =>
    intro k t hheld ht hq
    have hq2 : k.g_next_thread = x :: (xs ++ [t]) := by simpa using hq
    have hrec := ih { k with g_next_thread := xs ++ [t] } t hheld ht rfl
    cases hx : (k.thread x).can_be_run
    · simp only [List.filter_cons, hx, Bool.false_eq_true, if_false]
      rw [pick_times, pick_next_thread_skips k x (xs ++ [t]) hx hq2]
      rw [pick_times] at hrec
      exact hrec
    · simp only [List.filter_cons, hx, if_true, List.length_cons, List.cons_append]
      rw [pick_times, pick_next_thread_head k x (xs ++ [t]) hheld hx hq2]
      simp only []
      rw [hrec]

/-- C9: queue_thread appends at the tail. For an Alive thread t1 that is not the idle thread,
on the chain already or not, queue_thread(t1) returns and the chain from g_next_thread is the
previous chain followed by t1, which is the head when the queue was empty. If a second such
thread t2 is queued after it and both can be run, successive pick_next_thread() calls (made with
the tasking lock held, as pick_next_thread asserts) return the runnable threads of the previous
chain in order, then t1, then t2, and leave the queue empty. -/
theorem queue_thread_appends_fifo (k : Kernel) (t1 t2 : Int)
    (hidle1 : t1 ≠ (k.proc k.kernel_process).pid) (halive1 : (k.thread t1).state = .ALIVE) :
    ∃ k1, queue_thread k (some t1) = .ok k1 ∧
      k1.g_next_thread = k.g_next_thread ++ [t1] ∧
      (k.g_next_thread = [] → k1.g_next_thread = [t1]) ∧
      (t2 ≠ (k.proc k.kernel_process).pid → (k.thread t2).state = .ALIVE →
        (k.thread t1).can_be_run = true → (k.thread t2).can_be_run = true →
        Mutex.held_by_current_thread k k.g_tasking_lock = true →
        ∃ k2, queue_thread k1 (some t2) = .ok k2 ∧
          k2.g_next_thread = k.g_next_thread ++ [t1, t2] ∧
          pick_times ((k.g_next_thread.filter (fun x => (k.thread x).can_be_run)).length + 2) k2 =
            .ok (k.g_next_thread.filter (fun x => (k.thread x).can_be_run) ++ [t1, t2],
              { k2 with g_next_thread := [] })) := by
  refine ⟨_, queue_thread_accepts k t1 hidle1 halive1, rfl, fun h => by simp [h], ?_⟩
  intro hidle2 halive2 hrun1 hrun2 hheld
  refine ⟨_, queue_thread_accepts _ t2 hidle2 halive2, by simp, ?_⟩
  have h := pick_times_chain (k.g_next_thread ++ [t1])
    { k with
      g_next_thread := k.g_next_thread ++ [t1] ++ [t2]
      interrupts_enabled := k.g_critical_count == 0 } t2 hheld hrun2 rfl
  simp only [List.filter_append, List.filter_cons, hrun1, if_true, List.filter_nil,
    List.length_append, List.length_cons, List.length_nil, List.append_assoc,
    List.singleton_append, Nat.zero_add, Nat.add_assoc, Nat.reduceAdd] at h
  simp only [List.append_assoc, List.singleton_append]
  exact h

theorem queue_thread_appends_fifo_witness :
    ∃ k1 k2, queue_thread { sample_kernel with g_tasking_lock := ⟨0, 1⟩ } (some 5) = .ok k1 ∧
      k1.g_next_thread = [5] ∧
      queue_thread k1 (some 1) = .ok k2 ∧
      k2.g_next_thread = [5, 1] ∧
      pick_times 2 k2 = .ok ([5, 1], { k2 with g_next_thread := [] }) := by
  obtain ⟨k1, h1, h2, -, h4⟩ :=
    queue_thread_appends_fifo { sample_kernel with g_tasking_lock := ⟨0, 1⟩ } 5 1 (by decide) rfl
  obtain ⟨k2, h5, h6, h7⟩ := h4 (by decide) rfl rfl rfl rfl
  exact ⟨k1, k2, h1, h2, h5, h6, h7⟩

/-! ### Process ids -/

theorem wrap_int32_small (x : Int) (hlo : -2147483648 ≤ x) (hhi : x < 2147483648) :
    wrap_int32 x = x := by
  unfold wrap_int32
  omega

theorem get_new_pids_list (n : Nat) :
    ∀ k : Kernel, -2147483648 ≤ k.next_pid → k.next_pid + n ≤ 2147483648 →
      (get_new_pids n k).1 = (List.range n).map (fun (i : Nat) => k.next_pid + (i : Int)) := by
  induction n with
  | zero =>
    intro k _ _
    rfl
  | succ n ih =>
    intro k hlo hhi
    have hhi2 : k.next_pid + (n : Int) + 1 ≤ 2147483648 := by
      have : ((n + 1 : Nat) : Int) = (n : Int) + 1 := by simp
      omega
    by_cases hn : n = 0
    · subst hn
      simp [get_new_pids, get_new_pid, List.range_succ]
    · have hw : wrap_int32 (k.next_pid + 1) = k.next_pid + 1 :=
        wrap_int32_small _ (by omega) (by omega)
      have hrec := ih { k with next_pid := wrap_int32 (k.next_pid + 1) }
        (by simp only [hw]; omega) (by simp only [hw]; omega)
      have hstep : (get_new_pids (n + 1) k).1 =
          k.next_pid :: (get_new_pids n { k with next_pid := wrap_int32 (k.next_pid + 1) }).1 := rfl
      rw [hstep, hrec, List.range_succ_eq_map]
      simp only [hw, List.map_cons, List.map_map, Nat.cast_zero, add_zero, List.cons.injEq,
        true_and]
      apply List.map_congr_left
      intro i _
      simp only [Function.comp, Nat.cast_succ]
      ring

/-- C11: as long as the 32-bit counter has not wrapped around - the calls start at a counter
value c and the ids handed out stay below 2^31 - successive get_new_pid() calls return c, c+1,
c+2, ...: any later call returns a value strictly greater than any earlier one, so the ids are
pairwise distinct. Started at the initial counter value 0 this holds for the first 2^31
calls. -/
theorem get_new_pid_strictly_increasing (k : Kernel) (n : Nat)
    (hlo : -2147483648 ≤ k.next_pid) (hhi : k.next_pid + n ≤ 2147483648) :
    (get_new_pids n k).1 = (List.range n).map (fun (i : Nat) => k.next_pid + (i : Int)) ∧
    (get_new_pids n k).1.Pairwise (fun earlier later => earlier < later) ∧
    (get_new_pids n k).1.Nodup := by
  have hl := get_new_pids_list n k hlo hhi
  have hp : (get_new_pids n k).1.Pairwise (fun earlier later => earlier < later) := by
    rw [hl, List.pairwise_map]
    refine List.Pairwise.imp ?_ (List.pairwise_lt_range n)
    intro a b hab
    have : (a : Int) < (b : Int) := by exact_mod_cast hab
    omega
  exact ⟨hl, hp, hp.imp (fun h => ne_of_lt h)⟩

theorem get_new_pid_strictly_increasing_witness :
    (get_new_pids 3 sample_kernel).1 = [0, 1, 2] ∧
    (get_new_pids 3 sample_kernel).1.Pairwise (fun earlier later => earlier < later) ∧
    (get_new_pids 3 sample_kernel).1.Nodup :=
  get_new_pid_strictly_increasing sample_kernel 3 (by decide) (by decide)

/-! ### Critical sections -/

theorem critical_run_depth (cs : List CriticalCall) :
    ∀ (depth : Nat) (k : Kernel), k.g_critical_count = depth →
      (0 < depth → k.interrupts_enabled = false) →
      well_bracketed depth cs = true →
      ∃ k1, critical_run cs k = .ok k1 ∧
        k1.g_critical_count + cs.count .leave_critical = depth + cs.count .enter_critical ∧
        (0 < k1.g_critical_count → k1.interrupts_enabled = false) ∧
        (k1.g_critical_count = 0 → cs ≠ [] → k1.interrupts_enabled = true) ∧
        (cs = [] → k1 = k) := by
  induction cs with
  | nil =>
    intro depth k hc hi _
    exact ⟨k, rfl, by simpa using hc, fun h => hi (hc ▸ h), fun _ h => absurd rfl h, fun _ => rfl⟩
  | cons c cs ih =>
    intro depth k hc hi hwb
    cases c with
    | enter_critical =>
      simp only [well_bracketed] at hwb
      obtain ⟨k1, h1, h2, h3, h4, h5⟩ := ih (depth + 1) (enter_critical k)
        (by simp [enter_critical, hc]) (fun _ => rfl) hwb
      refine ⟨k1, by simpa [critical_run, critical_step] using h1, ?_, h3, ?_, fun h => by simp at h⟩
      · simp only [List.count_cons, beq_self_eq_true, if_true,
          (by decide : (CriticalCall.enter_critical == CriticalCall.leave_critical) = false),
          Bool.false_eq_true, if_false]
        omega
      · intro hz _
        by_cases hcs : cs = []
        · have := h5 hcs
          rw [this] at hz
          simp [enter_critical] at hz
        · exact h4 hz hcs
    | leave_critical =>
      cases depth with
      | zero => simp [well_bracketed] at hwb
      | succ d =>
        simp only [well_bracketed] at hwb
        have hdis : k.interrupts_enabled = false := hi (by omega)
        have hleave : leave_critical k = .ok { k with
            g_critical_count := d
            interrupts_enabled := decide (d = 0) } := by
          by_cases hd : d = 0
          · simp [leave_critical, hc, hd]
          · simp [leave_critical, hc, hd, hdis]
        obtain ⟨k1, h1, h2, h3, h4, h5⟩ := ih d { k with
            g_critical_count := d
            interrupts_enabled := decide (d = 0) } rfl
          (fun hpos => by simp only [decide_eq_false_iff_not]; omega) hwb
        refine ⟨k1, ?_, ?_, h3, ?_, fun h => by simp at h⟩
        · simp only [critical_run, critical_step, hleave]
          exact h1
        · simp only [List.count_cons, beq_self_eq_true, if_true,
            (by decide : (CriticalCall.leave_critical == CriticalCall.enter_critical) = false),
            Bool.false_eq_true, if_false]
          omega
        · intro hz _
          by_cases hcs : cs = []
          · have := h5 hcs
            rw [this] at hz ⊢
            simpa using hz
          · exact h4 hz hcs

theorem well_bracketed_initial : ∀ (pre cs : List CriticalCall) (depth : Nat),
    pre <+: cs → well_bracketed depth cs = true → well_bracketed depth pre = true := by
  intro pre
  induction pre with
  | nil =>
    intro cs depth _ _
    cases depth <;> rfl
  | cons c pre ih =>
    intro cs depth hp hwb
    cases cs with
    | nil => simp at hp
    | cons c1 cs =>
      obtain ⟨hc, hp1⟩ := List.cons_prefix_cons.1 hp
      subst hc
      cases c with
      | enter_critical =>
        simp only [well_bracketed] at hwb ⊢
        exact ih cs (depth + 1) hp1 hwb
      | leave_critical =>
        cases depth with
        | zero => simp [well_bracketed] at hwb
        | succ d =>
          simp only [well_bracketed] at hwb ⊢
          exact ih cs d hp1 hwb

/-- C13: critical sections nest. Starting from nesting count 0, for every well-bracketed
sequence of enter_critical() / leave_critical() calls and every prefix of it, the calls of the
prefix run without a failed assertion; after them the count equals the number of enters minus
the number of leaves of the prefix, interrupts are disabled whenever that count is positive
(enters outnumber leaves), and they are enabled when the last call of the prefix has taken the
count back to zero: leave_critical() re-enables interrupts exactly on the call that returns the
count to zero. -/
theorem critical_sections_nest (k : Kernel) (cs : List CriticalCall)
    (hstart : k.g_critical_count = 0) (hwb : well_bracketed 0 cs = true) :
    ∀ pre, pre <+: cs →
      ∃ k1, critical_run pre k = .ok k1 ∧
        k1.g_critical_count + pre.count .leave_critical = pre.count .enter_critical ∧
        (0 < k1.g_critical_count → k1.interrupts_enabled = false) ∧
        (k1.g_critical_count = 0 → pre ≠ [] → k1.interrupts_enabled = true) := by
  intro pre hpre
  obtain ⟨k1, h1, h2, h3, h4, -⟩ := critical_run_depth pre 0 k hstart
    (fun h => absurd h (by omega)) (well_bracketed_initial pre cs 0 hpre hwb)
  exact ⟨k1, h1, by omega, h3, h4⟩

theorem critical_sections_nest_witness :
    ∃ k1, critical_run [.enter_critical, .enter_critical, .leave_critical]
        { sample_kernel with interrupts_enabled := false } = .ok k1 ∧
      k1.g_critical_count = 1 ∧ k1.interrupts_enabled = false ∧
      ∃ k2, critical_run [.enter_critical, .enter_critical, .leave_critical, .leave_critical]
          { sample_kernel with interrupts_enabled := false } = .ok k2 ∧
        k2.g_critical_count = 0 ∧ k2.interrupts_enabled = true := by
  obtain ⟨k1, a1, a2, a3, -⟩ := critical_sections_nest
    { sample_kernel with interrupts_enabled := false }
    [.enter_critical, .enter_critical, .leave_critical, .leave_critical] rfl (by decide)
    [.enter_critical, .enter_critical, .leave_critical] ⟨[.leave_critical], rfl⟩
  obtain ⟨k2, b1, b2, -, b4⟩ := critical_sections_nest
    { sample_kernel with interrupts_enabled := false }
    [.enter_critical, .enter_critical, .leave_critical, .leave_critical] rfl (by decide)
    [.enter_critical, .enter_critical, .leave_critical, .leave_critical] (List.prefix_refl _)
  have hc1 : k1.g_critical_count = 1 := by
    have h1 : List.count CriticalCall.leave_critical
        [CriticalCall.enter_critical, .enter_critical, .leave_critical] = 1 := by decide
    have h2 : List.count CriticalCall.enter_critical
        [CriticalCall.enter_critical, .enter_critical, .leave_critical] = 2 := by decide
    omega
  have hc2 : k2.g_critical_count = 0 := by
    have h1 : List.count CriticalCall.leave_critical
        [CriticalCall.enter_critical, .enter_critical, .leave_critical, .leave_critical] = 2 := by
      decide
    have h2 : List.count CriticalCall.enter_critical
        [CriticalCall.enter_critical, .enter_critical, .leave_critical, .leave_critical] = 2 := by
      decide
    omega
  exact ⟨k1, a1, hc1, a3 (by omega), k2, b1, hc2, b4 hc2 (by decide)⟩

/-! ### yield, tick and the precondition of preempt -/

/-- C12: yield() called while not preempting. In interrupt context it sets yield_async, changes
nothing else (current thread, run queue and tasking lock are as before) and returns false.
Outside interrupt context it is one run of preempt(): it panics where preempt() panics and
otherwise returns true in the state preempt() left. tick(), whose assertion demands interrupt
context, takes the deferred branch: it sets yield_async and changes nothing else. -/
theorem yield_defers_in_interrupt (k : Kernel) (hnot : k.preempting = false) :
    (k.in_interrupt = true →
      yield k = .ok (false, { k with yield_async := true }) ∧
      tick k = .ok { k with yield_async := true }) ∧
    (k.in_interrupt = false →
      yield k = (match preempt k with
        | .ok k1 => .ok (true, k1)
        | .error e => .error e) ∧
      tick k = .error "Assertion failed: Processor::in_interrupt()") := by
  constructor
  · intro h
    simp [yield, tick, hnot, h]
  · intro h
    simp [yield, tick, hnot, h]

theorem yield_defers_in_interrupt_witness :
    yield { sample_kernel with in_interrupt := true } =
      .ok (false, { sample_kernel with in_interrupt := true, yield_async := true }) ∧
    tick { sample_kernel with in_interrupt := true } =
      .ok { sample_kernel with in_interrupt := true, yield_async := true } ∧
    yield sample_kernel = (match preempt sample_kernel with
      | .ok k1 => .ok (true, k1)
      | .error e => .error e) :=
  ⟨((yield_defers_in_interrupt { sample_kernel with in_interrupt := true } rfl).1 rfl).1,
    ((yield_defers_in_interrupt { sample_kernel with in_interrupt := true } rfl).1 rfl).2,
    ((yield_defers_in_interrupt sample_kernel rfl).2 rfl).1⟩

/-- C14 as stated fails: with tasking enabled and a critical section open, preempt() does not
return: it fails its assertion and the kernel panics. -/
theorem preempt_in_critical_panics :
    preempt { sample_kernel with g_critical_count := 1 } =
      .error "Assertion failed: !g_critical_count.load()" := by
  rfl

/-- C14, amended: if tasking is not enabled, preempt() returns with the whole kernel state - the
current thread, the run queue, the tasking lock, the critical count and every thread's flags -
as it found it. If tasking is enabled and a critical section is already active when it is
called, preempt() does not return: its assertion fails and the kernel panics, before anything
has been changed. -/
theorem preempt_precondition (k : Kernel) :
    (k.tasking_enabled = false → preempt k = .ok k) ∧
    (k.tasking_enabled = true → 0 < k.g_critical_count →
      preempt k = .error "Assertion failed: !g_critical_count.load()") := by
  constructor
  · intro h
    simp [preempt, h]
  · intro h hc
    have : k.g_critical_count ≠ 0 := by omega
    simp [preempt, h, this]

theorem preempt_precondition_witness :
    preempt { sample_kernel with tasking_enabled := false } =
      .ok { sample_kernel with tasking_enabled := false } ∧
    preempt { sample_kernel with g_critical_count := 2 } =
      .error "Assertion failed: !g_critical_count.load()" :=
  ⟨(preempt_precondition { sample_kernel with tasking_enabled := false }).1 rfl,
    (preempt_precondition { sample_kernel with g_critical_count := 2 }).2 rfl (by decide)⟩

/-! ### Signals, stop and continue -/

theorem queue_thread_frame (k : Kernel) (thread : Option Int) :
    ∃ q i, queue_thread k thread =
      .ok { k with g_next_thread := q, interrupts_enabled := i } := by
  cases thread with
  | none => exact ⟨k.g_next_thread, k.interrupts_enabled, rfl⟩
  | some t =>
    by_cases hidle : t = (k.proc k.kernel_process).pid
    · exact ⟨k.g_next_thread, k.interrupts_enabled,
        queue_thread_guards k (some t) (Or.inr ⟨t, rfl, Or.inl hidle⟩)⟩
    · by_cases halive : (k.thread t).state = .ALIVE
      · exact ⟨_, _, queue_thread_accepts k t hidle halive⟩
      · exact ⟨k.g_next_thread, k.interrupts_enabled,
          queue_thread_guards k (some t) (Or.inr ⟨t, rfl, Or.inr halive⟩)⟩

/-- C15: kill(signal) rejects an out-of-range signal with no effect. For signal <= 0 or
signal >= NSIG it returns with the whole kernel state as it found it: the process state, the
stopping flag and every thread are unchanged, and neither stop() nor cont() nor any
handle_signal has been invoked (no stop notification, no handle_signal call is logged and the
run queue is as before). -/
theorem kill_rejects_invalid_signal (k : Kernel) (self : Nat) (signal : Int)
    (h : signal ≤ 0 ∨ k.consts.NSIG ≤ signal) :
    kill k self signal = .ok k := by
  unfold kill
  rw [if_pos]
  rcases h with h | h
  · simp [h]
  · simp [h]

theorem kill_rejects_invalid_signal_witness :
    kill sample_kernel 102 0 = .ok sample_kernel ∧
    kill sample_kernel 102 32 = .ok sample_kernel ∧
    kill sample_kernel 102 (-3) = .ok sample_kernel :=
  ⟨kill_rejects_invalid_signal sample_kernel 102 0 (Or.inl (by decide)),
    kill_rejects_invalid_signal sample_kernel 102 32 (Or.inr (by decide)),
    kill_rejects_invalid_signal sample_kernel 102 (-3) (Or.inl (by decide))⟩

theorem interrupt_frame (k : Kernel) (tid : Int) :
    ∃ q i, Thread.interrupt k tid =
      .ok { k with
            thread := fun a => if a = tid then { k.thread tid with state := .ALIVE } else k.thread a
            interrupt_log := k.interrupt_log ++ [tid]
            g_next_thread := q
            interrupts_enabled := i } := by
  obtain ⟨q, i, h⟩ := queue_thread_frame
    ({ k with interrupt_log := k.interrupt_log ++ [tid] }.set_thread tid
      { k.thread tid with state := .ALIVE }) (some tid)
  exact ⟨q, i, h⟩

theorem stop_callback_frame (k : Kernel) (a : Unit) (t : Int) :
    ∃ k1, stop_callback k a t = .ok (k1, (), true) ∧
      k1.proc = k.proc ∧ k1.signal_log = k.signal_log ∧ k1.wait_log = k.wait_log ∧
      k1.consts = k.consts ∧ k1.kernel_process = k.kernel_process ∧
      ((k.thread t).state = .BLOCKED →
        k1.interrupt_log = k.interrupt_log ++ [t] ∧
        k1.thread = fun a => if a = t then { k.thread t with state := .ALIVE } else k.thread a) ∧
      ((k.thread t).state ≠ .BLOCKED → k1 = k) := by
  by_cases hb : (k.thread t).state = .BLOCKED
  · obtain ⟨q, i, hi⟩ := interrupt_frame k t
    refine ⟨{ k with
        thread := fun a => if a = t then { k.thread t with state := .ALIVE } else k.thread a
        interrupt_log := k.interrupt_log ++ [t]
        g_next_thread := q
        interrupts_enabled := i }, ?_, rfl, rfl, rfl, rfl, rfl, fun _ => ⟨rfl, rfl⟩,
      fun h => absurd hb h⟩
    simp only [stop_callback, Thread.is_blocked, hb, beq_self_eq_true, if_true, hi]
  · refine ⟨k, ?_, rfl, rfl, rfl, rfl, rfl, fun h => absurd h hb, fun _ => rfl⟩
    simp [stop_callback, Thread.is_blocked, hb]

theorem cont_callback_frame (k : Kernel) (a : Unit) (t : Int) :
    ∃ k1, cont_callback k a t = .ok (k1, (), true) ∧
      k1.proc = k.proc ∧ k1.signal_log = k.signal_log ∧ k1.wait_log = k.wait_log ∧
      k1.consts = k.consts ∧ k1.kernel_process = k.kernel_process ∧
      k1.interrupt_log = k.interrupt_log ∧
      (k1.thread = fun a => if a = t then { k.thread t with state := .ALIVE } else k.thread a) ∧
      k1.g_next_thread =
        k.g_next_thread ++ (if t = (k.proc k.kernel_process).pid then [] else [t]) := by
  by_cases hidle : t = (k.proc k.kernel_process).pid
  · refine ⟨k.set_thread t { k.thread t with state := .ALIVE }, ?_, rfl, rfl, rfl, rfl, rfl, rfl,
      rfl, by simp [hidle, Kernel.set_thread]⟩
    simp only [cont_callback]
    rw [queue_thread_guards (k.set_thread t { k.thread t with state := .ALIVE }) (some t)
      (Or.inr ⟨t, rfl, Or.inl hidle⟩)]
  · have h := queue_thread_accepts (k.set_thread t { k.thread t with state := .ALIVE }) t hidle
      (by simp [Kernel.set_thread])
    refine ⟨{ k.set_thread t { k.thread t with state := .ALIVE } with
        g_next_thread := k.g_next_thread ++ [t]
        interrupts_enabled := k.g_critical_count == 0 }, ?_, rfl, rfl, rfl, rfl, rfl, rfl, rfl,
      by simp [hidle]⟩
    simp only [cont_callback, h]
    rfl


theorem set_proc_same (k : Kernel) (self : Nat) (p : Process) (h : p = k.proc self) :
    k.set_proc self p = k := by
  subst h
  have hf : (fun a => if a = self then k.proc self else k.proc a) = k.proc := by
    funext a
    split
    · rename_i h
      rw [h]
    · rfl
  simp only [Kernel.set_proc, hf]

theorem offered_threads_none (accepts : Int → Bool) (l : List Int)
    (h : ∀ t ∈ l, accepts t = false) : offered_threads accepts l = l := by
  induction l with
  | nil => rfl
  | cons t rest ih =>
    have ht : accepts t = false := h t (List.mem_cons_self t rest)
    simp only [offered_threads, ht, Bool.false_eq_true, if_false]
    rw [ih (fun x hx => h x (List.mem_cons_of_mem t hx))]

theorem offered_threads_first (accepts : Int → Bool) (pre : List Int) (t : Int)
    (post : List Int) (hpre : ∀ x ∈ pre, accepts x = false) (ht : accepts t = true) :
    offered_threads accepts (pre ++ t :: post) = pre ++ [t] := by
  induction pre with
  | nil => simp [offered_threads, ht]
  | cons x rest ih =>
    have hx : accepts x = false := hpre x (List.mem_cons_self x rest)
    have hrec := ih (fun y hy => hpre y (List.mem_cons_of_mem x hy))
    show offered_threads accepts (x :: (rest ++ t :: post)) = x :: (rest ++ [t])
    simp only [offered_threads, hx, Bool.false_eq_true, if_false, hrec]

theorem kill_loop (self : Nat) (signal : Int) : ∀ (l : List Int) (k : Kernel) (acc : Bool),
    ∃ acc1, for_each_thread_from self (kill_callback signal) l k acc =
      .ok ({ k with
             signal_log := k.signal_log ++
               (offered_threads (fun t => k.accepts_signal t signal)
                 (l.filter (fun tid => decide (tid ∈ (k.proc self).threads)))).map
                 (fun t => (t, signal)) }, acc1) := by
  intro l
  induction l with
  | nil =>
    intro k acc
    exact ⟨acc, by simp [for_each_thread_from, offered_threads]⟩
  | cons t rest ih =>
    intro k acc
    by_cases hmem : t ∈ (k.proc self).threads
    · by_cases hacc : k.accepts_signal t signal = true
      · exact ⟨true, by
          simp [for_each_thread_from, get_thread, hmem, kill_callback, Thread.handle_signal,
            hacc, offered_threads]⟩
      · obtain ⟨acc1, h1⟩ := ih { k with signal_log := k.signal_log ++ [(t, signal)] } false
        refine ⟨acc1, ?_⟩
        simp only [Bool.not_eq_true] at hacc
        simp only [for_each_thread_from, get_thread, hmem, if_true, kill_callback,
          Thread.handle_signal, hacc, Bool.not_false]
        rw [h1]
        simp [hmem, offered_threads, hacc]
    · obtain ⟨acc1, h1⟩ := ih k acc
      refine ⟨acc1, ?_⟩
      simp only [for_each_thread_from, get_thread, hmem, if_false]
      rw [h1]
      simp [hmem]

theorem notify_loop (self : Nat) (st : Option Int) : ∀ (l : List Int) (k : Kernel) (acc : Bool),
    for_each_thread_from self (notify_callback st) l k acc =
      .ok (k, acc && (l.filter (fun tid => decide (tid ∈ (k.proc self).threads))).all
        (fun tid => some tid == st || (k.thread tid).state == .STOPPED)) := by
  intro l
  induction l with
  | nil =>
    intro k acc
    simp [for_each_thread_from]
  | cons t rest ih =>
    intro k acc
    by_cases hmem : t ∈ (k.proc self).threads
    · by_cases hst : (some t == st || (k.thread t).state == .STOPPED) = true
      · have hcond : (some t != st && (k.thread t).state != .STOPPED) = false := by
          cases h1 : (some t == st) <;> cases h2 : ((k.thread t).state == .STOPPED) <;>
            simp_all [bne]
        cases acc with
        | true =>
          simp only [for_each_thread_from, get_thread, hmem, if_true, notify_callback, hcond,
            Bool.false_eq_true, if_false]
          rw [ih]
          simp [hmem, hst]
        | false =>
          simp [for_each_thread_from, get_thread, hmem, notify_callback, hcond]
      · have hst2 : (some t == st || (k.thread t).state == .STOPPED) = false := by
          simpa using hst
        have hcond : (some t != st && (k.thread t).state != .STOPPED) = true := by
          cases h1 : (some t == st) <;> cases h2 : ((k.thread t).state == .STOPPED) <;>
            simp_all [bne]
        simp [for_each_thread_from, get_thread, hmem, notify_callback, hcond, hst2]
    · simp only [for_each_thread_from, get_thread, hmem, if_false]
      rw [ih]
      simp [hmem]

theorem stop_loop (self : Nat) : ∀ (l : List Int) (k : Kernel),
    ∃ k1 woken, for_each_thread_from self stop_callback l k () = .ok (k1, ()) ∧
      k1.proc = k.proc ∧ k1.signal_log = k.signal_log ∧ k1.wait_log = k.wait_log ∧
      k1.consts = k.consts ∧ k1.kernel_process = k.kernel_process ∧
      k1.interrupt_log = k.interrupt_log ++ woken ∧ woken.Nodup ∧
      (∀ tid, tid ∈ woken ↔
        tid ∈ l ∧ tid ∈ (k.proc self).threads ∧ (k.thread tid).state = .BLOCKED) := by
  intro l
  induction l with
  | nil =>
    intro k
    exact ⟨k, [], rfl, rfl, rfl, rfl, rfl, rfl, by simp, List.nodup_nil, by simp⟩
  | cons t rest ih =>
    intro k
    by_cases hmem : t ∈ (k.proc self).threads
    · obtain ⟨k1, e1, e2, e3, e4, e5, e6, e7, e8⟩ := stop_callback_frame k () t
      by_cases hb : (k.thread t).state = .BLOCKED
      · obtain ⟨e7a, e7b⟩ := e7 hb
        obtain ⟨k2, woken, f1, f2, f3, f4, f5, f6, f7, f8, f9⟩ := ih k1
        have hnot : t ∉ woken := by
          intro hin
          have h3 := ((f9 t).1 hin).2.2
          rw [e7b] at h3
          simp at h3
        refine ⟨k2, t :: woken, ?_, by rw [f2, e2], by rw [f3, e3], by rw [f4, e4],
          by rw [f5, e5], by rw [f6, e6], by rw [f7, e7a]; simp,
          List.nodup_cons.2 ⟨hnot, f8⟩, ?_⟩
        · simp only [for_each_thread_from, get_thread, hmem, if_true, e1]
          exact f1
        · intro tid
          rw [List.mem_cons, f9 tid, e2, e7b]
          by_cases htid : tid = t
          · subst htid
            simp [hmem, hb]
          · simp [htid]
      · have hk1 := e8 hb
        subst hk1
        obtain ⟨k2, woken, f1, f2, f3, f4, f5, f6, f7, f8, f9⟩ := ih k1
        refine ⟨k2, woken, ?_, f2, f3, f4, f5, f6, f7, f8, ?_⟩
        · simp only [for_each_thread_from, get_thread, hmem, if_true, e1]
          exact f1
        · intro tid
          rw [f9 tid, List.mem_cons]
          by_cases htid : tid = t
          · subst htid
            simp [hb]
          · simp [htid]
    · obtain ⟨k2, woken, f1, f2, f3, f4, f5, f6, f7, f8, f9⟩ := ih k
      refine ⟨k2, woken, ?_, f2, f3, f4, f5, f6, f7, f8, ?_⟩
      · simp only [for_each_thread_from, get_thread, hmem, if_false]
        exact f1
      · intro tid
        rw [f9 tid, List.mem_cons]
        by_cases htid : tid = t
        · subst htid
          simp [hmem]
        · simp [htid]

theorem cont_loop (self : Nat) : ∀ (l : List Int) (k : Kernel),
    ∃ k1, for_each_thread_from self cont_callback l k () = .ok (k1, ()) ∧
      k1.proc = k.proc ∧ k1.signal_log = k.signal_log ∧ k1.wait_log = k.wait_log ∧
      k1.consts = k.consts ∧ k1.kernel_process = k.kernel_process ∧
      k1.interrupt_log = k.interrupt_log ∧
      (∀ tid, k1.thread tid =
        if tid ∈ l ∧ tid ∈ (k.proc self).threads then { k.thread tid with state := .ALIVE }
        else k.thread tid) ∧
      k1.g_next_thread = k.g_next_thread ++
        (l.filter (fun tid => decide (tid ∈ (k.proc self).threads))).filter
          (fun tid => decide (tid ≠ (k.proc k.kernel_process).pid)) := by
  intro l
  induction l with
  | nil =>
    intro k
    exact ⟨k, rfl, rfl, rfl, rfl, rfl, rfl, rfl, by simp, by simp⟩
  | cons t rest ih =>
    intro k
    by_cases hmem : t ∈ (k.proc self).threads
    · obtain ⟨k1, e1, e2, e3, e4, e5, e6, e7, e8, e9⟩ := cont_callback_frame k () t
      obtain ⟨k2, f1, f2, f3, f4, f5, f6, f7, f8, f9⟩ := ih k1
      refine ⟨k2, ?_, by rw [f2, e2], by rw [f3, e3], by rw [f4, e4], by rw [f5, e5],
        by rw [f6, e6], by rw [f7, e7], ?_, ?_⟩
      · simp only [for_each_thread_from, get_thread, hmem, if_true, e1]
        exact f1
      · intro tid
        rw [f8 tid, e2, e8]
        by_cases htid : tid = t
        · subst htid
          simp [hmem]
        · simp [htid]
      · rw [f9, e9, e2, e6]
        by_cases hidle : t = (k.proc k.kernel_process).pid
        · simp [hmem, hidle]
        · simp [hmem, hidle]
    · obtain ⟨k2, f1, f2, f3, f4, f5, f6, f7, f8, f9⟩ := ih k
      refine ⟨k2, ?_, f2, f3, f4, f5, f6, f7, ?_, ?_⟩
      · simp only [for_each_thread_from, get_thread, hmem, if_false]
        exact f1
      · intro tid
        rw [f8 tid]
        by_cases htid : tid = t
        · subst htid
          simp [hmem]
        · simp [htid]
      · rw [f9]
        simp [hmem]

theorem stop_again (k : Kernel) (self : Nat) (signal : Int)
    (h : (k.proc self).stopping = true) : stop k self signal = .ok (false, k) := by
  have hk : k.set_proc self { k.proc self with stopping := true } = k :=
    set_proc_same k self _ (by rw [← h])
  simp only [stop, compare_exchange_strong, h]
  simp [hk]

theorem stop_first (k : Kernel) (self : Nat) (signal : Int)
    (h : (k.proc self).stopping = false) :
    ∃ k1 woken, stop k self signal = .ok (true, k1) ∧
      k1.proc = (k.set_proc self { k.proc self with stopping := true }).proc ∧
      k1.signal_log = k.signal_log ∧ k1.wait_log = k.wait_log ++ [(self, signal)] ∧
      k1.consts = k.consts ∧ k1.kernel_process = k.kernel_process ∧
      k1.interrupt_log = k.interrupt_log ++ woken ∧ woken.Nodup ∧
      (∀ tid, tid ∈ woken ↔
        tid ∈ (k.proc self).tids ∧ tid ∈ (k.proc self).threads ∧
          (k.thread tid).state = .BLOCKED) := by
  obtain ⟨k1, woken, f1, f2, f3, f4, f5, f6, f7, f8, f9⟩ := stop_loop self (k.proc self).tids
    { k.set_proc self { k.proc self with stopping := true } with
      wait_log := k.wait_log ++ [(self, signal)] }
  refine ⟨k1, woken, ?_, f2, f3, f4, f5, f6, f7, f8, ?_⟩
  · simp only [stop, compare_exchange_strong, h, for_each_thread, Kernel.set_proc] at f1 ⊢
    simp only [beq_self_eq_true, if_true] at f1 ⊢
    rw [f1]
  · intro tid
    rw [f9 tid]
    simp [Kernel.set_proc]

theorem mem_visited_threads (k : Kernel) (self : Nat) (tid : Int) :
    tid ∈ visited_threads k self ↔ tid ∈ (k.proc self).tids ∧ tid ∈ (k.proc self).threads := by
  simp [visited_threads, List.mem_filter]

theorem cont_not_stopped (k : Kernel) (self : Nat) (h : (k.proc self).state ≠ .STOPPED) :
    cont k self = .ok k := by
  simp [cont, h]

theorem cont_stopped (k : Kernel) (self : Nat) (h : (k.proc self).state = .STOPPED) :
    ∃ k1, cont k self = .ok k1 ∧
      (k1.proc = fun a =>
        if a = self then { k.proc self with state := .ALIVE, stopping := false }
        else k.proc a) ∧
      k1.signal_log = k.signal_log ∧ k1.wait_log = k.wait_log ∧ k1.consts = k.consts ∧
      k1.kernel_process = k.kernel_process ∧ k1.interrupt_log = k.interrupt_log ∧
      (∀ tid, k1.thread tid =
        if tid ∈ visited_threads k self then { k.thread tid with state := .ALIVE }
        else k.thread tid) ∧
      k1.g_next_thread = k.g_next_thread ++
        (visited_threads k self).filter
          (fun tid => decide (tid ≠ (k.proc k.kernel_process).pid)) := by
  obtain ⟨k1, f1, f2, f3, f4, f5, f6, f7, f8, f9⟩ := cont_loop self (k.proc self).tids
    (k.set_proc self { k.proc self with state := .ALIVE })
  have hpid : ((k.set_proc self { k.proc self with state := .ALIVE }).proc
      (k.set_proc self { k.proc self with state := .ALIVE }).kernel_process).pid =
      (k.proc k.kernel_process).pid := by
    simp only [Kernel.set_proc]
    split
    · rename_i hs
      rw [hs]
    · rfl
  have hthr : ((k.set_proc self { k.proc self with state := .ALIVE }).proc self).threads =
      (k.proc self).threads := by
    simp [Kernel.set_proc]
  refine ⟨k1.set_proc self { k1.proc self with stopping := false }, ?_, ?_, f3, f4, f5, f6, f7,
    ?_, ?_⟩
  · simp only [cont, h, for_each_thread, Kernel.set_proc] at f1 ⊢
    simp only [bne_self_eq_false, Bool.false_eq_true, if_false, if_true] at f1 ⊢
    rw [f1]
  · funext a
    simp only [Kernel.set_proc, f2]
    by_cases ha : a = self
    · simp [ha]
    · simp [ha]
  · intro tid
    show k1.thread tid = _
    rw [f8 tid]
    simp only [hthr, mem_visited_threads]
    rfl
  · show k1.g_next_thread = _
    rw [f9, hpid]
    simp only [hthr, visited_threads]
    rfl

theorem notify_thread_stopping_eq (k : Kernel) (self : Nat) (st : Option Int) :
    notify_thread_stopping k self st =
      .ok (if (visited_threads k self).all
              (fun tid => some tid == st || (k.thread tid).state == .STOPPED) then
            k.set_proc self { k.proc self with state := .STOPPED }
          else k) := by
  simp only [notify_thread_stopping, for_each_thread, notify_loop, Bool.true_and, visited_threads]
  split <;> rfl

theorem kill_generic (k : Kernel) (self : Nat) (signal cur : Int)
    (hpos : 0 < signal) (hlt : signal < k.consts.NSIG) (h1 : signal ≠ k.consts.SIGSTOP)
    (h2 : signal ≠ k.consts.SIGTSTP) (h3 : signal ≠ k.consts.SIGCONT)
    (hcur : k.cur_thread = some cur) :
    kill k self signal =
      .ok { k with
            signal_log := k.signal_log ++
              (offered_threads (fun t => k.accepts_signal t signal)
                (visited_threads k self)).map (fun t => (t, signal)) } := by
  obtain ⟨acc1, f1⟩ := kill_loop self signal (k.proc self).tids k false
  have e0 : (decide (signal ≤ 0) || decide (signal ≥ k.consts.NSIG)) = false := by
    simp only [Bool.or_eq_false_iff, decide_eq_false_iff_not]
    omega
  have e1 : (signal == k.consts.SIGSTOP || signal == k.consts.SIGTSTP) = false := by
    simp [h1, h2]
  have e2 : (signal == k.consts.SIGCONT) = false := by simp [h3]
  unfold kill for_each_thread
  simp only [e0, e1, e2, Bool.false_eq_true, if_false, hcur]
  simp only [Thread.enter_critical]
  rw [f1]
  simp [Thread.leave_critical, visited_threads, hcur]

theorem kill_routes_stop (k : Kernel) (self : Nat) (signal : Int)
    (hpos : 0 < signal) (hlt : signal < k.consts.NSIG)
    (hs : signal = k.consts.SIGSTOP ∨ signal = k.consts.SIGTSTP) (b : Bool) (k1 : Kernel)
    (hstop : stop k self signal = .ok (b, k1)) : kill k self signal = .ok k1 := by
  have hc1 : ¬ (signal ≤ 0) := by omega
  have hc2 : ¬ (signal ≥ k.consts.NSIG) := by omega
  have hc3 : (signal == k.consts.SIGSTOP || signal == k.consts.SIGTSTP) = true := by
    rcases hs with hs | hs <;> simp [← hs]
  simp only [kill, hc1, hc2, hc3, hstop, decide_False, Bool.or_self, Bool.false_eq_true,
    if_false, if_true]

theorem kill_routes_cont (k : Kernel) (self : Nat) (signal : Int)
    (hpos : 0 < signal) (hlt : signal < k.consts.NSIG) (h1 : signal ≠ k.consts.SIGSTOP)
    (h2 : signal ≠ k.consts.SIGTSTP) (h3 : signal = k.consts.SIGCONT) :
    kill k self signal = cont k self := by
  have hc1 : ¬ (signal ≤ 0) := by omega
  have hc2 : ¬ (signal ≥ k.consts.NSIG) := by omega
  have hc3 : (signal == k.consts.SIGSTOP || signal == k.consts.SIGTSTP) = false := by
    simp [h1, h2]
  have hc4 : (signal == k.consts.SIGCONT) = true := by simp [h3]
  simp only [kill, hc1, hc2, hc3, hc4, decide_False, Bool.or_self, Bool.false_eq_true,
    if_false, if_true]

theorem stop_total (k : Kernel) (p : Nat) (s : Int) :
    ∃ b k1, stop k p s = .ok (b, k1) ∧ k1.consts = k.consts ∧
      ∀ q, (k1.proc q).state = (k.proc q).state := by
  cases hst : (k.proc p).stopping with
  | false =>
    obtain ⟨k1, woken, f1, f2, -, -, f5, -⟩ := stop_first k p s hst
    refine ⟨true, k1, f1, f5, fun q => ?_⟩
    rw [f2]
    simp only [Kernel.set_proc]
    split
    · rename_i hq
      rw [hq]
    · rfl
  | true => exact ⟨false, k, stop_again k p s hst, rfl, fun _ => rfl⟩

theorem cont_states (k : Kernel) (p : Nat) (k1 : Kernel) (h : cont k p = .ok k1) :
    k1.consts = k.consts ∧ (∀ q, q ≠ p → (k1.proc q).state = (k.proc q).state) ∧
      (k1 = k ∨ ((k.proc p).state = .STOPPED ∧ (k1.proc p).state = .ALIVE)) := by
  by_cases hst : (k.proc p).state = .STOPPED
  · obtain ⟨k2, f1, f2, -, -, f5, -⟩ := cont_stopped k p hst
    rw [f1] at h
    cases h
    refine ⟨f5, fun q hq => ?_, Or.inr ⟨hst, ?_⟩⟩
    · rw [f2]
      simp [hq]
    · rw [f2]
      simp
  · rw [cont_not_stopped k p hst] at h
    cases h
    exact ⟨rfl, fun _ _ => rfl, Or.inl rfl⟩

theorem kill_cases (k : Kernel) (p : Nat) (s : Int) (k1 : Kernel) (h : kill k p s = .ok k1) :
    (k1.consts = k.consts ∧ ∀ q, (k1.proc q).state = (k.proc q).state) ∨
      (s = k.consts.SIGCONT ∧ cont k p = .ok k1) := by
  by_cases hv : s ≤ 0 ∨ k.consts.NSIG ≤ s
  · have h0 : kill k p s = .ok k := by
      unfold kill
      rw [if_pos]
      rcases hv with hv | hv
      · simp [hv]
      · simp [hv]
    rw [h0] at h
    cases h
    exact Or.inl ⟨rfl, fun _ => rfl⟩
  · have hpos : 0 < s := by omega
    have hlt : s < k.consts.NSIG := by omega
    by_cases hs : s = k.consts.SIGSTOP ∨ s = k.consts.SIGTSTP
    · obtain ⟨b, k2, f1, f2, f3⟩ := stop_total k p s
      rw [kill_routes_stop k p s hpos hlt hs b k2 f1] at h
      cases h
      exact Or.inl ⟨f2, f3⟩
    · have h1 : s ≠ k.consts.SIGSTOP := fun e => hs (Or.inl e)
      have h2 : s ≠ k.consts.SIGTSTP := fun e => hs (Or.inr e)
      by_cases hc : s = k.consts.SIGCONT
      · rw [kill_routes_cont k p s hpos hlt h1 h2 hc] at h
        exact Or.inr ⟨hc, h⟩
      · cases hcur : k.cur_thread with
        | none =>
          have e0 : (decide (s ≤ 0) || decide (s ≥ k.consts.NSIG)) = false := by
            simp only [Bool.or_eq_false_iff, decide_eq_false_iff_not]
            omega
          have e1 : (s == k.consts.SIGSTOP || s == k.consts.SIGTSTP) = false := by
            simp [h1, h2]
          have e2 : (s == k.consts.SIGCONT) = false := by simp [hc]
          unfold kill at h
          simp only [e0, e1, e2, Bool.false_eq_true, if_false, hcur] at h
          cases h
        | some cur =>
          rw [kill_generic k p s cur hpos hlt h1 h2 hc hcur] at h
          cases h
          exact Or.inl ⟨rfl, fun _ => rfl⟩

theorem deliver_kills_states : ∀ (l : List (Nat × Int)) (k k1 : Kernel),
    deliver_kills l k = .ok k1 → (∀ e ∈ l, e.2 ≠ k.consts.SIGCONT) →
      k1.consts = k.consts ∧ ∀ q, (k1.proc q).state = (k.proc q).state := by
  intro l
  induction l with
  | nil =>
    intro k k1 h _
    cases h
    exact ⟨rfl, fun _ => rfl⟩
  | cons e rest ih =>
    intro k k1 h hl
    obtain ⟨p, s⟩ := e
    simp only [deliver_kills] at h
    cases hk : kill k p s with
    | error err =>
      rw [hk] at h
      cases h
    | ok k2 =>
      rw [hk] at h
      simp only [] at h
      have hs : s ≠ k.consts.SIGCONT := hl (p, s) (List.mem_cons_self _ _)
      rcases kill_cases k p s k2 hk with ⟨g1, g2⟩ | ⟨g1, -⟩
      · obtain ⟨i1, i2⟩ := ih k2 k1 h (fun e he => by
          rw [g1]
          exact hl e (List.mem_cons_of_mem _ he))
        exact ⟨by rw [i1, g1], fun q => by rw [i2 q, g2 q]⟩
      · exact absurd g1 hs

theorem alert_thread_died_states (k : Kernel) (p : Nat) (t : Int) :
    (alert_thread_died k p t).consts = k.consts ∧
      (∀ q, ((alert_thread_died k p t).proc q).state = (k.proc q).state ∨
        ((alert_thread_died k p t).proc q).state = .ZOMBIE) ∧
      (∀ e ∈ (alert_thread_died k p t).kill_log.drop k.kill_log.length,
        e.2 = k.consts.SIGCHLD) := by
  have hrem : (remove_thread k p t).consts = k.consts ∧
      (∀ q, ((remove_thread k p t).proc q).state = (k.proc q).state) ∧
      (remove_thread k p t).kill_log = k.kill_log := by
    refine ⟨rfl, fun q => ?_, rfl⟩
    simp only [remove_thread, Kernel.set_proc]
    split
    · rename_i hq
      rw [hq]
    · rfl
  obtain ⟨r1, r2, r3⟩ := hrem
  have htail : ∀ k2 : Kernel, k2.consts = k.consts →
      (∀ q, (k2.proc q).state = (k.proc q).state) →
      (∀ e ∈ k2.kill_log.drop k.kill_log.length, e.2 = k.consts.SIGCHLD) →
      (let k3 := reparent_orphans k2 p
       let r := compare_exchange_strong (k3.proc p).ready_to_destroy false true
       let k4 := if r.1 then
           k3.set_proc p { k3.proc p with ready_to_destroy := r.2, state := .ZOMBIE }
         else delete_this k3 p
       k4.consts = k.consts ∧
        (∀ q, (k4.proc q).state = (k.proc q).state ∨ (k4.proc q).state = .ZOMBIE) ∧
        (∀ e ∈ k4.kill_log.drop k.kill_log.length, e.2 = k.consts.SIGCHLD)) := by
    intro k2 c1 c2 c3
    obtain ⟨g1, -, -, g4, -, -, g7⟩ := reparent_orphans_fields k2 p
    have gs : ∀ q, ((reparent_orphans k2 p).proc q).state = (k.proc q).state := by
      intro q
      obtain ⟨pp, hpp⟩ := g1 q
      rw [hpp]
      exact c2 q
    simp only []
    split
    · refine ⟨by rw [← c1, ← g7]; rfl, fun q => ?_, by
        show ∀ e ∈ (reparent_orphans k2 p).kill_log.drop k.kill_log.length, _
        rw [g4]
        exact c3⟩
      simp only [Kernel.set_proc]
      split
      · exact Or.inr rfl
      · exact Or.inl (gs q)
    · refine ⟨by rw [← c1, ← g7]; rfl, fun q => Or.inl (gs q), by
        show ∀ e ∈ (reparent_orphans k2 p).kill_log.drop k.kill_log.length, _
        rw [g4]
        exact c3⟩
  unfold alert_thread_died
  simp only []
  split
  · apply htail
    · split
      · split <;> exact r1
      · exact r1
    · intro q
      split
      · split <;> exact r2 q
      · exact r2 q
    · intro e he
      split at he
      · split at he
        · simp only [r3, List.drop_left] at he
          rw [List.mem_singleton] at he
          rw [he]
          rfl
        · rw [r3] at he
          simp at he
      · rw [r3] at he
        simp at he
  · refine ⟨r1, fun q => Or.inl (r2 q), ?_⟩
    rw [r3]
    simp

theorem reap_states (k : Kernel) (p : Nat) :
    (reap k p).consts = k.consts ∧ ∀ q, ((reap k p).proc q).state = (k.proc q).state := by
  have hq : ∀ (v : Bool) (q : Nat),
      ((k.set_proc p { k.proc p with ready_to_destroy := v }).proc q).state =
        (k.proc q).state := by
    intro v q
    simp only [Kernel.set_proc]
    split
    · rename_i h
      rw [h]
    · rfl
  unfold reap
  simp only []
  split
  · exact ⟨rfl, fun q => hq _ q⟩
  · exact ⟨rfl, fun q => hq _ q⟩

theorem proc_step_states (k : Kernel) (c : ProcCall) (k1 : Kernel)
    (hc : k.consts.SIGCHLD ≠ k.consts.SIGCONT) (h : proc_step k c = .ok k1) :
    k1.consts = k.consts ∧
    ∀ p,
      ((k.proc p).state ≠ .ALIVE → (k1.proc p).state = .ALIVE →
        (k.proc p).state = .STOPPED ∧ (c = .cont p ∨ c = .kill p k.consts.SIGCONT) ∧
          cont k p = .ok k1) ∧
      ((k.proc p).state ≠ .STOPPED → (k1.proc p).state = .STOPPED →
        ∃ t, c = .notify_thread_stopping p t ∧
          ∀ tid ∈ visited_threads k p, some tid ≠ t → (k.thread tid).state = .STOPPED) := by
  have hsame : ∀ k2 : Kernel, k2.consts = k.consts →
      (∀ q, (k2.proc q).state = (k.proc q).state ∨ (k2.proc q).state = .ZOMBIE) →
      k2.consts = k.consts ∧
      ∀ p,
        ((k.proc p).state ≠ .ALIVE → (k2.proc p).state = .ALIVE →
          (k.proc p).state = .STOPPED ∧ (c = .cont p ∨ c = .kill p k.consts.SIGCONT) ∧
            cont k p = .ok k2) ∧
        ((k.proc p).state ≠ .STOPPED → (k2.proc p).state = .STOPPED →
          ∃ t, c = .notify_thread_stopping p t ∧
            ∀ tid ∈ visited_threads k p, some tid ≠ t → (k.thread tid).state = .STOPPED) := by
    intro k2 e1 e2
    refine ⟨e1, fun p => ⟨fun h1 h2 => ?_, fun h1 h2 => ?_⟩⟩
    · rcases e2 p with e | e
      · rw [e] at h2
        exact absurd h2 h1
      · rw [e] at h2
        cases h2
    · rcases e2 p with e | e
      · rw [e] at h2
        exact absurd h2 h1
      · rw [e] at h2
        cases h2
  have hcont : ∀ (q : Nat), cont k q = .ok k1 →
      (c = .cont q ∨ c = .kill q k.consts.SIGCONT) →
      k1.consts = k.consts ∧
      ∀ p,
        ((k.proc p).state ≠ .ALIVE → (k1.proc p).state = .ALIVE →
          (k.proc p).state = .STOPPED ∧ (c = .cont p ∨ c = .kill p k.consts.SIGCONT) ∧
            cont k p = .ok k1) ∧
        ((k.proc p).state ≠ .STOPPED → (k1.proc p).state = .STOPPED →
          ∃ t, c = .notify_thread_stopping p t ∧
            ∀ tid ∈ visited_threads k p, some tid ≠ t → (k.thread tid).state = .STOPPED) := by
    intro q hq hcq
    obtain ⟨g1, g2, g3⟩ := cont_states k q k1 hq
    rcases g3 with g3 | ⟨g3, g4⟩
    · subst g3
      exact hsame k1 rfl (fun _ => Or.inl rfl)
    · refine ⟨g1, fun p => ?_⟩
      by_cases hp : p = q
      · subst hp
        refine ⟨fun _ _ => ⟨g3, hcq, hq⟩, fun h1 _ => absurd g3 h1⟩
      · refine ⟨fun h1 h2 => ?_, fun h1 h2 => ?_⟩
        · rw [g2 p hp] at h2
          exact absurd h2 h1
        · rw [g2 p hp] at h2
          exact absurd h2 h1
  unfold proc_step at h
  split at h
  · cases h
    exact hsame _ rfl (fun _ => Or.inl rfl)
  · cases c with
    | kill q s =>
      simp only [proc_call] at h
      rcases kill_cases k q s k1 h with ⟨g1, g2⟩ | ⟨g1, g2⟩
      · exact hsame k1 g1 (fun r => Or.inl (g2 r))
      · exact hcont q g2 (Or.inr (by rw [g1]))
    | stop q s =>
      simp only [proc_call] at h
      obtain ⟨b, k2, f1, f2, f3⟩ := stop_total k q s
      rw [f1] at h
      cases h
      exact hsame k1 f2 (fun r => Or.inl (f3 r))
    | notify_thread_stopping q t =>
      simp only [proc_call, notify_thread_stopping_eq] at h
      by_cases hall : (visited_threads k q).all
          (fun tid => some tid == t || (k.thread tid).state == .STOPPED) = true
      · rw [if_pos hall] at h
        cases h
        refine ⟨rfl, fun p => ?_⟩
        by_cases hp : p = q
        · subst hp
          refine ⟨fun _ h2 => ?_, fun _ _ => ⟨t, rfl, fun tid htid hne => ?_⟩⟩
          · simp [Kernel.set_proc] at h2
          · have h3 := List.all_eq_true.1 hall tid htid
            simp only [Bool.or_eq_true, beq_iff_eq] at h3
            rcases h3 with h3 | h3
            · exact absurd h3 hne
            · exact h3
        · refine ⟨fun h1 h2 => ?_, fun h1 h2 => ?_⟩
          · simp only [Kernel.set_proc, hp, if_false] at h2
            exact absurd h2 h1
          · simp only [Kernel.set_proc, hp, if_false] at h2
            exact absurd h2 h1
      · rw [if_neg hall] at h
        cases h
        exact hsame _ rfl (fun _ => Or.inl rfl)
    | cont q =>
      simp only [proc_call] at h
      exact hcont q h (Or.inl rfl)
    | alert_thread_died q t =>
      simp only [proc_call] at h
      obtain ⟨a1, a2, a3⟩ := alert_thread_died_states k q t
      obtain ⟨d1, d2⟩ := deliver_kills_states _ _ k1 h (fun e he => by
        rw [a1, a3 e he]
        exact hc)
      exact hsame k1 (by rw [d1, a1]) (fun r => by
        rw [d2 r]
        exact a2 r)
    | reap q =>
      simp only [proc_call] at h
      cases h
      obtain ⟨r1, r2⟩ := reap_states k q
      exact hsame _ r1 (fun r => Or.inl (r2 r))

theorem proc_run_cons (k : Kernel) (c : ProcCall) (cs : List ProcCall) (k1 : Kernel)
    (h : proc_step k c = .ok k1) : proc_run k (c :: cs) = proc_run k1 cs := by
  simp only [proc_run, h]

theorem proc_run_alive : ∀ (cs : List ProcCall) (k k1 : Kernel) (p : Nat),
    k.consts.SIGCHLD ≠ k.consts.SIGCONT → proc_run k cs = .ok k1 →
    (k.proc p).state ≠ .ALIVE → (k1.proc p).state = .ALIVE →
    ∃ pre c post kmid, cs = pre ++ c :: post ∧ proc_run k pre = .ok kmid ∧
      (kmid.proc p).state = .STOPPED ∧ (c = .cont p ∨ c = .kill p k.consts.SIGCONT) ∧
      proc_step kmid c = cont kmid p := by
  intro cs
  induction cs with
  | nil =>
    intro k k1 p _ h h1 h2
    cases h
    exact absurd h2 h1
  | cons c cs ih =>
    intro k k1 p hc h h1 h2
    cases hs : proc_step k c with
    | error e =>
      simp only [proc_run, hs] at h
      cases h
    | ok k2 =>
      rw [proc_run_cons k c cs k2 hs] at h
      obtain ⟨g1, g2⟩ := proc_step_states k c k2 hc hs
      by_cases ha : (k2.proc p).state = .ALIVE
      · obtain ⟨e1, e2, e3⟩ := (g2 p).1 h1 ha
        exact ⟨[], c, cs, k, rfl, rfl, e1, e2, by rw [hs, e3]⟩
      · obtain ⟨pre, c1, post, kmid, i1, i2, i3, i4, i5⟩ := ih k2 k1 p (by rw [g1]; exact hc) h
          ha h2
        refine ⟨c :: pre, c1, post, kmid, by rw [i1]; rfl, ?_, i3, by rw [← g1]; exact i4, i5⟩
        rw [proc_run_cons k c pre k2 hs]
        exact i2

theorem proc_run_stopped : ∀ (cs : List ProcCall) (k k1 : Kernel) (p : Nat),
    k.consts.SIGCHLD ≠ k.consts.SIGCONT → proc_run k cs = .ok k1 →
    (k.proc p).state ≠ .STOPPED → (k1.proc p).state = .STOPPED →
    ∃ pre t post kmid, cs = pre ++ .notify_thread_stopping p t :: post ∧
      proc_run k pre = .ok kmid ∧
      ∀ tid ∈ visited_threads kmid p, some tid ≠ t → (kmid.thread tid).state = .STOPPED := by
  intro cs
  induction cs with
  | nil =>
    intro k k1 p _ h h1 h2
    cases h
    exact absurd h2 h1
  | cons c cs ih =>
    intro k k1 p hc h h1 h2
    cases hs : proc_step k c with
    | error e =>
      simp only [proc_run, hs] at h
      cases h
    | ok k2 =>
      rw [proc_run_cons k c cs k2 hs] at h
      obtain ⟨g1, g2⟩ := proc_step_states k c k2 hc hs
      by_cases ha : (k2.proc p).state = .STOPPED
      · obtain ⟨t, e1, e2⟩ := (g2 p).2 h1 ha
        exact ⟨[], t, cs, k, by rw [e1]; rfl, rfl, e2⟩
      · obtain ⟨pre, t, post, kmid, i1, i2, i3⟩ := ih k2 k1 p (by rw [g1]; exact hc) h ha h2
        refine ⟨c :: pre, t, post, kmid, by rw [i1]; rfl, ?_, i3⟩
        rw [proc_run_cons k c pre k2 hs]
        exact i2

/-- C19 as stated fails: notify_thread_stopping does not read the state of the thread it is
passed. The process at 103 is Alive and its thread 7 is Alive (threads 8 and 9 are Stopped);
the step notify_thread_stopping(7) sets the process state to Stopped although it has not found
thread 7 in state Stopped. -/
theorem stopped_with_alive_thread :
    (sample_kernel_stopping.proc 103).state = .ALIVE ∧
    7 ∈ visited_threads sample_kernel_stopping 103 ∧
    (sample_kernel_stopping.thread 7).state = .ALIVE ∧
    ∃ k1, proc_step sample_kernel_stopping (.notify_thread_stopping 103 (some 7)) = .ok k1 ∧
      (k1.proc 103).state = .STOPPED ∧ (k1.thread 7).state = .ALIVE :=
  ⟨rfl, by decide, rfl, _, rfl, rfl, rfl⟩

/-- C19, amended: over the step relation generated by the operations of Process (kill, stop,
notify_thread_stopping, cont, alert_thread_died, reap), with SIGCHLD other than SIGCONT: a
process in state Stopped changes to state Alive only in a step that is cont() on it, made
directly or by kill(SIGCONT); and a process that is not Stopped becomes Stopped only in a
notify_thread_stopping(t) step on it that has found every visited thread other than t in state
Stopped (the state of t itself is not read). Along a run, a process that is Alive at the end
and was not at the start has been through such a cont() step taken in state Stopped, and a
process that is Stopped at the end and was not at the start has been through such a
notify_thread_stopping step. -/
theorem stopped_alive_transitions (k : Kernel) (p : Nat)
    (hc : k.consts.SIGCHLD ≠ k.consts.SIGCONT) :
    (∀ c k1, proc_step k c = .ok k1 →
      ((k.proc p).state = .STOPPED → (k1.proc p).state = .ALIVE →
        (c = .cont p ∨ c = .kill p k.consts.SIGCONT) ∧ cont k p = .ok k1) ∧
      ((k.proc p).state ≠ .STOPPED → (k1.proc p).state = .STOPPED →
        ∃ t, c = .notify_thread_stopping p t ∧
          ∀ tid ∈ visited_threads k p, some tid ≠ t → (k.thread tid).state = .STOPPED)) ∧
    (∀ cs k1, proc_run k cs = .ok k1 →
      ((k.proc p).state ≠ .ALIVE → (k1.proc p).state = .ALIVE →
        ∃ pre c post kmid, cs = pre ++ c :: post ∧ proc_run k pre = .ok kmid ∧
          (kmid.proc p).state = .STOPPED ∧ (c = .cont p ∨ c = .kill p k.consts.SIGCONT) ∧
          proc_step kmid c = cont kmid p) ∧
      ((k.proc p).state ≠ .STOPPED → (k1.proc p).state = .STOPPED →
        ∃ pre t post kmid, cs = pre ++ .notify_thread_stopping p t :: post ∧
          proc_run k pre = .ok kmid ∧
          ∀ tid ∈ visited_threads kmid p, some tid ≠ t →
            (kmid.thread tid).state = .STOPPED)) := by
  refine ⟨fun c k1 h => ⟨fun h1 h2 => ?_, fun h1 h2 => ?_⟩,
    fun cs k1 h => ⟨proc_run_alive cs k k1 p hc h, proc_run_stopped cs k k1 p hc h⟩⟩
  · obtain ⟨-, e2, e3⟩ := ((proc_step_states k c k1 hc h).2 p).1 (by rw [h1]; decide) h2
    exact ⟨e2, e3⟩
  · exact ((proc_step_states k c k1 hc h).2 p).2 h1 h2

theorem stopped_alive_transitions_witness :
    ∃ k1, proc_run sample_kernel_stopping
        [.notify_thread_stopping 103 (some 7), .stop 103 19, .kill 103 18] = .ok k1 ∧
      (k1.proc 103).state = .ALIVE ∧
      (∃ pre t post kmid,
        [ProcCall.notify_thread_stopping 103 (some 7), .stop 103 19] =
          pre ++ .notify_thread_stopping 103 t :: post ∧
        proc_run sample_kernel_stopping pre = .ok kmid ∧
        ∀ tid ∈ visited_threads kmid 103, some tid ≠ t →
          (kmid.thread tid).state = .STOPPED) ∧
      ∀ c k2, proc_step k1 c = .ok k2 → (k2.proc 103).state = .STOPPED →
        ∃ t, c = .notify_thread_stopping 103 t ∧
          ∀ tid ∈ visited_threads k1 103, some tid ≠ t → (k1.thread tid).state = .STOPPED :=
  ⟨_, rfl, rfl,
    ((stopped_alive_transitions sample_kernel_stopping 103 (by decide)).2
      [.notify_thread_stopping 103 (some 7), .stop 103 19] _ rfl).2 (by decide) rfl,
    fun c k2 h h2 =>
      ((stopped_alive_transitions _ 103 (by decide)).1 c k2 h).2 (by decide) h2⟩

/-! ### Thread selection -/

theorem skip_unrunnable_first (k : Kernel) (pre : List Int) (t : Int) (post : List Int)
    (hpre : ∀ x ∈ pre, (k.thread x).can_be_run = false) (ht : (k.thread t).can_be_run = true) :
    skip_unrunnable k (pre ++ t :: post) = t :: post := by
  induction pre with
  | nil => simp [skip_unrunnable, ht]
  | cons x rest ih =>
    have hx : (k.thread x).can_be_run = false := hpre x (List.mem_cons_self x rest)
    have hrec := ih (fun y hy => hpre y (List.mem_cons_of_mem x hy))
    show skip_unrunnable k (x :: (rest ++ t :: post)) = t :: post
    simp only [skip_unrunnable, hx, Bool.false_eq_true, if_false, hrec]

theorem skip_unrunnable_none (k : Kernel) (l : List Int)
    (h : ∀ x ∈ l, (k.thread x).can_be_run = false) : skip_unrunnable k l = [] := by
  induction l with
  | nil => rfl
  | cons x rest ih =>
    have hx : (k.thread x).can_be_run = false := h x (List.mem_cons_self x rest)
    simp only [skip_unrunnable, hx, Bool.false_eq_true, if_false]
    exact ih (fun y hy => h y (List.mem_cons_of_mem x hy))

theorem get_thread_some (k : Kernel) (self : Nat) (tid t : Int)
    (h : get_thread k self tid = some t) : tid ∈ (k.proc self).threads ∧ tid = t := by
  unfold get_thread at h
  split at h
  · rename_i hm
    exact ⟨hm, Option.some.inj h⟩
  · cases h

/-- C20 as stated fails: with the run queue exhausted, a current thread that cannot be run and
an idle thread that is not Alive, pick_next_thread() does not return the idle thread: it
panics. -/
theorem pick_next_thread_idle_blocked :
    sample_kernel_deadlock.g_next_thread = [] ∧
    sample_kernel_deadlock.cur_thread = some 5 ∧
    (sample_kernel_deadlock.thread 5).can_be_run = false ∧
    pick_next_thread sample_kernel_deadlock =
      .error "KTHREAD_DEADLOCK: The kernel idle thread is blocked!" :=
  ⟨rfl, rfl, rfl, rfl⟩

/-- C20, amended: pick_next_thread(), called with the tasking lock held by the current thread.
If the run queue holds a first entry t that can be run, behind entries pre that cannot, the
cursor is moved past pre, t is returned and the cursor is left at the successor of t. If no
entry of the queue can be run the queue is exhausted and the cursor is left null: the current
thread is returned when it can be run; otherwise the idle thread (the thread of the kernel
process whose tid is the pid of the kernel process) is returned provided its state is Alive,
and when the idle thread is not Alive the call does not return but panics with
KTHREAD_DEADLOCK. -/
theorem pick_next_thread_selects (k : Kernel)
    (hheld : Mutex.held_by_current_thread k k.g_tasking_lock = true) :
    (∀ pre t post, k.g_next_thread = pre ++ t :: post →
      (∀ x ∈ pre, (k.thread x).can_be_run = false) → (k.thread t).can_be_run = true →
      pick_next_thread k = .ok (t, { k with g_next_thread := post })) ∧
    ((∀ x ∈ k.g_next_thread, (k.thread x).can_be_run = false) →
      ∀ cur, k.cur_thread = some cur →
        ((k.thread cur).can_be_run = true →
          pick_next_thread k = .ok (cur, { k with g_next_thread := [] })) ∧
        ((k.thread cur).can_be_run = false →
          ∀ idle, get_thread k k.kernel_process (k.proc k.kernel_process).pid = some idle →
            ((k.thread idle).state = .ALIVE →
              pick_next_thread k = .ok (idle, { k with g_next_thread := [] })) ∧
            ((k.thread idle).state ≠ .ALIVE →
              pick_next_thread k =
                .error "KTHREAD_DEADLOCK: The kernel idle thread is blocked!"))) := by
  refine ⟨fun pre t post hq hpre ht => ?_, fun hall cur hcur => ⟨fun hrun => ?_,
    fun hrun idle hidle => ⟨fun halive => ?_, fun halive => ?_⟩⟩⟩
  · have hs := skip_unrunnable_first k pre t post hpre ht
    rw [← hq] at hs
    unfold pick_next_thread
    simp [hheld, hs, next_thread]
  · have hs := skip_unrunnable_none k k.g_next_thread hall
    unfold pick_next_thread
    simp [hheld, hs, hcur, hrun]
  · have hs := skip_unrunnable_none k k.g_next_thread hall
    obtain ⟨hm, he⟩ := get_thread_some k k.kernel_process _ idle hidle
    subst he
    unfold pick_next_thread
    simp [hheld, hs, hcur, hrun, get_thread, hm, halive]
  · have hs := skip_unrunnable_none k k.g_next_thread hall
    obtain ⟨hm, he⟩ := get_thread_some k k.kernel_process _ idle hidle
    subst he
    unfold pick_next_thread
    simp [hheld, hs, hcur, hrun, get_thread, hm, halive]

theorem pick_next_thread_selects_witness :
    pick_next_thread { sample_kernel_locked with g_next_thread := [8, 7, 9] } =
      .ok (7, { sample_kernel_locked with g_next_thread := [9] }) ∧
    pick_next_thread { sample_kernel_locked with g_next_thread := [8] } =
      .ok (0, { sample_kernel_locked with g_next_thread := [] }) ∧
    pick_next_thread
        { sample_kernel_deadlock with thread := sample_kernel_blocked.thread } =
      .ok (0, { sample_kernel_deadlock with thread := sample_kernel_blocked.thread }) :=
  ⟨(pick_next_thread_selects { sample_kernel_locked with g_next_thread := [8, 7, 9] } rfl).1
      [8] 7 [9] rfl (by decide) rfl,
    ((pick_next_thread_selects { sample_kernel_locked with g_next_thread := [8] } rfl).2
      (by decide) 0 rfl).1 rfl,
    (((pick_next_thread_selects
        { sample_kernel_deadlock with thread := sample_kernel_blocked.thread } rfl).2
      (by decide) 5 rfl).2 rfl 0 rfl).1 rfl⟩

/-! ### notify_thread_stopping -/

theorem thread_for_tid_threads_error (k : Kernel) (cur : Nat) (tid : Int) (l : List Int)
    (r : Result) (h : thread_for_tid_threads k cur tid l = some (.error r)) :
    r = ⟨k.consts.ENOENT⟩ := by
  induction l with
  | nil => simp [thread_for_tid_threads] at h
  | cons x rest ih =>
    simp only [thread_for_tid_threads] at h
    split at h
    · exact ih h
    · split at h
      · simp at h
      · simp only [Option.some.injEq, Except.error.injEq] at h
        exact h.symm

theorem thread_for_tid_processes_error (k : Kernel) (tid : Int) (l : List Nat) (r : Result)
    (h : thread_for_tid_processes k tid l = .error r) : r = ⟨k.consts.ENOENT⟩ := by
  induction l with
  | nil =>
    simp only [thread_for_tid_processes, Except.error.injEq] at h
    exact h.symm
  | cons x rest ih =>
    simp only [thread_for_tid_processes] at h
    split at h
    · split at h
      · rename_i r1 hr1
        subst h
        exact thread_for_tid_threads_error k x tid _ r hr1
      · exact ih h
    · exact ih h

theorem process_lookup_error (k : Kernel) (l : List Nat) (test : Nat → Bool) (r : Result)
    (h : (match l.find? test with
      | some cur => (Except.ok cur : Except Result Nat)
      | none => .error ⟨-k.consts.ENOENT⟩) = .error r) : r = ⟨-k.consts.ENOENT⟩ := by
  split at h
  · cases h
  · simp only [Except.error.injEq] at h
    exact h.symm

/-- C28: the id 0 is never looked up. process_for_pid(0), process_for_pgid(0, excl),
process_for_ppid(0, excl), process_for_sid(0, excl) and thread_for_tid(0) return the error
Result(-ENOENT) whatever the process table holds and whatever excl is; and every Result that one
of the five lookups returns instead of a process or thread carries the code -ENOENT or ENOENT,
for which is_error() holds (ENOENT being a non-zero errno). -/
theorem lookups_reject_zero (k : Kernel) (hE : k.consts.ENOENT ≠ 0) :
    (∀ excl,
      process_for_pid k 0 = .error ⟨-k.consts.ENOENT⟩ ∧
      process_for_pgid k 0 excl = .error ⟨-k.consts.ENOENT⟩ ∧
      process_for_ppid k 0 excl = .error ⟨-k.consts.ENOENT⟩ ∧
      process_for_sid k 0 excl = .error ⟨-k.consts.ENOENT⟩ ∧
      thread_for_tid k 0 = .error ⟨-k.consts.ENOENT⟩ ∧
      (Result.mk (-k.consts.ENOENT)).is_error = true) ∧
    (∀ id excl r,
      (process_for_pid k id = .error r → r.is_error = true) ∧
      (process_for_pgid k id excl = .error r → r.is_error = true) ∧
      (process_for_ppid k id excl = .error r → r.is_error = true) ∧
      (process_for_sid k id excl = .error r → r.is_error = true) ∧
      (thread_for_tid k id = .error r → r.is_error = true)) := by
  have hneg : (Result.mk (-k.consts.ENOENT)).is_error = true := by
    simp [Result.is_error, hE]
  have hpos : (Result.mk k.consts.ENOENT).is_error = true := by
    simp [Result.is_error, hE]
  refine ⟨fun excl => ⟨rfl, rfl, rfl, rfl, rfl, hneg⟩, fun id excl r => ⟨?_, ?_, ?_, ?_, ?_⟩⟩
  · intro h
    unfold process_for_pid at h
    split at h
    · cases h
      exact hneg
    · rw [process_lookup_error k _ _ r h]
      exact hneg
  · intro h
    unfold process_for_pgid at h
    split at h
    · cases h
      exact hneg
    · rw [process_lookup_error k _ _ r h]
      exact hneg
  · intro h
    unfold process_for_ppid at h
    split at h
    · cases h
      exact hneg
    · rw [process_lookup_error k _ _ r h]
      exact hneg
  · intro h
    unfold process_for_sid at h
    split at h
    · cases h
      exact hneg
    · rw [process_lookup_error k _ _ r h]
      exact hneg
  · intro h
    unfold thread_for_tid at h
    split at h
    · cases h
      exact hneg
    · rw [thread_for_tid_processes_error k id _ r h]
      exact hpos

theorem lookups_reject_zero_witness :
    (sample_kernel.proc 100).pid = 0 ∧ (sample_kernel.proc 100).state = .ALIVE ∧
    process_for_pid sample_kernel 0 = .error ⟨-2⟩ ∧
    process_for_pgid sample_kernel 0 7 = .error ⟨-2⟩ ∧
    process_for_ppid sample_kernel 0 7 = .error ⟨-2⟩ ∧
    process_for_sid sample_kernel 0 7 = .error ⟨-2⟩ ∧
    thread_for_tid sample_kernel 0 = .error ⟨-2⟩ ∧
    (Result.mk (-2)).is_error = true :=
  ⟨rfl, rfl, (lookups_reject_zero sample_kernel (by decide)).1 7⟩

theorem kill_pgid_first (k : Kernel) (pgid sig : Int) (hp : pgid ≠ 0) :
    kill_pgid k pgid sig =
      match k.processes.find? (fun cur => (k.proc cur).pgid == pgid) with
      | some cur => kill k cur sig
      | none => .ok k := by
  have hl : ∀ l : List Nat, kill_pgid_processes pgid sig l k =
      match l.find? (fun cur => (k.proc cur).pgid == pgid) with
      | some cur => kill k cur sig
      | none => .ok k := by
    intro l
    induction l with
    | nil => rfl
    | cons x rest ih =>
      by_cases hx : (k.proc x).pgid = pgid
      · have hf : List.find? (fun cur => (k.proc cur).pgid == pgid) (x :: rest) = some x := by
          simp [List.find?, hx]
        rw [hf]
        simp [kill_pgid_processes, hx]
      · have hf : List.find? (fun cur => (k.proc cur).pgid == pgid) (x :: rest) =
            List.find? (fun cur => (k.proc cur).pgid == pgid) rest := by
          have hb : ((k.proc x).pgid == pgid) = false := by simp [hx]
          simp only [List.find?, hb]
        rw [hf, ← ih]
        simp [kill_pgid_processes, hx]
  simp only [kill_pgid, beq_iff_eq, hp, if_false]
  exact hl k.processes

/-- C27 fails on the code: kill_pgid returns right after the first kill. The processes at 102
and 103 are both in the table and both in the process group 9; kill_pgid(9, 15) is the call
kill(15) on the process at 102 alone: the signal is offered to its thread 5, and to no thread
of the process at 103, whose own kill(15) would have offered it to its threads 7 and 8. -/
theorem kill_pgid_signals_first_process_only :
    sample_kernel_group.processes = [100, 101, 102, 103] ∧
    (sample_kernel_group.proc 102).pgid = 9 ∧ (sample_kernel_group.proc 103).pgid = 9 ∧
    kill_pgid sample_kernel_group 9 15 = kill sample_kernel_group 102 15 ∧
    kill_pgid sample_kernel_group 9 15 =
      .ok { sample_kernel_group with signal_log := [(5, 15)] } ∧
    kill sample_kernel_group 103 15 =
      .ok { sample_kernel_group with signal_log := [(7, 15), (8, 15)] } :=
  ⟨rfl, rfl, rfl, rfl, rfl, rfl⟩

/-! ### kstd::string::find -/

/-- C30 fails on the code: the inner loop of find leaves at the first mismatch and the function
returns the position all the same. In "abac" (97 98 97 99) the needle "ac" (97 99) occurs at
position 2 only; find("ac", 0) returns 0, where the first char of the needle matches and the
second does not. With size_t 32 or 64 bits wide. -/
theorem find_returns_first_char_match :
    string.find 32 ⟨[97, 98, 97, 99, 0], 4⟩ [97, 99, 0] 0 = .ok 0 ∧
    string.find 64 ⟨[97, 98, 97, 99, 0], 4⟩ [97, 99, 0] 0 = .ok 0 ∧
    ([97, 98, 97, 99, 0] : List Nat).get? (0 + 1) = some 98 ∧
    ([97, 99, 0] : List Nat).get? 1 = some 99 ∧
    ([97, 98, 97, 99, 0] : List Nat).get? (2 + 0) = ([97, 99, 0] : List Nat).get? 0 ∧
    ([97, 98, 97, 99, 0] : List Nat).get? (2 + 1) = ([97, 99, 0] : List Nat).get? 1 :=
  ⟨rfl, rfl, rfl, rfl, rfl, rfl⟩

/-! ### The thread set of a process -/

theorem map_lookup_assign (m : List (Int × Nat)) (key : Int) (v : Nat) :
    map_lookup (map_assign m key v) key = some v := by
  have hmap : ∀ l : List (Int × Nat), l.any (fun e => e.1 == key) = true →
      map_lookup (l.map (fun e => if e.1 == key then (key, v) else e)) key = some v := by
    intro l
    induction l with
    | nil => simp
    | cons e rest ih =>
      intro h
      by_cases he : e.1 = key
      · simp [map_lookup, List.find?, he]
      · have hrest : rest.any (fun e => e.1 == key) = true := by
          simpa [List.any_cons, he] using h
        have hb : (e.1 == key) = false := by simp [he]
        have := ih hrest
        simp only [map_lookup, List.map_cons, hb, Bool.false_eq_true, if_false, List.find?]
          at this ⊢
        exact this
  have happ : ∀ l : List (Int × Nat), l.any (fun e => e.1 == key) = false →
      map_lookup (l ++ [(key, v)]) key = some v := by
    intro l
    induction l with
    | nil => simp [map_lookup, List.find?]
    | cons e rest ih =>
      intro h
      have he : (e.1 == key) = false := by
        simp only [List.any_cons, Bool.or_eq_false_iff] at h
        exact h.1
      have hrest : rest.any (fun e => e.1 == key) = false := by
        simp only [List.any_cons, Bool.or_eq_false_iff] at h
        exact h.2
      have := ih hrest
      simp only [map_lookup, List.cons_append, List.find?, he] at this ⊢
      exact this
  unfold map_assign
  split
  · rename_i h
    exact hmap m h
  · rename_i h
    exact happ m (Bool.eq_false_iff.2 h)

theorem thread_set_step_consistent (self : Nat) (k : Kernel) (c : ThreadSetCall)
    (hnodup : (k.proc self).tids.Nodup)
    (hkeys : ∀ t, t ∈ (k.proc self).tids ↔ t ∈ (k.proc self).threads)
    (hfresh : inserts_absent self k [c] = true) :
    ((thread_set_step self k c).proc self).tids.Nodup ∧
    (∀ t, t ∈ ((thread_set_step self k c).proc self).tids ↔
      t ∈ ((thread_set_step self k c).proc self).threads) ∧
    ((thread_set_step self k c).proc self).tids =
      ids_in_insertion_order (k.proc self).tids [c] := by
  cases c with
  | insert_thread x =>
    have hx : x ∉ (k.proc self).tids := by
      simpa [inserts_absent] using hfresh
    have hx2 : x ∉ (k.proc self).threads := fun h => hx ((hkeys x).2 h)
    refine ⟨?_, ?_, ?_⟩
    · simp only [thread_set_step, insert_thread, Kernel.set_proc, if_true]
      exact List.Nodup.append hnodup (List.nodup_singleton x) (by simpa using hx)
    · intro t
      simp only [thread_set_step, insert_thread, Kernel.set_proc, if_true, hx2, if_false,
        List.mem_append, List.mem_singleton, hkeys t]
    · simp [thread_set_step, insert_thread, Kernel.set_proc, ids_in_insertion_order]
  | remove_thread x =>
    have herase : (k.proc self).tids.erase x = (k.proc self).tids.filter (fun y => y != x) :=
      List.Nodup.erase_eq_filter hnodup x
    refine ⟨?_, ?_, ?_⟩
    · simp only [thread_set_step, remove_thread, Kernel.set_proc, if_true]
      exact List.Nodup.erase x hnodup
    · intro t
      simp only [thread_set_step, remove_thread, Kernel.set_proc, if_true, herase,
        List.mem_filter, hkeys t]
    · simp [thread_set_step, remove_thread, Kernel.set_proc, ids_in_insertion_order, herase]

theorem thread_set_run_consistent (self : Nat) (cs : List ThreadSetCall) :
    ∀ k : Kernel, (k.proc self).tids.Nodup →
      (∀ t, t ∈ (k.proc self).tids ↔ t ∈ (k.proc self).threads) →
      inserts_absent self k cs = true →
      ((thread_set_run self k cs).proc self).tids.Nodup ∧
      (∀ t, t ∈ ((thread_set_run self k cs).proc self).tids ↔
        t ∈ ((thread_set_run self k cs).proc self).threads) ∧
      ((thread_set_run self k cs).proc self).tids =
        ids_in_insertion_order (k.proc self).tids cs := by
  induction cs with
  | nil =>
    intro k h1 h2 _
    exact ⟨h1, h2, rfl⟩
  | cons c cs ih =>
    intro k h1 h2 h3
    simp only [inserts_absent, Bool.and_eq_true] at h3
    obtain ⟨s1, s2, s3⟩ := thread_set_step_consistent self k c h1 h2
      (by simp only [inserts_absent, Bool.and_true]; exact h3.1)
    obtain ⟨r1, r2, r3⟩ := ih (thread_set_step self k c) s1 s2 h3.2
    refine ⟨r1, r2, ?_⟩
    show ((thread_set_run self (thread_set_step self k c) cs).proc self).tids = _
    rw [r3, s3]
    cases c <;> rfl

/-- C29 as stated fails: insert_thread does not look whether the tid is already there. Two
insert_thread(6) calls on the process at 102 (thread set 5) leave 6 twice in _tids and once in
the map; a remove_thread(6) then takes the key out of the map and only the first 6 out of
_tids, after which _tids holds an id for which get_thread returns no thread. -/
theorem insert_thread_twice_duplicates_tid :
    ((thread_set_run 102 sample_kernel [.insert_thread 6, .insert_thread 6]).proc 102).tids =
      [5, 6, 6] ∧
    ((thread_set_run 102 sample_kernel [.insert_thread 6, .insert_thread 6]).proc 102).threads =
      [5, 6] ∧
    ((thread_set_run 102 sample_kernel
      [.insert_thread 6, .insert_thread 6, .remove_thread 6]).proc 102).tids = [5, 6] ∧
    get_thread (thread_set_run 102 sample_kernel
      [.insert_thread 6, .insert_thread 6, .remove_thread 6]) 102 6 = none :=
  ⟨rfl, rfl, rfl, rfl⟩

/-- C29, amended: thread-set consistency. For a process whose _tids holds exactly the keys of
the _threads map, each once, and every sequence of insert_thread / remove_thread calls on it in
which no insert_thread is passed a tid that _tids holds at the time of the call: afterwards
_tids holds exactly the keys of the map, each once, in insertion order (an insert puts its tid
last, a remove takes its tid out and keeps the order of the others), and get_thread(tid)
returns a thread if and only if tid is in _tids. A further remove_thread(t) takes t out of both
_tids and the map, keeps the relative order of the remaining ids and records the return value
of t under its tid. -/
theorem thread_set_consistent (k : Kernel) (self : Nat) (cs : List ThreadSetCall)
    (hnodup : (k.proc self).tids.Nodup)
    (hkeys : ∀ t, t ∈ (k.proc self).tids ↔ t ∈ (k.proc self).threads)
    (hfresh : inserts_absent self k cs = true) :
    ((thread_set_run self k cs).proc self).tids.Nodup ∧
    (∀ t, t ∈ ((thread_set_run self k cs).proc self).tids ↔
      t ∈ ((thread_set_run self k cs).proc self).threads) ∧
    ((thread_set_run self k cs).proc self).tids =
      ids_in_insertion_order (k.proc self).tids cs ∧
    (∀ tid, get_thread (thread_set_run self k cs) self tid ≠ none ↔
      tid ∈ ((thread_set_run self k cs).proc self).tids) ∧
    (∀ t,
      t ∉ ((remove_thread (thread_set_run self k cs) self t).proc self).tids ∧
      t ∉ ((remove_thread (thread_set_run self k cs) self t).proc self).threads ∧
      ((remove_thread (thread_set_run self k cs) self t).proc self).tids =
        ((thread_set_run self k cs).proc self).tids.filter (fun x => x != t) ∧
      (∀ x, x ≠ t →
        (x ∈ ((remove_thread (thread_set_run self k cs) self t).proc self).threads ↔
          x ∈ ((thread_set_run self k cs).proc self).threads)) ∧
      map_lookup ((remove_thread (thread_set_run self k cs) self t).proc self).thread_return_values
        t = some ((thread_set_run self k cs).thread t).return_value) := by
  obtain ⟨r1, r2, r3⟩ := thread_set_run_consistent self cs k hnodup hkeys hfresh
  refine ⟨r1, r2, r3, fun tid => ?_, fun t => ?_⟩
  · unfold get_thread
    rw [r2 tid]
    split <;> simp [*]
  · have herase : ((thread_set_run self k cs).proc self).tids.erase t =
        ((thread_set_run self k cs).proc self).tids.filter (fun y => y != t) :=
      List.Nodup.erase_eq_filter r1 t
    refine ⟨?_, ?_, ?_, fun x hx => ?_, ?_⟩
    · simp [remove_thread, Kernel.set_proc, herase]
    · simp [remove_thread, Kernel.set_proc]
    · simp [remove_thread, Kernel.set_proc, herase]
    · simp [remove_thread, Kernel.set_proc, hx]
    · simp only [remove_thread, Kernel.set_proc, if_true]
      exact map_lookup_assign _ _ _

theorem thread_set_consistent_witness :
    ((thread_set_run 102 sample_kernel
      [.insert_thread 6, .insert_thread 7, .remove_thread 5, .insert_thread 5]).proc 102).tids =
        ids_in_insertion_order [5]
          [.insert_thread 6, .insert_thread 7, .remove_thread 5, .insert_thread 5] ∧
    ids_in_insertion_order [5]
      [.insert_thread 6, .insert_thread 7, .remove_thread 5, .insert_thread 5] = [6, 7, 5] ∧
    ((thread_set_run 102 sample_kernel
      [.insert_thread 6, .insert_thread 7, .remove_thread 5, .insert_thread 5]).proc 102).tids.Nodup :=
  ⟨(thread_set_consistent sample_kernel 102
      [.insert_thread 6, .insert_thread 7, .remove_thread 5, .insert_thread 5]
      (by decide) (fun _ => Iff.rfl) (by decide)).2.2.1,
    rfl,
    (thread_set_consistent sample_kernel 102
      [.insert_thread 6, .insert_thread 7, .remove_thread 5, .insert_thread 5]
      (by decide) (fun _ => Iff.rfl) (by decide)).1⟩

/-! ### alert_thread_died -/

theorem foldl_reparent_proc (dead : Nat) : ∀ (l : List Nat) (k : Kernel) (q : Nat),
    ((l.foldl
      (fun k1 process =>
        if (k1.proc process).ppid == (k1.proc dead).pid then
          k1.set_proc process { k1.proc process with ppid := 1 }
        else k1) k).proc q) =
      if q ∈ l ∧ (k.proc q).ppid = (k.proc dead).pid then { k.proc q with ppid := 1 }
      else k.proc q := by
  intro l
  induction l with
  | nil =>
    intro k q
    simp
  | cons x rest ih =>
    intro k q
    simp only [List.foldl_cons]
    by_cases hx : (k.proc x).ppid = (k.proc dead).pid
    · have hb : ((k.proc x).ppid == (k.proc dead).pid) = true := by simp [hx]
      simp only [hb, if_true]
      rw [ih]
      have hpid : ((k.set_proc x { k.proc x with ppid := 1 }).proc dead).pid =
          (k.proc dead).pid := by
        simp only [Kernel.set_proc]
        split
        · rename_i hd
          rw [hd]
        · rfl
      rw [hpid]
      by_cases hq : q = x
      · subst hq
        simp only [Kernel.set_proc, if_true, List.mem_cons, true_or, hx, and_self]
        split <;> rfl
      · simp only [Kernel.set_proc, hq, if_false, List.mem_cons, false_or]
    · have hb : ((k.proc x).ppid == (k.proc dead).pid) = false := by simp [hx]
      simp only [hb, Bool.false_eq_true, if_false]
      rw [ih]
      by_cases hq : q = x
      · subst hq
        simp [hx]
      · simp only [hq, List.mem_cons, false_or]

theorem reparent_orphans_proc (k : Kernel) (dead q : Nat) :
    (reparent_orphans k dead).proc q =
      if q ∈ k.processes ∧ (k.proc q).ppid = (k.proc dead).pid then { k.proc q with ppid := 1 }
      else k.proc q :=
  foldl_reparent_proc dead k.processes k q

theorem process_for_pid_remove_thread (k : Kernel) (self : Nat) (t : Int) (pid : Int) :
    process_for_pid (remove_thread k self t) pid = process_for_pid k pid := by
  have hf : (fun cur => ((remove_thread k self t).proc cur).pid == pid &&
      ((remove_thread k self t).proc cur).state != .DEAD) =
      (fun cur => (k.proc cur).pid == pid && (k.proc cur).state != .DEAD) := by
    funext cur
    simp only [remove_thread, Kernel.set_proc]
    split
    · rename_i hc
      rw [hc]
    · rfl
  unfold process_for_pid
  rw [hf]
  rfl

/-! ### The unblock pass of preempt -/

theorem unblock_explicit (k : Kernel) (t : Int) :
    Thread.unblock k t =
      .ok { k with
            thread := fun a => if a = t then { k.thread t with state := .ALIVE } else k.thread a
            unblock_log := k.unblock_log ++ [t]
            g_next_thread :=
              k.g_next_thread ++ (if t = (k.proc k.kernel_process).pid then [] else [t])
            interrupts_enabled :=
              if t = (k.proc k.kernel_process).pid then k.interrupts_enabled
              else k.g_critical_count == 0 } := by
  unfold Thread.unblock
  by_cases hidle : t = (k.proc k.kernel_process).pid
  · have hq := queue_thread_guards
      (({ k with unblock_log := k.unblock_log ++ [t] } : Kernel).set_thread t
        { k.thread t with state := .ALIVE }) (some t) (Or.inr ⟨t, rfl, Or.inl hidle⟩)
    rw [hq]
    simp [hidle, Kernel.set_thread]
  · have hq := queue_thread_accepts
      (({ k with unblock_log := k.unblock_log ++ [t] } : Kernel).set_thread t
        { k.thread t with state := .ALIVE }) t hidle (by simp [Kernel.set_thread])
    rw [hq]
    simp [hidle, Kernel.set_thread]

theorem unblock_threads_loop (p : Nat) : ∀ (l : List Int) (k : Kernel),
    ∃ k1 woken, unblock_threads p l k = .ok k1 ∧
      k1 = { k with
             thread := k1.thread
             unblock_log := k1.unblock_log
             g_next_thread := k1.g_next_thread
             interrupts_enabled := k1.interrupts_enabled } ∧
      k1.unblock_log = k.unblock_log ++ woken ∧
      k1.g_next_thread = k.g_next_thread ++
        woken.filter (fun tid => decide (tid ≠ (k.proc k.kernel_process).pid)) ∧
      (∀ a, k1.thread a = if a ∈ woken then { k.thread a with state := .ALIVE } else k.thread a) ∧
      woken.Nodup ∧
      (∀ tid, tid ∈ woken ↔
        tid ∈ l ∧ tid ∈ (k.proc p).threads ∧ (k.thread tid).state = .BLOCKED ∧
          (k.thread tid).should_unblock = true) := by
  intro l
  induction l with
  | nil =>
    intro k
    exact ⟨k, [], rfl, rfl, by simp, by simp, by simp, List.nodup_nil, by simp⟩
  | cons t rest ih =>
    intro k
    by_cases hmem : t ∈ (k.proc p).threads
    · by_cases hb : (k.thread t).state = .BLOCKED ∧ (k.thread t).should_unblock = true
      · have hstep : unblock_if_ready p k t = Thread.unblock k t := by
          simp [unblock_if_ready, get_thread, hmem, hb.1, hb.2]
        obtain ⟨k2, woken, f1, f2, f3, f4, f5, f6, f7⟩ := ih
          { k with
            thread := fun a => if a = t then { k.thread t with state := .ALIVE } else k.thread a
            unblock_log := k.unblock_log ++ [t]
            g_next_thread :=
              k.g_next_thread ++ (if t = (k.proc k.kernel_process).pid then [] else [t])
            interrupts_enabled :=
              if t = (k.proc k.kernel_process).pid then k.interrupts_enabled
              else k.g_critical_count == 0 }
        have hnot : t ∉ woken := by
          intro hin
          have h3 := ((f7 t).1 hin).2.2.1
          simp at h3
        refine ⟨k2, t :: woken, ?_, ?_, ?_, ?_, ?_, List.nodup_cons.2 ⟨hnot, f6⟩, ?_⟩
        · simp only [unblock_threads, hstep, unblock_explicit]
          exact f1
        · rw [f2]
        · rw [f3]
          simp
        · rw [f4]
          by_cases hidle : t = (k.proc k.kernel_process).pid
          · simp [hidle]
          · simp [hidle]
        · intro a
          rw [f5 a]
          by_cases hat : a = t
          · subst hat
            simp [hnot]
          · simp [hat]
        · intro tid
          rw [List.mem_cons, f7 tid]
          by_cases htid : tid = t
          · subst htid
            simp [hmem, hb.1, hb.2]
          · simp [htid]
      · have hstep : unblock_if_ready p k t = .ok k := by
          simp only [unblock_if_ready, get_thread, hmem, if_true]
          rw [if_neg]
          simpa using hb
        obtain ⟨k2, woken, f1, f2, f3, f4, f5, f6, f7⟩ := ih k
        refine ⟨k2, woken, ?_, f2, f3, f4, f5, f6, ?_⟩
        · simp only [unblock_threads, hstep]
          exact f1
        · intro tid
          rw [f7 tid, List.mem_cons]
          by_cases htid : tid = t
          · subst htid
            constructor
            · rintro ⟨-, -, h1, h2⟩
              exact absurd ⟨h1, h2⟩ hb
            · rintro ⟨-, -, h1, h2⟩
              exact absurd ⟨h1, h2⟩ hb
          · simp [htid]
    · have hstep : unblock_if_ready p k t = .ok k := by
        simp [unblock_if_ready, get_thread, hmem]
      obtain ⟨k2, woken, f1, f2, f3, f4, f5, f6, f7⟩ := ih k
      refine ⟨k2, woken, ?_, f2, f3, f4, f5, f6, ?_⟩
      · simp only [unblock_threads, hstep]
        exact f1
      · intro tid
        rw [f7 tid, List.mem_cons]
        by_cases htid : tid = t
        · subst htid
          simp [hmem]
        · simp [htid]

theorem unblock_processes_loop : ∀ (l : List Nat) (k : Kernel),
    ∃ k1 woken, unblock_processes l k = .ok k1 ∧
      k1 = { k with
             thread := k1.thread
             unblock_log := k1.unblock_log
             g_next_thread := k1.g_next_thread
             interrupts_enabled := k1.interrupts_enabled } ∧
      k1.unblock_log = k.unblock_log ++ woken ∧
      k1.g_next_thread = k.g_next_thread ++
        woken.filter (fun tid => decide (tid ≠ (k.proc k.kernel_process).pid)) ∧
      (∀ a, k1.thread a = if a ∈ woken then { k.thread a with state := .ALIVE } else k.thread a) ∧
      woken.Nodup ∧
      (∀ tid, tid ∈ woken ↔
        (∃ p ∈ l, ((k.proc p).state = .ALIVE ∨ (k.proc p).state = .STOPPED) ∧
          tid ∈ (k.proc p).tids ∧ tid ∈ (k.proc p).threads) ∧
        (k.thread tid).state = .BLOCKED ∧ (k.thread tid).should_unblock = true) := by
  intro l
  induction l with
  | nil =>
    intro k
    exact ⟨k, [], rfl, rfl, by simp, by simp, by simp, List.nodup_nil, by simp⟩
  | cons x rest ih =>
    intro k
    by_cases hst : (k.proc x).state = .ALIVE ∨ (k.proc x).state = .STOPPED
    · have hcond : ((k.proc x).state != .ALIVE && (k.proc x).state != .STOPPED) = false := by
        rcases hst with h | h <;> simp [h]
      obtain ⟨k1, w1, g1, g2, g3, g4, g5, g6, g7⟩ := unblock_threads_loop x (k.proc x).tids k
      obtain ⟨k2, w2, f1, f2, f3, f4, f5, f6, f7⟩ := ih k1
      have hproc : k1.proc = k.proc := by rw [g2]
      have hkp : k1.kernel_process = k.kernel_process := by rw [g2]
      have hdisj : ∀ a, a ∈ w1 → a ∉ w2 := by
        intro a h1 h2
        have h3 := ((f7 a).1 h2).2.1
        rw [g5 a, if_pos h1] at h3
        simp at h3
      refine ⟨k2, w1 ++ w2, ?_, ?_, ?_, ?_, ?_, ?_, ?_⟩
      · simp only [unblock_processes, hcond, Bool.false_eq_true, if_false, g1]
        exact f1
      · rw [g2] at f2
        exact f2
      · rw [f3, g3, List.append_assoc]
      · rw [f4, g4, hproc, hkp, List.filter_append, List.append_assoc]
      · intro a
        rw [f5 a, g5 a]
        by_cases h2 : a ∈ w2
        · have h1 : a ∉ w1 := fun h => hdisj a h h2
          simp [h1, h2]
        · by_cases h1 : a ∈ w1
          · simp [h1, h2]
          · simp [h1, h2]
      · exact List.Nodup.append g6 f6 (fun a h1 h2 => hdisj a h1 h2)
      · intro tid
        rw [List.mem_append, g7 tid, f7 tid, hproc]
        constructor
        · rintro (⟨h1, h2, h3, h4⟩ | ⟨⟨p, hp, h1, h2, h3⟩, h4, h5⟩)
          · exact ⟨⟨x, List.mem_cons_self _ _, hst, h1, h2⟩, h3, h4⟩
          · have hw : tid ∉ w1 := by
              intro h
              rw [g5 tid, if_pos h] at h4
              simp at h4
            rw [g5 tid, if_neg hw] at h4 h5
            exact ⟨⟨p, List.mem_cons_of_mem _ hp, h1, h2, h3⟩, h4, h5⟩
        · rintro ⟨⟨p, hp, h1, h2, h3⟩, h4, h5⟩
          by_cases hw : tid ∈ w1
          · exact Or.inl ((g7 tid).1 hw)
          · rcases List.mem_cons.1 hp with hp | hp
            · subst hp
              exact Or.inl ⟨h2, h3, h4, h5⟩
            · refine Or.inr ⟨⟨p, hp, h1, h2, h3⟩, ?_, ?_⟩
              · rw [g5 tid, if_neg hw]
                exact h4
              · rw [g5 tid, if_neg hw]
                exact h5
    · have hcond : ((k.proc x).state != .ALIVE && (k.proc x).state != .STOPPED) = true := by
        simp only [not_or] at hst
        simp [hst.1, hst.2]
      obtain ⟨k2, w2, f1, f2, f3, f4, f5, f6, f7⟩ := ih k
      refine ⟨k2, w2, ?_, f2, f3, f4, f5, f6, ?_⟩
      · simp only [unblock_processes, hcond, if_true]
        exact f1
      · intro tid
        rw [f7 tid]
        constructor
        · rintro ⟨⟨p, hp, h1⟩, h4⟩
          exact ⟨⟨p, List.mem_cons_of_mem _ hp, h1⟩, h4⟩
        · rintro ⟨⟨p, hp, h1, h2⟩, h4⟩
          rcases List.mem_cons.1 hp with hp | hp
          · subst hp
            exact absurd h1 hst
          · exact ⟨⟨p, hp, h1, h2⟩, h4⟩

theorem release_normal (k : Kernel) (m : Mutex)
    (hen : k.tasking_enabled = true) (hp : k.g_panicking = false) :
    Mutex.release k m =
      .ok ({ k with interrupts_enabled := k.g_critical_count == 0 },
        if m.times_locked = 1 then { holding_thread := -1, times_locked := 0 }
        else { m with times_locked := m.times_locked - 1 }) := by
  by_cases h1 : m.times_locked = 1 <;> by_cases hc : k.g_critical_count = 0 <;>
    simp [Mutex.release, hen, hp, enter_critical, leave_critical, h1, hc]

theorem try_acquire_held_by_caller (k : Kernel) (m : Mutex) (B : Int)
    (hen : k.tasking_enabled = true) (hp : k.g_panicking = false)
    (hcur : k.cur_thread = some B) (hm : m.holding_thread = B) :
    Mutex.try_acquire k m =
      .ok (.returned true, k, { holding_thread := B, times_locked := m.times_locked + 1 }) := by
  by_cases hB : B = -1
  · simp [Mutex.try_acquire, Mutex.acquire_with_mode, hen, hp, hcur, hm, hB]
  · simp [Mutex.try_acquire, Mutex.acquire_with_mode, hen, hp, hcur, hm, hB]

theorem unblock_pass_with_lock (k : Kernel) (cur : Int) (n : Int)
    (hen : k.tasking_enabled = true) (hp : k.g_panicking = false)
    (htry : Mutex.try_acquire k k.g_process_lock =
      .ok (.returned true, k, { holding_thread := cur, times_locked := n + 1 }))
    (hback : (if n + 1 = 1 then ({ holding_thread := -1, times_locked := 0 } : Mutex)
      else { holding_thread := cur, times_locked := n + 1 - 1 }) = k.g_process_lock) :
    ∃ k1 woken, unblock_pass k = .ok k1 ∧
      k1 = { k with
             thread := k1.thread
             unblock_log := k1.unblock_log
             g_next_thread := k1.g_next_thread
             interrupts_enabled := k1.interrupts_enabled } ∧
      k1.unblock_log = k.unblock_log ++ woken ∧
      k1.g_next_thread = k.g_next_thread ++
        woken.filter (fun tid => decide (tid ≠ (k.proc k.kernel_process).pid)) ∧
      (∀ a, k1.thread a = if a ∈ woken then { k.thread a with state := .ALIVE } else k.thread a) ∧
      woken.Nodup ∧
      (∀ tid, tid ∈ woken ↔
        (∃ p ∈ k.processes, ((k.proc p).state = .ALIVE ∨ (k.proc p).state = .STOPPED) ∧
          tid ∈ (k.proc p).tids ∧ tid ∈ (k.proc p).threads) ∧
        (k.thread tid).state = .BLOCKED ∧ (k.thread tid).should_unblock = true) := by
  obtain ⟨k3, woken, f1, f2, f3, f4, f5, f6, f7⟩ := unblock_processes_loop k.processes
    { k with g_process_lock := { holding_thread := cur, times_locked := n + 1 } }
  have hen3 : k3.tasking_enabled = true := by rw [f2]; exact hen
  have hp3 : k3.g_panicking = false := by rw [f2]; exact hp
  have hl3 : k3.g_process_lock = { holding_thread := cur, times_locked := n + 1 } := by rw [f2]
  have hrel := release_normal k3 k3.g_process_lock hen3 hp3
  rw [hl3] at hrel
  refine ⟨{ k3 with
      interrupts_enabled := k3.g_critical_count == 0
      g_process_lock := k.g_process_lock }, woken, ?_, ?_, f3, f4, f5, f6, f7⟩
  · unfold unblock_pass
    rw [htry]
    simp only [if_true]
    rw [f1]
    simp only []
    rw [hl3, hrel]
    simp only [hback]
  · rw [f2]

/-- C24: the unblock pass of preempt(), made with tasking enabled, no panic in progress and a
current thread. If the process-table lock can be acquired without blocking (it is unheld, or
held by the current thread), unblock() is called, once each, on exactly the threads that are
listed in the thread set of a process of the table in state Alive or Stopped, are in state
Blocked and have should_unblock() true; each of them is made Alive and, unless it is the idle
thread, appended to the run queue; every other thread - those of Zombie or Dead processes
included - is as before, and the process-table lock is back in the state it was in. If the lock
is held by another thread the pass returns with the whole kernel state as it found it. -/
theorem unblock_pass_unblocks_ready (k : Kernel) (cur : Int)
    (hen : k.tasking_enabled = true) (hp : k.g_panicking = false)
    (hcur : k.cur_thread = some cur) :
    (((k.g_process_lock.holding_thread = -1 ∧ k.g_process_lock.times_locked = 0) ∨
      (k.g_process_lock.holding_thread = cur ∧ 1 ≤ k.g_process_lock.times_locked)) →
      ∃ k1 woken, unblock_pass k = .ok k1 ∧
        k1.g_process_lock = k.g_process_lock ∧ k1.proc = k.proc ∧
        k1.unblock_log = k.unblock_log ++ woken ∧ woken.Nodup ∧
        (∀ tid, tid ∈ woken ↔
          (∃ p ∈ k.processes, ((k.proc p).state = .ALIVE ∨ (k.proc p).state = .STOPPED) ∧
            tid ∈ (k.proc p).tids ∧ tid ∈ (k.proc p).threads) ∧
          (k.thread tid).state = .BLOCKED ∧ (k.thread tid).should_unblock = true) ∧
        (∀ a, k1.thread a =
          if a ∈ woken then { k.thread a with state := .ALIVE } else k.thread a) ∧
        k1.g_next_thread = k.g_next_thread ++
          woken.filter (fun tid => decide (tid ≠ (k.proc k.kernel_process).pid))) ∧
    (k.g_process_lock.holding_thread ≠ -1 → k.g_process_lock.holding_thread ≠ cur →
      unblock_pass k = .ok k) := by
  constructor
  · intro hlock
    have hpass : ∃ n : Int,
        Mutex.try_acquire k k.g_process_lock =
          .ok (.returned true, k, { holding_thread := cur, times_locked := n + 1 }) ∧
        (if n + 1 = 1 then ({ holding_thread := -1, times_locked := 0 } : Mutex)
          else { holding_thread := cur, times_locked := n + 1 - 1 }) = k.g_process_lock := by
      rcases hlock with ⟨h1, h2⟩ | ⟨h1, h2⟩
      · refine ⟨k.g_process_lock.times_locked, try_acquire_unheld k _ cur hen hp hcur h1, ?_⟩
        rw [h2]
        simp only [zero_add, if_true]
        cases hm : k.g_process_lock with
        | mk a b =>
          rw [hm] at h1 h2
          simp only at h1 h2
          rw [h1, h2]
      · refine ⟨k.g_process_lock.times_locked,
          try_acquire_held_by_caller k _ cur hen hp hcur h1, ?_⟩
        have hne : ¬ (k.g_process_lock.times_locked + 1 = 1) := by omega
        rw [if_neg hne]
        cases hm : k.g_process_lock with
        | mk a b =>
          rw [hm] at h1
          simp only at h1
          simp [h1]
    obtain ⟨n, htry, hback⟩ := hpass
    obtain ⟨k1, woken, f1, f2, f3, f4, f5, f6, f7⟩ :=
      unblock_pass_with_lock k cur n hen hp htry hback
    exact ⟨k1, woken, f1, by rw [f2], by rw [f2], f3, f6, f7, f5, f4⟩
  · intro h1 h2
    unfold unblock_pass
    rw [try_acquire_other_holder k _ cur hen hp hcur h1 h2]
    simp

/-! ### The switch of preempt -/

theorem pick_next_thread_frame (k : Kernel) (t : Int) (k1 : Kernel)
    (h : pick_next_thread k = .ok (t, k1)) :
    k1 = { k with g_next_thread := k1.g_next_thread } := by
  unfold pick_next_thread at h
  split at h
  · cases h
  · simp only [] at h
    split at h
    · split at h
      · cases h
      · split at h
        · cases h
          rfl
        · split at h
          · cases h
          · split at h
            · cases h
            · cases h
              rfl
    · cases h
      rfl

theorem preempt_finish_normal (k : Kernel) (cur : Int)
    (hen : k.tasking_enabled = true) (hp : k.g_panicking = false)
    (hcur : k.cur_thread = some cur) (hl : k.g_tasking_lock.times_locked = 1)
    (hc : 0 < k.g_critical_count) :
    preempt_finish k =
      .ok { k with
            g_tasking_lock := { holding_thread := -1, times_locked := 0 }
            g_critical_count := k.g_critical_count - 1
            interrupts_enabled := k.g_critical_count == 1 } := by
  have hrel := release_normal k k.g_tasking_lock hen hp
  rw [if_pos hl] at hrel
  have hne : k.g_critical_count ≠ 0 := by omega
  unfold preempt_finish
  simp only [hl, bne_self_eq_false, Bool.false_eq_true, if_false, hrel]
  by_cases h1 : k.g_critical_count = 1
  · simp [leave_critical, hc, hcur, h1, Thread.leave_critical, Thread.enter_critical,
      DuckOS.enter_critical]
  · have h2 : 0 < k.g_critical_count - 1 := by omega
    have h3 : k.g_critical_count - 1 + 1 = k.g_critical_count := by omega
    simp [leave_critical, hc, hcur, h1, hne, Thread.leave_critical, Thread.enter_critical,
      DuckOS.enter_critical, h2, h3]

theorem preempt_switch_unfold (ks k1 : Kernel) (old next : Int)
    (hpick : pick_next_thread ks = .ok (next, k1)) (hcur : ks.cur_thread = some old) :
    preempt_switch ks =
      (let k3 := start_signal (finish_signal k1 old) next
       let sp :=
        if ((finish_signal k1 old).thread next).ready_to_handle_signal then true
        else if (k1.thread old).just_finished_signal then true else (some old != some next)
       let k4 :=
        if (k3.thread next).in_signal_handler then
          { k3 with tss_esp0 := StackTop.signal_stack_top next }
        else
          { k3 with tss_esp0 := StackTop.kernel_stack_top next }
       let k5 :=
        if sp then
          k4.set_proc (k4.thread next).process
            { k4.proc (k4.thread next).process with last_active_thread := next }
        else k4
       let k6 := { k5 with preempting := false }
       if !(k6.thread next).can_be_run then
        .error "INVALID_CONTEXT_SWITCH: Tried to switch to a thread that cannot be run"
       else if sp then
        match
          (if old != (k6.proc k6.kernel_process).pid && (k6.thread old).can_be_run then
            queue_thread k6 (some old)
          else .ok k6) with
        | .error e => .error e
        | .ok k7 =>
          preempt_finish
            { k7 with
              cur_thread := some next
              switch_log := k7.switch_log ++ [(old_esp k1 old, new_esp k3 next)] }
       else preempt_finish k6) := by
  unfold preempt_switch
  rw [hpick, hcur]
  rfl

theorem signal_stages_frame (k : Kernel) (old next : Int) :
    start_signal (finish_signal k old) next =
      { k with thread := (start_signal (finish_signal k old) next).thread } ∧
    ∀ a, ((start_signal (finish_signal k old) next).thread a).can_be_run =
        (k.thread a).can_be_run ∧
      ((start_signal (finish_signal k old) next).thread a).state = (k.thread a).state ∧
      ((start_signal (finish_signal k old) next).thread a).process = (k.thread a).process := by
  have h1 : finish_signal k old = { k with thread := (finish_signal k old).thread } ∧
      ∀ a, ((finish_signal k old).thread a).can_be_run = (k.thread a).can_be_run ∧
        ((finish_signal k old).thread a).state = (k.thread a).state ∧
        ((finish_signal k old).thread a).process = (k.thread a).process := by
    unfold finish_signal
    split
    · refine ⟨rfl, fun a => ?_⟩
      simp only [Kernel.set_thread]
      split
      · rename_i ha
        rw [ha]
        exact ⟨rfl, rfl, rfl⟩
      · exact ⟨rfl, rfl, rfl⟩
    · exact ⟨rfl, fun a => ⟨rfl, rfl, rfl⟩⟩
  have h2 : ∀ k2 : Kernel, start_signal k2 next =
      { k2 with thread := (start_signal k2 next).thread } ∧
      ∀ a, ((start_signal k2 next).thread a).can_be_run = (k2.thread a).can_be_run ∧
        ((start_signal k2 next).thread a).state = (k2.thread a).state ∧
        ((start_signal k2 next).thread a).process = (k2.thread a).process := by
    intro k2
    unfold start_signal
    split
    · refine ⟨rfl, fun a => ?_⟩
      simp only [Kernel.set_thread]
      split
      · rename_i ha
        rw [ha]
        exact ⟨rfl, rfl, rfl⟩
      · exact ⟨rfl, rfl, rfl⟩
    · exact ⟨rfl, fun a => ⟨rfl, rfl, rfl⟩⟩
  obtain ⟨a1, a2⟩ := h1
  obtain ⟨b1, b2⟩ := h2 (finish_signal k old)
  refine ⟨b1.trans ?_, fun a => ?_⟩
  · generalize (start_signal (finish_signal k old) next).thread = T
    rw [a1]
  · obtain ⟨c1, c2, c3⟩ := b2 a
    obtain ⟨d1, d2, d3⟩ := a2 a
    exact ⟨c1.trans d1, c2.trans d2, c3.trans d3⟩

theorem should_preempt_eq (k : Kernel) (old next : Int) :
    (if ((finish_signal k old).thread next).ready_to_handle_signal then true
      else if (k.thread old).just_finished_signal then true else (some old != some next)) =
      should_preempt k old next := by
  have hsome : (some old != some next) = (old != next) := by
    by_cases hon : old = next
    · subst hon
      simp
    · have hne : (some old : Option Int) ≠ some next := fun e => hon (Option.some.inj e)
      rw [bne_iff_ne.2 hne, bne_iff_ne.2 hon]
  unfold should_preempt
  rw [hsome]
  cases ((finish_signal k old).thread next).ready_to_handle_signal <;>
    cases (k.thread old).just_finished_signal <;> simp

theorem stack_top_eq (k3 : Kernel) (next : Int) :
    (if (k3.thread next).in_signal_handler then
        { k3 with tss_esp0 := StackTop.signal_stack_top next }
      else { k3 with tss_esp0 := StackTop.kernel_stack_top next }) =
      { k3 with tss_esp0 := new_stack_top k3 next } := by
  unfold new_stack_top
  split <;> rfl

theorem preempt_switch_normal (ks k1 : Kernel) (old next : Int)
    (hpick : pick_next_thread ks = .ok (next, k1)) (hcur : ks.cur_thread = some old)
    (hrun : (ks.thread next).can_be_run = true)
    (hen : ks.tasking_enabled = true) (hp : ks.g_panicking = false)
    (hl : ks.g_tasking_lock.times_locked = 1) (hc : 0 < ks.g_critical_count) :
    preempt_switch ks =
      .ok { start_signal (finish_signal k1 old) next with
            tss_esp0 := new_stack_top (start_signal (finish_signal k1 old) next) next
            proc :=
              if should_preempt k1 old next then
                fun a =>
                  if a = (ks.thread next).process then
                    { ks.proc (ks.thread next).process with last_active_thread := next }
                  else ks.proc a
              else ks.proc
            preempting := false
            g_next_thread :=
              k1.g_next_thread ++
                (if should_preempt k1 old next = true ∧ old ≠ (ks.proc ks.kernel_process).pid ∧
                    (ks.thread old).can_be_run = true ∧ (ks.thread old).state = .ALIVE then [old]
                  else [])
            cur_thread := if should_preempt k1 old next then some next else some old
            switch_log :=
              ks.switch_log ++
                (if should_preempt k1 old next then
                  [(old_esp k1 old, new_esp (start_signal (finish_signal k1 old) next) next)]
                else [])
            g_tasking_lock := { holding_thread := -1, times_locked := 0 }
            g_critical_count := ks.g_critical_count - 1
            interrupts_enabled := ks.g_critical_count == 1 } := by
  have hk1 := pick_next_thread_frame ks next k1 hpick
  rw [preempt_switch_unfold ks k1 old next hpick hcur]
  simp only [should_preempt_eq, stack_top_eq]
  obtain ⟨e1, e2⟩ := signal_stages_frame k1 old next
  generalize should_preempt k1 old next = sp
  generalize old_esp k1 old = oe
  generalize start_signal (finish_signal k1 old) next = K3 at e1 e2 ⊢
  generalize new_esp K3 next = ne
  generalize new_stack_top K3 next = ns
  generalize K3.thread = T at e1 e2
  subst e1
  generalize k1.g_next_thread = q at hk1
  subst hk1
  have hTn : (T next).can_be_run = true := (e2 next).1.trans hrun
  have hTo : (T old).can_be_run = (ks.thread old).can_be_run := (e2 old).1
  have hSo : (T old).state = (ks.thread old).state := (e2 old).2.1
  have hPn : (T next).process = (ks.thread next).process := (e2 next).2.2
  clear e2
  cases sp with
  | false =>
    simp only [Bool.false_eq_true, if_false, hTn, Bool.not_true, false_and]
    refine (preempt_finish_normal
      { ks with thread := T, g_next_thread := q, preempting := false, tss_esp0 := ns }
      old hen hp hcur hl hc).trans ?_
    simp [hcur]
  | true =>
    have hpid : (if ks.kernel_process = (ks.thread next).process then
        ({ ks.proc (ks.thread next).process with last_active_thread := next } : Process)
        else ks.proc ks.kernel_process).pid = (ks.proc ks.kernel_process).pid := by
      split
      · rename_i h
        rw [h]
      · rfl
    simp only [if_true, hTn, Bool.not_true, Bool.false_eq_true, if_false, Kernel.set_proc, hPn,
      true_and, hpid, hTo]
    generalize hPRdef : (fun a => if a = (ks.thread next).process then
        ({ ks.proc (ks.thread next).process with last_active_thread := next } : Process)
        else ks.proc a) = PR
    have hPR : (PR ks.kernel_process).pid = (ks.proc ks.kernel_process).pid := by
      rw [← hPRdef]
      exact hpid
    by_cases hidle : old = (ks.proc ks.kernel_process).pid
    · have hb : (old != (ks.proc ks.kernel_process).pid) = false := by simp [hidle]
      simp only [hb, Bool.false_and, Bool.false_eq_true, if_false]
      refine (preempt_finish_normal
        { ks with
          proc := PR, thread := T, g_next_thread := q, preempting := false, tss_esp0 := ns,
          cur_thread := some next, switch_log := ks.switch_log ++ [(oe, ne)] }
        next hen hp rfl hl hc).trans ?_
      simp [hidle]
    · have hb : (old != (ks.proc ks.kernel_process).pid) = true := by simp [hidle]
      by_cases hro : (ks.thread old).can_be_run = true
      · simp only [hb, hro, Bool.and_self, if_true]
        by_cases hst : (ks.thread old).state = .ALIVE
        · have hq := queue_thread_accepts
            { ks with
              proc := PR, thread := T, g_next_thread := q, preempting := false, tss_esp0 := ns }
            old (by rw [hPR]; exact hidle) (hSo.trans hst)
          rw [hq]
          refine (preempt_finish_normal
            { ks with
              proc := PR, thread := T, g_next_thread := q ++ [old], preempting := false,
              tss_esp0 := ns, interrupts_enabled := ks.g_critical_count == 0,
              cur_thread := some next, switch_log := ks.switch_log ++ [(oe, ne)] }
            next hen hp rfl hl hc).trans ?_
          simp [hidle, hro, hst]
        · have hq := queue_thread_guards
            { ks with
              proc := PR, thread := T, g_next_thread := q, preempting := false, tss_esp0 := ns }
            (some old) (Or.inr ⟨old, rfl, Or.inr (by rw [hSo]; exact hst)⟩)
          rw [hq]
          refine (preempt_finish_normal
            { ks with
              proc := PR, thread := T, g_next_thread := q, preempting := false, tss_esp0 := ns,
              cur_thread := some next, switch_log := ks.switch_log ++ [(oe, ne)] }
            next hen hp rfl hl hc).trans ?_
          simp [hst]
      · have hro2 : (ks.thread old).can_be_run = false := by simpa using hro
        simp only [hb, hro2, Bool.and_false, Bool.false_eq_true, if_false]
        refine (preempt_finish_normal
          { ks with
            proc := PR, thread := T, g_next_thread := q, preempting := false, tss_esp0 := ns,
            cur_thread := some next, switch_log := ks.switch_log ++ [(oe, ne)] }
          next hen hp rfl hl hc).trans ?_
        simp [hro2]

theorem leave_critical_inv (k k1 : Kernel) (h : leave_critical k = .ok k1) :
    k1 = { k with
           g_critical_count := k1.g_critical_count
           interrupts_enabled := k1.interrupts_enabled } := by
  unfold leave_critical at h
  split at h
  · cases h
    rfl
  · cases h

theorem leave_critical_error (k : Kernel) (e : String) (h : leave_critical k = .error e) :
    e = "Assertion failed: g_critical_count.load() > 0" := by
  unfold leave_critical at h
  split at h
  · cases h
  · cases h
    rfl

theorem release_inv (k : Kernel) (m : Mutex) :
    ∃ k1 m1, Mutex.release k m = .ok (k1, m1) ∧
      k1 = { k with
             g_critical_count := k1.g_critical_count
             interrupts_enabled := k1.interrupts_enabled } := by
  unfold Mutex.release
  split
  · exact ⟨k, m, rfl, rfl⟩
  · simp only [leave_critical, enter_critical]
    rw [if_pos (by omega)]
    exact ⟨_, _, rfl, rfl⟩

theorem preempt_finish_inv (k k1 : Kernel) (h : preempt_finish k = .ok k1) :
    k1 = { k with
           g_tasking_lock := k1.g_tasking_lock
           g_critical_count := k1.g_critical_count
           interrupts_enabled := k1.interrupts_enabled } := by
  unfold preempt_finish at h
  split at h
  · cases h
  · obtain ⟨k2, m2, r1, r2⟩ := release_inv k k.g_tasking_lock
    rw [r1] at h
    simp only [] at h
    split at h
    · cases h
    · rename_i k3 h3
      have f3 := leave_critical_inv _ _ h3
      split at h
      · cases h
      · rename_i cur hcur
        simp only [Thread.leave_critical, Thread.enter_critical] at h
        cases h
        rw [f3, r2]

theorem preempt_finish_error (k : Kernel) (e : String) (h : preempt_finish k = .error e) :
    e ≠ "KTHREAD_DEADLOCK: The kernel idle thread is blocked!" := by
  unfold preempt_finish at h
  split at h
  · cases h
    decide
  · obtain ⟨k2, m2, r1, -⟩ := release_inv k k.g_tasking_lock
    rw [r1] at h
    simp only [] at h
    split at h
    · rename_i e1 h1
      cases h
      rw [leave_critical_error _ _ h1]
      decide
    · split at h
      · cases h
        decide
      · simp only [Thread.leave_critical] at h
        cases h

theorem skip_unrunnable_nil (k : Kernel) (l : List Int) (h : skip_unrunnable k l = []) :
    ∀ x ∈ l, (k.thread x).can_be_run = false := by
  induction l with
  | nil =>
    intro x hx
    cases hx
  | cons y rest ih =>
    simp only [skip_unrunnable] at h
    split at h
    · cases h
    · rename_i hy
      intro x hx
      rcases List.mem_cons.1 hx with hx | hx
      · rw [hx]
        simpa using hy
      · exact ih h x hx

theorem pick_next_thread_deadlock (k : Kernel) :
    pick_next_thread k = .error "KTHREAD_DEADLOCK: The kernel idle thread is blocked!" ↔
      Mutex.held_by_current_thread k k.g_tasking_lock = true ∧
      (∀ x ∈ k.g_next_thread, (k.thread x).can_be_run = false) ∧
      ∃ cur idle, k.cur_thread = some cur ∧ (k.thread cur).can_be_run = false ∧
        get_thread k k.kernel_process (k.proc k.kernel_process).pid = some idle ∧
        (k.thread idle).state ≠ .ALIVE := by
  constructor
  · intro h
    unfold pick_next_thread at h
    split at h
    · exact absurd (Except.error.inj h) (by decide)
    · rename_i hheld
      simp only [] at h
      split at h
      · rename_i hq
        have hall := skip_unrunnable_nil k k.g_next_thread hq
        split at h
        · exact absurd (Except.error.inj h) (by decide)
        · rename_i cur hcur
          split at h
          · cases h
          · rename_i hrun
            split at h
            · exact absurd (Except.error.inj h) (by decide)
            · rename_i idle hidle
              split at h
              · rename_i hst
                exact ⟨by simpa using hheld, hall, cur, idle, hcur, by simpa using hrun, hidle,
                  by simpa using hst⟩
              · cases h
      · cases h
  · rintro ⟨hheld, hall, cur, idle, hcur, hrun, hidle, hst⟩
    have hs := skip_unrunnable_none k k.g_next_thread hall
    obtain ⟨hm, he⟩ := get_thread_some k k.kernel_process _ idle hidle
    subst he
    unfold pick_next_thread
    simp [hheld, hs, hcur, hrun, get_thread, hm, hst]

theorem requeue_total (c : Bool) (k : Kernel) (old : Int) :
    ∃ k7, (if c = true then queue_thread k (some old) else Except.ok k) = Except.ok k7 := by
  cases c with
  | false => exact ⟨k, rfl⟩
  | true =>
    obtain ⟨q, i, hq⟩ := queue_thread_frame k (some old)
    exact ⟨_, hq⟩

theorem finish_after_requeue_error (r : Except String Kernel) (f : Kernel → Kernel)
    (e : String) (hr : ∃ k7, r = .ok k7)
    (h : (match r with
      | .error e => Except.error e
      | .ok k7 => preempt_finish (f k7)) = Except.error e) :
    e ≠ "KTHREAD_DEADLOCK: The kernel idle thread is blocked!" := by
  obtain ⟨k7, hk⟩ := hr
  subst hk
  exact preempt_finish_error _ e h

theorem preempt_switch_error_after_pick (ks k1 : Kernel) (next : Int) (e : String)
    (hpick : pick_next_thread ks = .ok (next, k1)) (h : preempt_switch ks = .error e) :
    e ≠ "KTHREAD_DEADLOCK: The kernel idle thread is blocked!" := by
  cases hcur : ks.cur_thread with
  | none =>
    unfold preempt_switch at h
    rw [hpick, hcur] at h
    rw [← Except.error.inj h]
    decide
  | some old =>
    rw [preempt_switch_unfold ks k1 old next hpick hcur] at h
    simp only [should_preempt_eq, stack_top_eq] at h
    generalize should_preempt k1 old next = sp at h
    generalize old_esp k1 old = oe at h
    generalize start_signal (finish_signal k1 old) next = K3 at h
    generalize new_esp K3 next = ne at h
    generalize new_stack_top K3 next = ns at h
    cases sp with
    | false =>
      simp only [Bool.false_eq_true, if_false] at h
      split at h
      · rw [← Except.error.inj h]
        decide
      · exact preempt_finish_error _ e h
    | true =>
      simp only [if_true] at h
      split at h
      · rw [← Except.error.inj h]
        decide
      · exact finish_after_requeue_error _ _ e (requeue_total _ _ _) h

theorem try_acquire_inv (k : Kernel) (m : Mutex) :
    ∃ r m1, Mutex.try_acquire k m = .ok (r, k, m1) := by
  unfold Mutex.try_acquire Mutex.acquire_with_mode
  split
  · exact ⟨_, _, rfl⟩
  · split
    · exact ⟨_, _, rfl⟩
    · simp only [(by decide : (AcquireMode.Try == AcquireMode.EnterCritical) = false),
        Bool.false_eq_true, if_false]
      split
      · exact ⟨_, _, rfl⟩
      · split
        · exact ⟨_, _, rfl⟩
        · exact ⟨_, _, rfl⟩

theorem unblock_pass_inv (k : Kernel) :
    ∃ k1, unblock_pass k = .ok k1 ∧ k1.cur_thread = k.cur_thread ∧
      k1.g_tasking_lock = k.g_tasking_lock := by
  obtain ⟨r, m1, h1⟩ := try_acquire_inv k k.g_process_lock
  unfold unblock_pass
  rw [h1]
  simp only []
  split
  · obtain ⟨k3, woken, f1, f2, -⟩ := unblock_processes_loop k.processes
      { k with g_process_lock := m1 }
    obtain ⟨k4, m4, g1, g2⟩ := release_inv k3 k3.g_process_lock
    rw [f1]
    simp only []
    rw [g1]
    refine ⟨_, rfl, ?_, ?_⟩
    · show k4.cur_thread = k.cur_thread
      rw [g2, f2]
    · show k4.g_tasking_lock = k.g_tasking_lock
      rw [g2, f2]
  · exact ⟨_, rfl, rfl, rfl⟩

theorem acquire_and_enter_critical_inv (k : Kernel) (m : Mutex) :
    (∀ e, Mutex.acquire_and_enter_critical k m = .error e →
      e ≠ "KTHREAD_DEADLOCK: The kernel idle thread is blocked!") ∧
    (∀ b k1 m1, Mutex.acquire_and_enter_critical k m = .ok (.returned b, k1, m1) →
      k1.cur_thread = k.cur_thread ∧
      (k.tasking_enabled = true → k.g_panicking = false →
        ∀ c, k.cur_thread = some c → m1.holding_thread = c)) := by
  unfold Mutex.acquire_and_enter_critical Mutex.acquire_with_mode
  split
  · rename_i hnone
    refine ⟨fun e h => (by cases h), fun b k1 m1 h => ?_⟩
    cases h
    exact ⟨rfl, fun _ _ c hc => by rw [hnone] at hc; cases hc⟩
  · rename_i cur hcur
    split
    · rename_i hmode
      refine ⟨fun e h => (by cases h), fun b k1 m1 h => ?_⟩
      cases h
      refine ⟨rfl, fun h1 h2 c hc => ?_⟩
      simp [h1, h2] at hmode
    · simp only [beq_self_eq_true, if_true]
      split
      · refine ⟨fun e h => (by cases h), fun b k1 m1 h => ?_⟩
        cases h
        refine ⟨rfl, fun _ _ c hc => ?_⟩
        rw [hcur] at hc
        exact Option.some.inj hc
      · split
        · rename_i hh
          refine ⟨fun e h => (by cases h), fun b k1 m1 h => ?_⟩
          cases h
          refine ⟨rfl, fun _ _ c hc => ?_⟩
          rw [hcur] at hc
          rw [← Option.some.inj hc]
          simpa using hh
        · split
          · rename_i e1 h1
            refine ⟨fun e h => ?_, fun b k1 m1 h => by cases h⟩
            rw [← Except.error.inj h, leave_critical_error _ _ h1]
            decide
          · split
            · refine ⟨fun e h => ?_, fun b k1 m1 h => by cases h⟩
              rw [← Except.error.inj h]
              decide
            · exact ⟨fun e h => (by cases h), fun b k1 m1 h => by cases h⟩

theorem preempt_eq (k : Kernel) (hen : k.tasking_enabled = true) :
    preempt k =
      match preempt_enter k with
      | .ok ks => preempt_switch ks
      | .error e => .error e := by
  unfold preempt preempt_enter
  simp only [hen, Bool.not_true, Bool.false_eq_true, if_false]
  split
  · rfl
  · split
    · rfl
    · rfl
    · cases unblock_pass _ <;> rfl

theorem preempt_enter_inv (k : Kernel) :
    (∀ e, preempt_enter k = .error e →
      e ≠ "KTHREAD_DEADLOCK: The kernel idle thread is blocked!") ∧
    (∀ ks, preempt_enter k = .ok ks → k.tasking_enabled = true → k.g_panicking = false →
      Mutex.held_by_current_thread ks ks.g_tasking_lock = true) := by
  unfold preempt_enter
  split
  · refine ⟨fun e h => ?_, fun ks h => by cases h⟩
    rw [← Except.error.inj h]
    decide
  · obtain ⟨a1, a2⟩ := acquire_and_enter_critical_inv k k.g_tasking_lock
    split
    · rename_i e1 h1
      refine ⟨fun e h => ?_, fun ks h => by cases h⟩
      rw [← Except.error.inj h]
      exact a1 e1 h1
    · refine ⟨fun e h => ?_, fun ks h => by cases h⟩
      rw [← Except.error.inj h]
      decide
    · rename_i b k1 m1 h1
      obtain ⟨b1, b2⟩ := a2 b k1 m1 h1
      obtain ⟨k2, u1, u2, u3⟩ := unblock_pass_inv
        { k1 with g_tasking_lock := m1, preempting := true }
      rw [u1]
      refine ⟨fun e h => (by cases h), fun ks h hen hp => ?_⟩
      cases h
      unfold Mutex.held_by_current_thread
      rw [u2, u3]
      show (match k1.cur_thread with
        | none => true
        | some tid => tid == m1.holding_thread) = true
      rw [b1]
      cases hc : k.cur_thread with
      | none => rfl
      | some c =>
        simp only [b2 hen hp c hc, beq_self_eq_true]

theorem should_preempt_false (k : Kernel) (old next : Int)
    (h : should_preempt k old next = false) :
    old = next ∧ (k.thread old).just_finished_signal = false ∧
      (k.thread next).ready_to_handle_signal = false := by
  unfold should_preempt at h
  simp only [Bool.or_eq_false_iff, bne_eq_false_iff_eq] at h
  obtain ⟨⟨h1, h2⟩, h3⟩ := h
  refine ⟨h1, h2, ?_⟩
  unfold finish_signal at h3
  rw [h2] at h3
  exact h3

theorem preempt_switch_ok_inv (ks k2 : Kernel) (h : preempt_switch ks = .ok k2) :
    ∃ next k1, pick_next_thread ks = .ok (next, k1) ∧
      (ks.thread next).can_be_run = true ∧ k2.cur_thread = some next := by
  cases hpick : pick_next_thread ks with
  | error e =>
    unfold preempt_switch at h
    rw [hpick] at h
    cases h
  | ok r =>
    obtain ⟨next, k1⟩ := r
    refine ⟨next, k1, rfl, ?_⟩
    cases hcur : ks.cur_thread with
    | none =>
      unfold preempt_switch at h
      rw [hpick, hcur] at h
      cases h
    | some old =>
      have hk1 := pick_next_thread_frame ks next k1 hpick
      rw [preempt_switch_unfold ks k1 old next hpick hcur] at h
      simp only [should_preempt_eq, stack_top_eq] at h
      obtain ⟨e1, e2⟩ := signal_stages_frame k1 old next
      have hsp := should_preempt_false k1 old next
      generalize should_preempt k1 old next = sp at h hsp
      generalize old_esp k1 old = oe at h
      generalize start_signal (finish_signal k1 old) next = K3 at e1 e2 h
      generalize new_esp K3 next = ne at h
      generalize new_stack_top K3 next = ns at h
      generalize K3.thread = T at e1 e2
      subst e1
      generalize k1.g_next_thread = q at hk1
      subst hk1
      have hTn : (T next).can_be_run = (ks.thread next).can_be_run := (e2 next).1
      clear e2
      cases sp with
      | false =>
        simp only [Bool.false_eq_true, if_false] at h
        split at h
        · cases h
        · rename_i hr
          refine ⟨?_, ?_⟩
          · rw [← hTn]
            simpa using hr
          · rw [preempt_finish_inv _ _ h]
            show ks.cur_thread = some next
            rw [hcur, (hsp rfl).1]
      | true =>
        simp only [if_true] at h
        split at h
        · cases h
        · rename_i hr
          refine ⟨?_, ?_⟩
          · rw [← hTn]
            simpa using hr
          · split at h
            · cases h
            · rw [preempt_finish_inv _ _ h]

theorem preempt_switch_unrunnable (ks k1 : Kernel) (old next : Int)
    (hpick : pick_next_thread ks = .ok (next, k1)) (hcur : ks.cur_thread = some old)
    (hrun : (ks.thread next).can_be_run = false) :
    preempt_switch ks =
      .error "INVALID_CONTEXT_SWITCH: Tried to switch to a thread that cannot be run" := by
  have hk1 := pick_next_thread_frame ks next k1 hpick
  rw [preempt_switch_unfold ks k1 old next hpick hcur]
  simp only [should_preempt_eq, stack_top_eq]
  obtain ⟨e1, e2⟩ := signal_stages_frame k1 old next
  generalize should_preempt k1 old next = sp
  generalize old_esp k1 old = oe
  generalize start_signal (finish_signal k1 old) next = K3 at e1 e2 ⊢
  generalize new_esp K3 next = ne
  generalize new_stack_top K3 next = ns
  generalize K3.thread = T at e1 e2
  subst e1
  generalize k1.g_next_thread = q at hk1
  subst hk1
  have hTn : (T next).can_be_run = false := (e2 next).1.trans hrun
  clear e2
  cases sp with
  | false => simp only [Bool.false_eq_true, if_false, hTn, Bool.not_false, if_true]
  | true => simp only [if_true, Kernel.set_proc, hTn, Bool.not_false]

theorem preempt_deadlock_iff (k : Kernel) (hen : k.tasking_enabled = true)
    (hp : k.g_panicking = false) :
    preempt k = .error "KTHREAD_DEADLOCK: The kernel idle thread is blocked!" ↔
      ∃ ks cur idle, preempt_enter k = .ok ks ∧
        (∀ x ∈ ks.g_next_thread, (ks.thread x).can_be_run = false) ∧
        ks.cur_thread = some cur ∧ (ks.thread cur).can_be_run = false ∧
        get_thread ks ks.kernel_process (ks.proc ks.kernel_process).pid = some idle ∧
        (ks.thread idle).state ≠ .ALIVE := by
  rw [preempt_eq k hen]
  obtain ⟨a1, a2⟩ := preempt_enter_inv k
  cases hent : preempt_enter k with
  | error e =>
    simp only []
    constructor
    · intro h
      exact absurd (Except.error.inj h) (a1 e hent)
    · rintro ⟨ks, cur, idle, h, -⟩
      cases h
  | ok ks =>
    simp only []
    have hheld := a2 ks hent hen hp
    constructor
    · intro h
      cases hpick : pick_next_thread ks with
      | error e =>
        have he : preempt_switch ks = .error e := by
          unfold preempt_switch
          rw [hpick]
        rw [he] at h
        rw [Except.error.inj h] at hpick
        obtain ⟨-, b1, cur, idle, b2, b3, b4, b5⟩ := (pick_next_thread_deadlock ks).1 hpick
        exact ⟨ks, cur, idle, rfl, b1, b2, b3, b4, b5⟩
      | ok r =>
        exact absurd rfl (preempt_switch_error_after_pick ks r.2 r.1 _ hpick h)
    · rintro ⟨ks1, cur, idle, h, b1, b2, b3, b4, b5⟩
      cases h
      have hpick := (pick_next_thread_deadlock ks).2 ⟨hheld, b1, cur, idle, b2, b3, b4, b5⟩
      unfold preempt_switch
      rw [hpick]

theorem skip_unrunnable_head (k : Kernel) (l : List Int) (t : Int) (rest : List Int)
    (h : skip_unrunnable k l = t :: rest) : (k.thread t).can_be_run = true := by
  induction l with
  | nil => cases h
  | cons x xs ih =>
    simp only [skip_unrunnable] at h
    split at h
    · rename_i hx
      cases h
      exact hx
    · exact ih h

theorem pick_next_thread_unrunnable (k k1 : Kernel) (next : Int)
    (h : pick_next_thread k = .ok (next, k1)) (hrun : (k.thread next).can_be_run = false) :
    ∃ old, k.cur_thread = some old := by
  unfold pick_next_thread at h
  split at h
  · cases h
  · simp only [] at h
    split at h
    · split at h
      · cases h
      · rename_i cur hcur
        exact ⟨cur, hcur⟩
    · rename_i t rest hq
      cases h
      have := skip_unrunnable_head k k.g_next_thread _ _ hq
      rw [hrun] at this
      cases this

/-- C21: with tasking enabled, whenever preempt() completes without a panic, the thread that is
current afterwards is the thread pick_next_thread selected and it satisfied can_be_run() at the
selection; outside a kernel panic, preempt() panics with KTHREAD_DEADLOCK exactly when, at the
selection, the run queue holds no runnable entry, the current thread cannot be run and the idle
thread is not Alive; and it panics with INVALID_CONTEXT_SWITCH if the selected thread cannot
be run. -/
theorem preempt_never_switches_to_unrunnable (k : Kernel) (hen : k.tasking_enabled = true) :
    (∀ k2, preempt k = .ok k2 →
      ∃ ks next k1, preempt_enter k = .ok ks ∧ pick_next_thread ks = .ok (next, k1) ∧
        (ks.thread next).can_be_run = true ∧ k2.cur_thread = some next) ∧
    (k.g_panicking = false →
      (preempt k = .error "KTHREAD_DEADLOCK: The kernel idle thread is blocked!" ↔
        ∃ ks cur idle, preempt_enter k = .ok ks ∧
          (∀ x ∈ ks.g_next_thread, (ks.thread x).can_be_run = false) ∧
          ks.cur_thread = some cur ∧ (ks.thread cur).can_be_run = false ∧
          get_thread ks ks.kernel_process (ks.proc ks.kernel_process).pid = some idle ∧
          (ks.thread idle).state ≠ .ALIVE)) ∧
    (∀ ks next k1, preempt_enter k = .ok ks → pick_next_thread ks = .ok (next, k1) →
      (ks.thread next).can_be_run = false →
      preempt k =
        .error "INVALID_CONTEXT_SWITCH: Tried to switch to a thread that cannot be run") := by
  refine ⟨fun k2 h => ?_, fun hp => preempt_deadlock_iff k hen hp,
    fun ks next k1 hent hpick hrun => ?_⟩
  · rw [preempt_eq k hen] at h
    cases hent : preempt_enter k with
    | error e =>
      rw [hent] at h
      cases h
    | ok ks =>
      rw [hent] at h
      obtain ⟨next, k1, b1, b2, b3⟩ := preempt_switch_ok_inv ks k2 h
      exact ⟨ks, next, k1, rfl, b1, b2, b3⟩
  · rw [preempt_eq k hen, hent]
    obtain ⟨old, hcur⟩ := pick_next_thread_unrunnable ks k1 next hpick hrun
    exact preempt_switch_unrunnable ks k1 old next hpick hcur hrun

theorem preempt_never_switches_to_unrunnable_witness :
    (∃ ks next k1, preempt_enter sample_kernel_queued = .ok ks ∧
      pick_next_thread ks = .ok (next, k1) ∧ (ks.thread next).can_be_run = true ∧
      next = 9) ∧
    preempt sample_kernel_deadlock =
      .error "KTHREAD_DEADLOCK: The kernel idle thread is blocked!" ∧
    preempt sample_kernel_idle_unrunnable =
      .error "INVALID_CONTEXT_SWITCH: Tried to switch to a thread that cannot be run" := by
  refine ⟨?_, ?_, ?_⟩
  · obtain ⟨ks, next, k1, h1, h2, h3, h4⟩ :=
      (preempt_never_switches_to_unrunnable sample_kernel_queued rfl).1 _ rfl
    exact ⟨ks, next, k1, h1, h2, h3, Option.some.inj h4.symm⟩
  · exact ((preempt_never_switches_to_unrunnable sample_kernel_deadlock rfl).2.1 rfl).2
      ⟨_, 5, 0, rfl, by decide, rfl, rfl, rfl, by decide⟩
  · exact (preempt_never_switches_to_unrunnable sample_kernel_idle_unrunnable rfl).2.2
      _ 0 _ rfl rfl rfl

theorem signal_stages_congr (k k2 : Kernel) (old next : Int) (h : k.thread = k2.thread) :
    (finish_signal k old).thread = (finish_signal k2 old).thread ∧
    (start_signal (finish_signal k old) next).thread =
      (start_signal (finish_signal k2 old) next).thread := by
  have h1 : (finish_signal k old).thread = (finish_signal k2 old).thread := by
    unfold finish_signal
    rw [h]
    split
    · simp only [Kernel.set_thread, h]
    · exact h
  refine ⟨h1, ?_⟩
  generalize finish_signal k old = a at h1
  generalize finish_signal k2 old = b at h1
  unfold start_signal
  rw [h1]
  split
  · simp only [Kernel.set_thread, h1]
  · exact h1

theorem finish_signal_flags (k : Kernel) (old : Int) :
    ((k.thread old).just_finished_signal = true →
      ((finish_signal k old).thread old).just_finished_signal = false ∧
      ((finish_signal k old).thread old).in_signal_handler = false) ∧
    (∀ a, ((finish_signal k old).thread a).ready_to_handle_signal =
      (k.thread a).ready_to_handle_signal) ∧
    (∀ a, ((finish_signal k old).thread a).just_finished_signal = true →
      (k.thread a).just_finished_signal = true) := by
  unfold finish_signal
  split
  · rename_i hj
    simp only [Kernel.set_thread, if_true, true_and, implies_true]
    refine ⟨fun a => ?_, fun a => ?_⟩
    · split
      · rename_i ha
        rw [ha]
      · rfl
    · split
      · intro h
        cases h
      · exact id
  · rename_i hj
    exact ⟨fun h => absurd h hj, fun _ => rfl, fun _ => id⟩

theorem start_signal_flags (k : Kernel) (next : Int) :
    ((k.thread next).ready_to_handle_signal = true →
      ((start_signal k next).thread next).in_signal_handler = true ∧
      ((start_signal k next).thread next).ready_to_handle_signal = false) ∧
    (∀ a, ((start_signal k next).thread a).just_finished_signal =
      (k.thread a).just_finished_signal) ∧
    (∀ a, ((start_signal k next).thread a).in_signal_handler =
      ((k.thread a).in_signal_handler ||
        (a == next && (k.thread next).ready_to_handle_signal))) := by
  unfold start_signal
  split
  · rename_i hj
    simp only [Kernel.set_thread, if_true, true_and, implies_true, hj, Bool.and_true]
    refine ⟨fun a => ?_, fun a => ?_⟩
    · split
      · rename_i ha
        rw [ha]
      · rfl
    · split
      · rename_i ha
        simp [ha]
      · rename_i ha
        simp [ha]
  · rename_i hj
    have hf : (k.thread next).ready_to_handle_signal = false := by simpa using hj
    exact ⟨fun h => absurd h hj, fun _ => rfl, fun a => by simp [hf]⟩

theorem should_preempt_iff (k : Kernel) (old next : Int) :
    should_preempt k old next = true ↔
      old ≠ next ∨ (k.thread old).just_finished_signal = true ∨
        (k.thread next).ready_to_handle_signal = true := by
  unfold should_preempt
  rw [(finish_signal_flags k old).2.1 next]
  simp only [Bool.or_eq_true, bne_iff_ne, ne_eq, or_assoc]

/-- C22: in preempt(), once a runnable thread is selected: if the outgoing thread has
just_finished_signal set, a switch is forced and its just_finished_signal and in_signal_handler
flags are cleared; if the selected thread has ready_to_handle_signal set, a switch is forced,
its in_signal_handler flag is set and ready_to_handle_signal is cleared (when both hold of one
and the same thread, in_signal_handler is cleared first and set next). tss.esp0 and the
incoming stack pointer come from the signal stack and the signal register set if and only if
the selected thread's in_signal_handler is true after these updates, and the outgoing stack
pointer goes to the signal register set if and only if the outgoing thread's in_signal_handler
was true before them. -/
theorem preempt_signal_handler_transition (ks k1 : Kernel) (old next : Int)
    (hpick : pick_next_thread ks = .ok (next, k1)) (hcur : ks.cur_thread = some old)
    (hrun : (ks.thread next).can_be_run = true)
    (hen : ks.tasking_enabled = true) (hp : ks.g_panicking = false)
    (hl : ks.g_tasking_lock.times_locked = 1) (hc : 0 < ks.g_critical_count) :
    ∃ k2, preempt_switch ks = .ok k2 ∧
      k2.thread = (start_signal (finish_signal ks old) next).thread ∧
      ((ks.thread old).just_finished_signal = true →
        k2.cur_thread = some next ∧ (∃ e, k2.switch_log = ks.switch_log ++ [e]) ∧
        ((finish_signal ks old).thread old).just_finished_signal = false ∧
        ((finish_signal ks old).thread old).in_signal_handler = false ∧
        (k2.thread old).just_finished_signal = false ∧
        (k2.thread old).in_signal_handler =
          (old == next && (ks.thread next).ready_to_handle_signal)) ∧
      ((ks.thread next).ready_to_handle_signal = true →
        k2.cur_thread = some next ∧ (∃ e, k2.switch_log = ks.switch_log ++ [e]) ∧
        (k2.thread next).in_signal_handler = true ∧
        (k2.thread next).ready_to_handle_signal = false) ∧
      k2.tss_esp0 =
        (if (k2.thread next).in_signal_handler then StackTop.signal_stack_top next
          else StackTop.kernel_stack_top next) ∧
      (∀ e, k2.switch_log = ks.switch_log ++ [e] →
        e = (if (ks.thread old).in_signal_handler then EspSlot.signal_registers old
              else EspSlot.registers old,
             if (k2.thread next).in_signal_handler then EspSlot.signal_registers next
              else EspSlot.registers next)) := by
  have hk1 := pick_next_thread_frame ks next k1 hpick
  have ht : k1.thread = ks.thread := by rw [hk1]
  obtain ⟨c1, c2⟩ := signal_stages_congr k1 ks old next ht
  obtain ⟨f1, f2, f3⟩ := finish_signal_flags ks old
  obtain ⟨s1, s2, s3⟩ := start_signal_flags (finish_signal ks old) next
  have hsp := should_preempt_iff k1 old next
  rw [ht] at hsp
  refine ⟨_, preempt_switch_normal ks k1 old next hpick hcur hrun hen hp hl hc, c2, ?_, ?_, ?_, ?_⟩
  · intro hj
    have hs : should_preempt k1 old next = true := hsp.2 (Or.inr (Or.inl hj))
    obtain ⟨g1, g2⟩ := f1 hj
    refine ⟨?_, ⟨(old_esp k1 old,
      new_esp (start_signal (finish_signal k1 old) next) next), ?_⟩, g1, g2, ?_, ?_⟩
    · show (if should_preempt k1 old next then some next else some old) = some next
      rw [hs]
      rfl
    · show ks.switch_log ++ (if should_preempt k1 old next then
          [(old_esp k1 old, new_esp (start_signal (finish_signal k1 old) next) next)]
        else []) = _
      rw [hs]
      rfl
    · show ((start_signal (finish_signal k1 old) next).thread old).just_finished_signal = false
      rw [c2, s2 old, g1]
    · show ((start_signal (finish_signal k1 old) next).thread old).in_signal_handler = _
      rw [c2, s3 old, g2, f2 next, Bool.false_or]
  · intro hr
    have hs : should_preempt k1 old next = true := hsp.2 (Or.inr (Or.inr hr))
    obtain ⟨g1, g2⟩ := s1 ((f2 next).trans hr)
    refine ⟨?_, ⟨(old_esp k1 old,
      new_esp (start_signal (finish_signal k1 old) next) next), ?_⟩, ?_, ?_⟩
    · show (if should_preempt k1 old next then some next else some old) = some next
      rw [hs]
      rfl
    · show ks.switch_log ++ (if should_preempt k1 old next then
          [(old_esp k1 old, new_esp (start_signal (finish_signal k1 old) next) next)]
        else []) = _
      rw [hs]
      rfl
    · show ((start_signal (finish_signal k1 old) next).thread next).in_signal_handler = true
      rw [c2, g1]
    · show ((start_signal (finish_signal k1 old) next).thread next).ready_to_handle_signal
        = false
      rw [c2, g2]
  · rfl
  · intro e he
    have he2 : ks.switch_log ++ (if should_preempt k1 old next then
          [(old_esp k1 old, new_esp (start_signal (finish_signal k1 old) next) next)]
        else []) = ks.switch_log ++ [e] := he
    have he3 := List.append_cancel_left he2
    split at he3
    · have he4 : e = (old_esp k1 old, new_esp (start_signal (finish_signal k1 old) next) next) :=
        (List.cons.inj he3).1.symm
      rw [he4]
      unfold old_esp new_esp
      rw [ht]
    · cases he3

theorem preempt_signal_handler_transition_witness :
    ∃ k2, preempt_switch sample_kernel_switching = .ok k2 ∧
      (k2.thread 7).just_finished_signal = false ∧ (k2.thread 7).in_signal_handler = false ∧
      (k2.thread 9).in_signal_handler = true ∧ (k2.thread 9).ready_to_handle_signal = false ∧
      k2.cur_thread = some 9 ∧ k2.tss_esp0 = StackTop.signal_stack_top 9 ∧
      k2.switch_log = [(EspSlot.signal_registers 7, EspSlot.signal_registers 9)] := by
  obtain ⟨k2, h1, -, h3, h4, h5, h6⟩ :=
    preempt_signal_handler_transition sample_kernel_switching _ 7 9 rfl rfl rfl rfl rfl rfl
      (by decide)
  obtain ⟨a1, ⟨e, a2⟩, -, -, a3, a4⟩ := h3 rfl
  obtain ⟨-, -, b3, b4⟩ := h4 rfl
  refine ⟨k2, h1, a3, a4, b3, b4, a1, ?_, ?_⟩
  · rw [h5, b3]
    rfl
  · rw [a2, h6 e a2, b3]
    rfl

theorem unblock_pass_unblocks_ready_witness :
    (∃ k1, unblock_pass sample_kernel_ready = .ok k1 ∧
      k1.g_process_lock = sample_kernel_ready.g_process_lock ∧
      (k1.thread 8).state = .ALIVE ∧ (k1.thread 5).state = .BLOCKED) ∧
    unblock_pass sample_kernel_contended = .ok sample_kernel_contended := by
  constructor
  · obtain ⟨k1, woken, h1, h2, -, -, -, h6, h7, -⟩ :=
      (unblock_pass_unblocks_ready sample_kernel_ready 0 rfl rfl rfl).1 (Or.inl ⟨rfl, rfl⟩)
    have h8 : (8 : Int) ∈ woken := (h6 8).2 ⟨⟨103, by decide, Or.inl rfl, by decide, by decide⟩,
      rfl, rfl⟩
    have h5 : (5 : Int) ∉ woken := fun h => by
      obtain ⟨⟨p, hp, hs, ht, -⟩, -⟩ := (h6 5).1 h
      revert hs ht
      revert p
      decide
    refine ⟨k1, h1, h2, ?_, ?_⟩
    · rw [h7 8, if_pos h8]
    · rw [h7 5, if_neg h5]
      rfl
  · exact (unblock_pass_unblocks_ready sample_kernel_contended 0 rfl rfl rfl).2
      (by decide) (by decide)

/-! ### Lock scopes -/

theorem lock_set_lock (k : Kernel) (l : LockRef) (m : Mutex) : (k.set_lock l m).lock l = m := by
  cases l <;> simp [Kernel.set_lock, Kernel.lock]

theorem lock_set_lock_other (k : Kernel) (l l2 : LockRef) (m : Mutex) (h : l2 ≠ l) :
    (k.set_lock l m).lock l2 = k.lock l2 := by
  cases l <;> cases l2 <;> simp_all [Kernel.set_lock, Kernel.lock]

theorem set_lock_back (k : Kernel) (l : LockRef) (m : Mutex) :
    (k.set_lock l m).set_lock l (k.lock l) = k := by
  cases l with
  | g_tasking_lock => rfl
  | g_process_lock => rfl
  | thread_lock p =>
    have h : (fun a => if a = p then k.thread_lock p
        else (fun a => if a = p then m else k.thread_lock a) a) = k.thread_lock := by
      funext a
      by_cases ha : a = p
      · simp [ha]
      · simp [ha]
    simp only [Kernel.set_lock, Kernel.lock]
    rw [h]
  | starting_lock p =>
    have h : (fun a => if a = p then k.starting_lock p
        else (fun a => if a = p then m else k.starting_lock a) a) = k.starting_lock := by
      funext a
      by_cases ha : a = p
      · simp [ha]
      · simp [ha]
    simp only [Kernel.set_lock, Kernel.lock]
    rw [h]

theorem same_control_refl (k : Kernel) : same_control k k :=
  ⟨rfl, rfl, rfl, rfl, fun _ => rfl⟩

theorem same_control_trans (k k1 k2 : Kernel) (h1 : same_control k k1)
    (h2 : same_control k1 k2) : same_control k k2 := by
  obtain ⟨a1, a2, a3, a4, a5⟩ := h1
  obtain ⟨b1, b2, b3, b4, b5⟩ := h2
  exact ⟨b1.trans a1, b2.trans a2, b3.trans a3, b4.trans a4, fun l => (b5 l).trans (a5 l)⟩

theorem locks_available_of_same_control (k k1 : Kernel) (cur : Int)
    (h : locks_available k cur) (hs : same_control k k1) : locks_available k1 cur := by
  obtain ⟨a1, a2, a3, a4, a5⟩ := h
  obtain ⟨b1, b2, b3, b4, b5⟩ := hs
  exact ⟨b1.trans a1, b2.trans a2, b3.trans a3, b4.trans a4, fun l => by rw [b5 l]; exact a5 l⟩

/-- While `cur` holds a lock it took, the locks are still available to `cur`. -/
theorem locks_available_set_lock (k : Kernel) (cur : Int) (l : LockRef)
    (h : locks_available k cur) :
    locks_available
      (k.set_lock l { holding_thread := cur, times_locked := (k.lock l).times_locked + 1 })
      cur := by
  obtain ⟨a1, a2, a3, a4, a5⟩ := h
  refine ⟨?_, ?_, ?_, ?_, fun l2 => ?_⟩
  · cases l <;> exact a1
  · cases l <;> exact a2
  · cases l <;> exact a3
  · cases l <;> exact a4
  · by_cases hl : l2 = l
    · subst hl
      rw [lock_set_lock]
      refine Or.inr ⟨rfl, ?_⟩
      rcases a5 l2 with ⟨-, h0⟩ | ⟨-, h1⟩
      · show (1 : Int) ≤ (k.lock l2).times_locked + 1
        omega
      · show (1 : Int) ≤ (k.lock l2).times_locked + 1
        omega
    · rw [lock_set_lock_other k l l2 _ hl]
      exact a5 l2

theorem acquire_available (k : Kernel) (m : Mutex) (cur : Int)
    (hen : k.tasking_enabled = true) (hp : k.g_panicking = false) (hc : k.g_critical_count = 0)
    (hcur : k.cur_thread = some cur) (hm : m.free_or_held_by cur) :
    Mutex.acquire k m =
      .ok (.returned true, k, { holding_thread := cur, times_locked := m.times_locked + 1 }) := by
  rcases hm with ⟨h1, -⟩ | ⟨h1, -⟩
  · simp [Mutex.acquire, Mutex.acquire_with_mode, hen, hp, hc, hcur, h1, in_critical]
  · by_cases hA : cur = -1
    · simp [Mutex.acquire, Mutex.acquire_with_mode, hen, hp, hc, hcur, h1, hA, in_critical]
    · simp [Mutex.acquire, Mutex.acquire_with_mode, hen, hp, hc, hcur, h1, hA, in_critical]

theorem acquire_critical_available (k : Kernel) (m : Mutex) (cur : Int)
    (hen : k.tasking_enabled = true) (hp : k.g_panicking = false)
    (hcur : k.cur_thread = some cur) (hm : m.free_or_held_by cur) :
    Mutex.acquire_and_enter_critical k m =
      .ok (.returned true, enter_critical k,
        { holding_thread := cur, times_locked := m.times_locked + 1 }) := by
  rcases hm with ⟨h1, -⟩ | ⟨h1, -⟩
  · simp [Mutex.acquire_and_enter_critical, Mutex.acquire_with_mode, hen, hp, hcur, h1]
  · by_cases hA : cur = -1
    · simp [Mutex.acquire_and_enter_critical, Mutex.acquire_with_mode, hen, hp, hcur, h1, hA]
    · simp [Mutex.acquire_and_enter_critical, Mutex.acquire_with_mode, hen, hp, hcur, h1, hA]

theorem release_taken (k : Kernel) (m : Mutex) (cur : Int)
    (hen : k.tasking_enabled = true) (hp : k.g_panicking = false)
    (hm : m.free_or_held_by cur) :
    Mutex.release k { holding_thread := cur, times_locked := m.times_locked + 1 } =
      .ok ({ k with interrupts_enabled := k.g_critical_count == 0 }, m) := by
  rw [release_normal k _ hen hp]
  rcases hm with ⟨h1, h2⟩ | ⟨h1, h2⟩
  · cases m with
    | mk a b =>
      simp only at h1 h2
      subst h1
      subst h2
      simp
  · cases m with
    | mk a b =>
      simp only at h1 h2
      subst h1
      have hb : ¬ (b + 1 = 1) := by omega
      simp [hb]

/-- A `LOCK` scope entered with the locks available: the body runs with the lock taken, and if
it returns with the tasking switches, the critical-section count and that lock as they were,
the scope gives the lock back and returns what the body returned, interrupts enabled. -/
theorem LOCK_returns {α : Type} (l : LockRef) (body : Kernel → Except String (Kernel × α))
    (k : Kernel) (cur : Int) (h : locks_available k cur) (k2 : Kernel) (a : α)
    (hbody : body
      (k.set_lock l { holding_thread := cur, times_locked := (k.lock l).times_locked + 1 }) =
        .ok (k2, a))
    (hs : same_control
      (k.set_lock l { holding_thread := cur, times_locked := (k.lock l).times_locked + 1 }) k2) :
    LOCK l body k = .ok ({ k2 with interrupts_enabled := true }.set_lock l (k.lock l), a) ∧
      same_control k ({ k2 with interrupts_enabled := true }.set_lock l (k.lock l)) := by
  have h1 := locks_available_set_lock k cur l h
  obtain ⟨a1, a2, a3, a4, a5⟩ := h
  obtain ⟨b1, b2, b3, b4, b5⟩ := locks_available_of_same_control _ _ cur h1 hs
  obtain ⟨c1, c2, c3, c4, c5⟩ := hs
  have hl2 : k2.lock l =
      { holding_thread := cur, times_locked := (k.lock l).times_locked + 1 } := by
    rw [c5 l, lock_set_lock]
  constructor
  · unfold LOCK
    rw [acquire_available k _ cur a1 a2 a3 a4 (a5 l)]
    simp only [hbody]
    rw [hl2, release_taken k2 _ cur b1 b2 (a5 l)]
    simp only [b3, beq_self_eq_true]
  · refine ⟨?_, ?_, ?_, ?_, fun l2 => ?_⟩
    · cases l <;> exact (b1.trans a1.symm)
    · cases l <;> exact (b2.trans a2.symm)
    · cases l <;> exact (b3.trans a3.symm)
    · cases l <;> exact (b4.trans a4.symm)
    · by_cases hl : l2 = l
      · subst hl
        rw [lock_set_lock]
      · rw [lock_set_lock_other _ l l2 _ hl]
        have : ({ k2 with interrupts_enabled := true } : Kernel).lock l2 = k2.lock l2 := by
          cases l2 <;> rfl
        rw [this, c5 l2, lock_set_lock_other _ l l2 _ hl]

/-- A `CRITICAL_LOCK` scope entered with the locks available, around a body that returns with
the tasking switches, the critical-section count and the locks as they were. -/
theorem CRITICAL_LOCK_returns (l : LockRef) (body : Kernel → Except String Kernel)
    (k : Kernel) (cur : Int) (h : locks_available k cur) (k2 : Kernel)
    (hbody : body
      ((enter_critical k).set_lock l
        { holding_thread := cur, times_locked := (k.lock l).times_locked + 1 }) = .ok k2)
    (hs : same_control
      ((enter_critical k).set_lock l
        { holding_thread := cur, times_locked := (k.lock l).times_locked + 1 }) k2) :
    CRITICAL_LOCK l body k =
        .ok ({ k2 with interrupts_enabled := true, g_critical_count := 0 }.set_lock l
          (k.lock l)) ∧
      same_control k
        ({ k2 with interrupts_enabled := true, g_critical_count := 0 }.set_lock l
          (k.lock l)) := by
  obtain ⟨a1, a2, a3, a4, a5⟩ := h
  obtain ⟨c1, c2, c3, c4, c5⟩ := hs
  have d1 : k2.tasking_enabled = true := by
    rw [c1]
    cases l <;> exact a1
  have d2 : k2.g_panicking = false := by
    rw [c2]
    cases l <;> exact a2
  have d3 : k2.g_critical_count = 1 := by
    rw [c3]
    cases l <;> simp [Kernel.set_lock, enter_critical, a3]
  have d4 : k2.cur_thread = some cur := by
    rw [c4]
    cases l <;> exact a4
  have hl2 : k2.lock l =
      { holding_thread := cur, times_locked := (k.lock l).times_locked + 1 } := by
    rw [c5 l, lock_set_lock]
  have hlk : (enter_critical k).lock l = k.lock l := by
    cases l <;> rfl
  constructor
  · unfold CRITICAL_LOCK
    rw [acquire_critical_available k _ cur a1 a2 a4 (a5 l)]
    simp only [hbody]
    rw [hl2, release_taken k2 _ cur d1 d2 (a5 l)]
    simp only [d3]
    cases l <;> simp [Kernel.set_lock, leave_critical, d3]
  · refine ⟨?_, ?_, ?_, ?_, fun l2 => ?_⟩
    · cases l <;> exact (d1.trans a1.symm)
    · cases l <;> exact (d2.trans a2.symm)
    · cases l <;> exact a3.symm
    · cases l <;> exact (d4.trans a4.symm)
    · by_cases hl : l2 = l
      · subst hl
        rw [lock_set_lock]
      · rw [lock_set_lock_other _ l l2 _ hl]
        have : ({ k2 with interrupts_enabled := true, g_critical_count := 0 } : Kernel).lock l2 =
            k2.lock l2 := by
          cases l2 <;> rfl
        rw [this, c5 l2, lock_set_lock_other _ l l2 _ hl]
        cases l2 <;> rfl

theorem LOCK_returns_at {α : Type} (l : LockRef) (body : Kernel → Except String (Kernel × α))
    (k : Kernel) (cur : Int) (h : locks_available k cur) (K : Kernel)
    (hK : K = k.set_lock l
      { holding_thread := cur, times_locked := (k.lock l).times_locked + 1 })
    (k2 : Kernel) (a : α) (hbody : body K = .ok (k2, a)) (hs : same_control K k2) :
    LOCK l body k = .ok ({ k2 with interrupts_enabled := true }.set_lock l (k.lock l), a) ∧
      same_control k ({ k2 with interrupts_enabled := true }.set_lock l (k.lock l)) := by
  subst hK
  exact LOCK_returns l body k cur h k2 a hbody hs

theorem locked_state (k : Kernel) (cur : Int) (l : LockRef) (h : locks_available k cur) :
    ∃ K, K = k.set_lock l
        { holding_thread := cur, times_locked := (k.lock l).times_locked + 1 } ∧
      locks_available K cur ∧ K.proc = k.proc ∧ K.thread = k.thread ∧
      K.signal_log = k.signal_log ∧ K.wait_log = k.wait_log ∧ same_table k K := by
  refine ⟨_, rfl, locks_available_set_lock k cur l h, ?_, ?_, ?_, ?_, ?_⟩
  · cases l <;> rfl
  · cases l <;> rfl
  · cases l <;> rfl
  · cases l <;> rfl
  · cases l <;> exact ⟨rfl, rfl, rfl, rfl, rfl⟩

theorem unlocked_fields (k2 : Kernel) (l : LockRef) (m : Mutex) :
    ({ k2 with interrupts_enabled := true }.set_lock l m).proc = k2.proc ∧
    ({ k2 with interrupts_enabled := true }.set_lock l m).thread = k2.thread ∧
    ({ k2 with interrupts_enabled := true }.set_lock l m).signal_log = k2.signal_log ∧
    ({ k2 with interrupts_enabled := true }.set_lock l m).wait_log = k2.wait_log ∧
    same_table k2 ({ k2 with interrupts_enabled := true }.set_lock l m) := by
  cases l <;> exact ⟨rfl, rfl, rfl, rfl, rfl, rfl, rfl, rfl, rfl⟩

/-! ### The functions that take a lock, with the locks available -/

theorem count_zero_eta (k : Kernel) (h : k.g_critical_count = 0) :
    ({ k with g_critical_count := 0 } : Kernel) = k :=
  congrArg (fun n => ({ k with g_critical_count := n } : Kernel)) h.symm

theorem foldl_reparent_frame (dead : Nat) : ∀ (l : List Nat) (k : Kernel),
    l.foldl
      (fun k1 process =>
        if (k1.proc process).ppid == (k1.proc dead).pid then
          k1.set_proc process { k1.proc process with ppid := 1 }
        else k1) k =
      { k with proc := (l.foldl
        (fun k1 process =>
          if (k1.proc process).ppid == (k1.proc dead).pid then
            k1.set_proc process { k1.proc process with ppid := 1 }
          else k1) k).proc } := by
  intro l
  induction l with
  | nil =>
    intro k
    rfl
  | cons x rest ih =>
    intro k
    simp only [List.foldl_cons]
    split
    · rw [ih]
      rfl
    · exact ih k

theorem reparent_orphans_frame (k : Kernel) (dead : Nat) :
    reparent_orphans k dead =
      { k with proc := fun q =>
          if q ∈ k.processes ∧ (k.proc q).ppid = (k.proc dead).pid then
            { k.proc q with ppid := 1 }
          else k.proc q } := by
  have h : (reparent_orphans k dead).proc = fun q =>
      if q ∈ k.processes ∧ (k.proc q).ppid = (k.proc dead).pid then { k.proc q with ppid := 1 }
      else k.proc q := by
    funext q
    exact reparent_orphans_proc k dead q
  rw [← h]
  exact foldl_reparent_frame dead k.processes k

/-- Process::remove_thread, called with the locks available, returns with the thread taken out
of the thread set - what the statements inside the lock scope do - and interrupts enabled. -/
theorem Process_remove_thread_returns (k : Kernel) (self : Nat) (t cur : Int)
    (h : locks_available k cur) :
    Process.remove_thread k self t =
      .ok { remove_thread k self t with interrupts_enabled := true } := by
  obtain ⟨r1, -⟩ := LOCK_returns (.thread_lock self)
    (fun k1 => .ok (remove_thread k1 self t, ())) k cur h _ () rfl
    ⟨rfl, rfl, rfl, rfl, fun l => by cases l <;> rfl⟩
  unfold Process.remove_thread
  rw [r1]
  exact congrArg Except.ok (set_lock_back { remove_thread k self t with interrupts_enabled := true }
    (.thread_lock self) _)

/-- TaskManager::reparent_orphans, called with the locks available, returns with the children
of the dead process reparented and interrupts enabled. -/
theorem TaskManager_reparent_orphans_returns (k : Kernel) (dead : Nat) (cur : Int)
    (h : locks_available k cur) :
    TaskManager.reparent_orphans k dead =
      .ok { reparent_orphans k dead with interrupts_enabled := true } := by
  have hb : reparent_orphans
      ((enter_critical k).set_lock .g_tasking_lock
        { holding_thread := cur, times_locked := (k.lock .g_tasking_lock).times_locked + 1 })
      dead =
      { (enter_critical k).set_lock .g_tasking_lock
          { holding_thread := cur, times_locked := (k.lock .g_tasking_lock).times_locked + 1 }
        with proc := (reparent_orphans k dead).proc } := by
    rw [reparent_orphans_frame, reparent_orphans_frame k]
    rfl
  obtain ⟨r1, -⟩ := CRITICAL_LOCK_returns .g_tasking_lock
    (fun k1 => .ok (reparent_orphans k1 dead)) k cur h _ rfl
    (by rw [hb]; exact ⟨rfl, rfl, rfl, rfl, fun l => by cases l <;> rfl⟩)
  unfold TaskManager.reparent_orphans
  rw [r1, hb]
  have e : ({ reparent_orphans k dead with interrupts_enabled := true } : Kernel) =
      { k with proc := (reparent_orphans k dead).proc, interrupts_enabled := true } := by
    conv_lhs => rw [reparent_orphans_frame k dead]
    rw [reparent_orphans_frame k dead]
  rw [e]
  exact congrArg Except.ok
    (count_zero_eta { k with proc := (reparent_orphans k dead).proc, interrupts_enabled := true }
      h.2.2.1)

/-- TaskManager::remove_process, called with the locks available. -/
theorem TaskManager_remove_process_returns (k : Kernel) (proc : Nat) (cur : Int)
    (h : locks_available k cur) :
    TaskManager.remove_process k proc =
      .ok { remove_process k proc with interrupts_enabled := true } := by
  obtain ⟨r1, -⟩ := LOCK_returns .g_process_lock
    (fun k1 => .ok (remove_process k1 proc, ())) k cur h _ () rfl
    ⟨rfl, rfl, rfl, rfl, fun l => by cases l <;> rfl⟩
  unfold TaskManager.remove_process
  rw [r1]
  rfl

/-- The statement `delete this`, reached with the locks available. -/
theorem Process_delete_this_returns (k : Kernel) (self : Nat) (cur : Int)
    (h : locks_available k cur) :
    Process.delete_this k self = .ok { delete_this k self with interrupts_enabled := true } := by
  unfold Process.delete_this
  rw [TaskManager_remove_process_returns k self cur h]
  rfl

/-- Process::reap, called with the locks available: on a process whose flag is clear it sets the
flag and takes no lock; on a process whose flag is set it deletes the object. -/
theorem Process_reap_returns (k : Kernel) (self : Nat) (cur : Int)
    (h : locks_available k cur) :
    ((k.proc self).ready_to_destroy = false → Process.reap k self = .ok (reap k self)) ∧
    ((k.proc self).ready_to_destroy = true →
      Process.reap k self = .ok { reap k self with interrupts_enabled := true }) := by
  constructor
  · intro hf
    simp [Process.reap, reap, compare_exchange_strong, hf]
  · intro ht
    have h1 : locks_available (k.set_proc self { k.proc self with ready_to_destroy := true })
        cur := locks_available_of_same_control k _ cur h
      ⟨rfl, rfl, rfl, rfl, fun l => by cases l <;> rfl⟩
    have hd := Process_delete_this_returns _ self cur h1
    simp only [Process.reap, reap, compare_exchange_strong, ht]
    simp only [Bool.true_eq_false, Bool.false_eq_true, beq_iff_eq, if_false, Bool.not_false,
      if_true]
    exact hd

theorem for_each_thread_from_preserves {σ : Type} (R : Kernel → Kernel → Prop)
    (hrefl : ∀ k, R k k) (htrans : ∀ a b c, R a b → R b c → R a c) (self : Nat)
    (callback : Kernel → σ → Int → Except String (Kernel × σ × Bool))
    (hcb : ∀ k acc t k1 acc1 b, callback k acc t = .ok (k1, acc1, b) → R k k1) :
    ∀ (l : List Int) (k : Kernel) (acc : σ) (k1 : Kernel) (acc1 : σ),
      for_each_thread_from self callback l k acc = .ok (k1, acc1) → R k k1 := by
  intro l
  induction l with
  | nil =>
    intro k acc k1 acc1 h
    simp only [for_each_thread_from] at h
    cases h
    exact hrefl k
  | cons t rest ih =>
    intro k acc k1 acc1 h
    simp only [for_each_thread_from] at h
    split at h
    · exact ih k acc k1 acc1 h
    · split at h
      · cases h
      · rename_i k2 acc2 go hc
        have h2 := hcb _ _ _ _ _ _ hc
        split at h
        · exact htrans _ _ _ h2 (ih _ _ _ _ h)
        · cases h
          exact h2

theorem same_table_refl (k : Kernel) : same_table k k :=
  ⟨rfl, rfl, rfl, rfl, rfl⟩

theorem same_table_trans (k k1 k2 : Kernel) (h1 : same_table k k1) (h2 : same_table k1 k2) :
    same_table k k2 := by
  obtain ⟨a1, a2, a3, a4, a5⟩ := h1
  obtain ⟨b1, b2, b3, b4, b5⟩ := h2
  exact ⟨b1.trans a1, b2.trans a2, b3.trans a3, b4.trans a4, b5.trans a5⟩

theorem stop_callback_control (k : Kernel) (acc : Unit) (t : Int) (k1 : Kernel) (acc1 : Unit)
    (b : Bool) (h : stop_callback k acc t = .ok (k1, acc1, b)) :
    same_control k k1 ∧ same_table k k1 := by
  unfold stop_callback at h
  split at h
  · obtain ⟨q, i, hi⟩ := interrupt_frame k t
    rw [hi] at h
    cases h
    exact ⟨⟨rfl, rfl, rfl, rfl, fun l => by cases l <;> rfl⟩, rfl, rfl, rfl, rfl, rfl⟩
  · cases h
    exact ⟨same_control_refl k, same_table_refl k⟩

theorem cont_callback_control (k : Kernel) (acc : Unit) (t : Int) (k1 : Kernel) (acc1 : Unit)
    (b : Bool) (h : cont_callback k acc t = .ok (k1, acc1, b)) :
    same_control k k1 ∧ same_table k k1 := by
  unfold cont_callback at h
  obtain ⟨q, i, hi⟩ := queue_thread_frame
    (k.set_thread t { k.thread t with state := .ALIVE }) (some t)
  rw [hi] at h
  cases h
  exact ⟨⟨rfl, rfl, rfl, rfl, fun l => by cases l <;> rfl⟩, rfl, rfl, rfl, rfl, rfl⟩

theorem loop_control {σ : Type} (self : Nat)
    (callback : Kernel → σ → Int → Except String (Kernel × σ × Bool))
    (hcb : ∀ k acc t k1 acc1 b, callback k acc t = .ok (k1, acc1, b) →
      same_control k k1 ∧ same_table k k1)
    (l : List Int) (k : Kernel) (acc : σ) (k1 : Kernel) (acc1 : σ)
    (h : for_each_thread_from self callback l k acc = .ok (k1, acc1)) :
    same_control k k1 ∧ same_table k k1 :=
  for_each_thread_from_preserves (fun a b => same_control a b ∧ same_table a b)
    (fun a => ⟨same_control_refl a, same_table_refl a⟩)
    (fun a b c h1 h2 => ⟨same_control_trans a b c h1.1 h2.1, same_table_trans a b c h1.2 h2.2⟩)
    self callback hcb l k acc k1 acc1 h

/-- Process::kill with a valid signal other than SIGSTOP, SIGTSTP and SIGCONT, called with the
locks available: the signal is offered to the threads in turn up to the first that accepts it,
and the call returns with nothing else changed but the interrupt flag. -/
theorem Process_kill_generic (k : Kernel) (self : Nat) (signal cur : Int)
    (hpos : 0 < signal) (hlt : signal < k.consts.NSIG) (h1 : signal ≠ k.consts.SIGSTOP)
    (h2 : signal ≠ k.consts.SIGTSTP) (h3 : signal ≠ k.consts.SIGCONT)
    (h : locks_available k cur) :
    Process.kill k self signal =
      .ok { k with
            signal_log := k.signal_log ++
              (offered_threads (fun t => k.accepts_signal t signal)
                (visited_threads k self)).map (fun t => (t, signal))
            interrupts_enabled := true } := by
  obtain ⟨acc1, f1⟩ := kill_loop self signal (k.proc self).tids
    (k.set_lock (.thread_lock self)
      { holding_thread := cur,
        times_locked := (k.lock (.thread_lock self)).times_locked + 1 }) false
  obtain ⟨r1, -⟩ := LOCK_returns (.thread_lock self)
    (fun k1 => for_each_thread k1 self false (kill_callback signal)) k cur h _ acc1 f1
    ⟨rfl, rfl, rfl, rfl, fun l => by cases l <;> rfl⟩
  have e0 : (decide (signal ≤ 0) || decide (signal ≥ k.consts.NSIG)) = false := by
    simp only [Bool.or_eq_false_iff, decide_eq_false_iff_not]
    omega
  have e1 : (signal == k.consts.SIGSTOP || signal == k.consts.SIGTSTP) = false := by
    simp [h1, h2]
  have e2 : (signal == k.consts.SIGCONT) = false := by simp [h3]
  unfold Process.kill Process.for_each_thread
  simp only [e0, e1, e2, Bool.false_eq_true, if_false, h.2.2.2.1, Thread.enter_critical]
  rw [r1]
  have e := set_lock_back
    { k with
      signal_log := k.signal_log ++
        (offered_threads (fun t => k.accepts_signal t signal)
          (visited_threads k self)).map (fun t => (t, signal))
      interrupts_enabled := true } (.thread_lock self)
    { holding_thread := cur, times_locked := (k.lock (.thread_lock self)).times_locked + 1 }
  simp only [Kernel.set_lock, Kernel.lock, visited_threads, Thread.leave_critical] at e ⊢
  rw [e]
  simp only [h.2.2.2.1]

theorem Process_stop_eq (k : Kernel) (self : Nat) (signal : Int) :
    ((k.proc self).stopping = true →
      Process.stop k self signal =
        .ok (false, k.set_proc self { k.proc self with stopping := true })) ∧
    ((k.proc self).stopping = false →
      Process.stop k self signal =
        match Process.for_each_thread
          { k.set_proc self { k.proc self with stopping := true } with
            wait_log := k.wait_log ++ [(self, signal)] } self () stop_callback with
        | .ok (k2, _) => .ok (true, k2)
        | .error e => .error e) := by
  constructor
  · intro hst
    simp [Process.stop, compare_exchange_strong, hst]
  · intro hst
    unfold Process.stop
    rw [hst]
    rfl

/-- Process::stop, called with the locks available, returns; it leaves the tasking switches, the
locks, the process table and the logs of deletions, kill calls and signals as they were, and of
the process objects changes only the stopping flag of this one. -/
theorem Process_stop_returns (k : Kernel) (self : Nat) (signal cur : Int)
    (h : locks_available k cur) :
    ∃ b k1, Process.stop k self signal = .ok (b, k1) ∧ same_control k k1 ∧ same_table k k1 ∧
      k1.signal_log = k.signal_log ∧
      k1.proc = (k.set_proc self { k.proc self with stopping := true }).proc := by
  cases hst : (k.proc self).stopping with
  | true =>
    exact ⟨false, k.set_proc self { k.proc self with stopping := true },
      (Process_stop_eq k self signal).1 hst,
      ⟨rfl, rfl, rfl, rfl, fun l => by cases l <;> rfl⟩, ⟨rfl, rfl, rfl, rfl, rfl⟩, rfl, rfl⟩
  | false =>
    have h0 : locks_available
        { k.set_proc self { k.proc self with stopping := true } with
          wait_log := k.wait_log ++ [(self, signal)] } cur :=
      locks_available_of_same_control k _ cur h
        ⟨rfl, rfl, rfl, rfl, fun l => by cases l <;> rfl⟩
    obtain ⟨K, hK, -, hKp, -, hKs, -, hKt⟩ := locked_state _ cur (.thread_lock self) h0
    obtain ⟨k2, woken, f1, f2, f3, -⟩ := stop_loop self (K.proc self).tids K
    obtain ⟨c1, c2⟩ := loop_control self stop_callback stop_callback_control _ _ _ _ _ f1
    obtain ⟨r1, r2⟩ := LOCK_returns_at (.thread_lock self)
      (fun k1 => for_each_thread k1 self () stop_callback) _ cur h0 K hK k2 () f1 c1
    obtain ⟨u1, -, u3, -, u5⟩ := unlocked_fields k2 (.thread_lock self)
      (({ k.set_proc self { k.proc self with stopping := true } with
          wait_log := k.wait_log ++ [(self, signal)] } : Kernel).lock (.thread_lock self))
    refine ⟨true, _, ?_, same_control_trans _ _ _
      ⟨rfl, rfl, rfl, rfl, fun l => by cases l <;> rfl⟩ r2, ?_, ?_, ?_⟩
    · rw [(Process_stop_eq k self signal).2 hst]
      unfold Process.for_each_thread
      rw [r1]
    · exact same_table_trans _ _ _ (same_table_trans _ _ _
        (same_table_trans k _ K ⟨rfl, rfl, rfl, rfl, rfl⟩ hKt) c2) u5
    · rw [u3, f3, hKs]
      rfl
    · rw [u1, f2, hKp]

/-- Process::cont, called with the locks available, returns; it leaves the tasking switches, the
locks, the process table and the logs of deletions, kill calls and signals as they were, and of
the process objects changes at most the state and the stopping flag of this one. -/
theorem Process_cont_returns (k : Kernel) (self : Nat) (cur : Int)
    (h : locks_available k cur) :
    ∃ k1, Process.cont k self = .ok k1 ∧ same_control k k1 ∧ same_table k k1 ∧
      k1.signal_log = k.signal_log ∧
      (k1.proc = k.proc ∨
        ((k.proc self).state = .STOPPED ∧
          k1.proc = fun a =>
            if a = self then { k.proc self with state := .ALIVE, stopping := false }
            else k.proc a)) := by
  obtain ⟨K, hK, hKa, hKp, -, hKs, -, hKt⟩ := locked_state k cur (.starting_lock self) h
  by_cases hst : (k.proc self).state = .STOPPED
  · have hcond : ((K.proc self).state != .STOPPED) = false := by
      rw [hKp]
      simp [hst]
    have h1 : locks_available (K.set_proc self { K.proc self with state := .ALIVE }) cur :=
      locks_available_of_same_control K _ cur hKa
        ⟨rfl, rfl, rfl, rfl, fun l => by cases l <;> rfl⟩
    obtain ⟨K2, hK2, -, hK2p, -, hK2s, -, hK2t⟩ := locked_state _ cur (.thread_lock self) h1
    obtain ⟨k2, f1, f2, f3, -, -, -, -, -, -⟩ := cont_loop self (K2.proc self).tids K2
    obtain ⟨c1, c2⟩ := loop_control self cont_callback cont_callback_control _ _ _ _ _ f1
    obtain ⟨r1, r2⟩ := LOCK_returns_at (.thread_lock self)
      (fun k1 => for_each_thread k1 self () cont_callback) _ cur h1 K2 hK2 k2 () f1 c1
    obtain ⟨u1, -, u3, -, u5⟩ := unlocked_fields k2 (.thread_lock self)
      ((K.set_proc self { K.proc self with state := .ALIVE }).lock (.thread_lock self))
    generalize hU : ({ k2 with interrupts_enabled := true } : Kernel).set_lock
      (.thread_lock self)
      ((K.set_proc self { K.proc self with state := .ALIVE }).lock (.thread_lock self)) = U
      at r1 r2 u1 u3 u5
    have hbody : Process.cont_locked self K =
        .ok (U.set_proc self { U.proc self with stopping := false }, ()) := by
      unfold Process.cont_locked
      rw [hcond, if_neg Bool.false_ne_true]
      unfold Process.for_each_thread
      rw [r1]
    obtain ⟨s1, s2⟩ := LOCK_returns_at (.starting_lock self) (Process.cont_locked self) k cur h
      K hK (U.set_proc self { U.proc self with stopping := false }) () hbody
      (same_control_trans _ _ _ (same_control_trans _ _ _
        ⟨rfl, rfl, rfl, rfl, fun l => by cases l <;> rfl⟩ r2)
        ⟨rfl, rfl, rfl, rfl, fun l => by cases l <;> rfl⟩)
    obtain ⟨v1, -, v3, -, v5⟩ := unlocked_fields
      (U.set_proc self { U.proc self with stopping := false }) (.starting_lock self)
      (k.lock (.starting_lock self))
    refine ⟨_, ?_, s2, ?_, ?_, Or.inr ⟨hst, ?_⟩⟩
    · unfold Process.cont
      rw [s1]
    · refine same_table_trans _ _ _ ?_ v5
      refine same_table_trans _ U _ ?_ ⟨rfl, rfl, rfl, rfl, rfl⟩
      refine same_table_trans _ k2 _ ?_ u5
      refine same_table_trans _ K2 _ ?_ c2
      refine same_table_trans _ _ _ ?_ hK2t
      exact same_table_trans _ K _ hKt ⟨rfl, rfl, rfl, rfl, rfl⟩
    · rw [v3]
      show U.signal_log = k.signal_log
      rw [u3, f3, hK2s]
      show K.signal_log = k.signal_log
      exact hKs
    · rw [v1]
      show (fun a => if a = self then
          ({ U.proc self with stopping := false } : Process) else U.proc a) = _
      rw [u1, f2, hK2p]
      funext a
      by_cases ha : a = self
      · simp [ha, Kernel.set_proc, hKp]
      · simp [ha, Kernel.set_proc, hKp]
  · have hcond : ((K.proc self).state != .STOPPED) = true := by
      rw [hKp]
      simp [hst]
    have hbody : Process.cont_locked self K = .ok (K, ()) := by
      unfold Process.cont_locked
      rw [hcond, if_pos rfl]
    obtain ⟨s1, s2⟩ := LOCK_returns_at (.starting_lock self) (Process.cont_locked self) k cur h
      K hK K () hbody (same_control_refl _)
    obtain ⟨v1, -, v3, -, v5⟩ := unlocked_fields K (.starting_lock self)
      (k.lock (.starting_lock self))
    refine ⟨_, ?_, s2, same_table_trans _ _ _ hKt v5, ?_, Or.inl ?_⟩
    · unfold Process.cont
      rw [s1]
    · rw [v3, hKs]
    · rw [v1, hKp]

theorem Process_kill_routes (k : Kernel) (self : Nat) (signal : Int) :
    ((signal ≤ 0 ∨ k.consts.NSIG ≤ signal) → Process.kill k self signal = .ok k) ∧
    (0 < signal → signal < k.consts.NSIG →
      (signal = k.consts.SIGSTOP ∨ signal = k.consts.SIGTSTP) →
      Process.kill k self signal =
        match Process.stop k self signal with
        | .ok (_, k1) => .ok k1
        | .error e => .error e) ∧
    (0 < signal → signal < k.consts.NSIG → signal ≠ k.consts.SIGSTOP →
      signal ≠ k.consts.SIGTSTP → signal = k.consts.SIGCONT →
      Process.kill k self signal = Process.cont k self) := by
  refine ⟨fun hv => ?_, fun hpos hlt hs => ?_, fun hpos hlt h1 h2 h3 => ?_⟩
  · unfold Process.kill
    rw [if_pos]
    rcases hv with hv | hv
    · simp [hv]
    · simp [hv]
  · have hc1 : ¬ (signal ≤ 0) := by omega
    have hc2 : ¬ (signal ≥ k.consts.NSIG) := by omega
    have hc3 : (signal == k.consts.SIGSTOP || signal == k.consts.SIGTSTP) = true := by
      rcases hs with hs | hs
      · simp [hs]
      · simp [hs]
    unfold Process.kill
    rw [if_neg (by simp [hc1, hc2]), if_pos hc3]
  · have hc1 : ¬ (signal ≤ 0) := by omega
    have hc2 : ¬ (signal ≥ k.consts.NSIG) := by omega
    have hc3 : ¬ ((signal == k.consts.SIGSTOP || signal == k.consts.SIGTSTP) = true) := by
      simp [h1, h2]
    have hc4 : (signal == k.consts.SIGCONT) = true := by simp [h3]
    unfold Process.kill
    rw [if_neg (by simp [hc1, hc2]), if_neg hc3, if_pos hc4]

/-- Process::kill, called with the locks available, returns, whatever the signal; it leaves the
tasking switches, the locks, the process table and the logs of deletions and kill calls as they
were, and of the process objects changes at most the state and the stopping flag of the process
it is called on. -/
theorem Process_kill_returns (k : Kernel) (p : Nat) (s cur : Int)
    (h : locks_available k cur) :
    ∃ k1, Process.kill k p s = .ok k1 ∧ same_control k k1 ∧ same_table k k1 ∧
      (∀ q, q ≠ p → k1.proc q = k.proc q) ∧
      ∃ st sg, k1.proc p = { k.proc p with state := st, stopping := sg } := by
  obtain ⟨g1, g2, g3⟩ := Process_kill_routes k p s
  by_cases hv : s ≤ 0 ∨ k.consts.NSIG ≤ s
  · exact ⟨k, g1 hv, same_control_refl k, same_table_refl k, fun _ _ => rfl,
      (k.proc p).state, (k.proc p).stopping, rfl⟩
  · have hpos : 0 < s := by omega
    have hlt : s < k.consts.NSIG := by omega
    by_cases hs : s = k.consts.SIGSTOP ∨ s = k.consts.SIGTSTP
    · obtain ⟨b, k1, f1, f2, f3, -, f5⟩ := Process_stop_returns k p s cur h
      refine ⟨k1, ?_, f2, f3, fun q hq => ?_, (k.proc p).state, true, ?_⟩
      · rw [g2 hpos hlt hs, f1]
      · rw [f5]
        simp [Kernel.set_proc, hq]
      · rw [f5]
        simp [Kernel.set_proc]
    · have h1 : s ≠ k.consts.SIGSTOP := fun e => hs (Or.inl e)
      have h2 : s ≠ k.consts.SIGTSTP := fun e => hs (Or.inr e)
      by_cases hc : s = k.consts.SIGCONT
      · obtain ⟨k1, f1, f2, f3, -, f5⟩ := Process_cont_returns k p cur h
        refine ⟨k1, ?_, f2, f3, fun q hq => ?_, ?_⟩
        · rw [g3 hpos hlt h1 h2 hc, f1]
        · rcases f5 with f5 | ⟨-, f5⟩
          · rw [f5]
          · rw [f5]
            simp [hq]
        · rcases f5 with f5 | ⟨-, f5⟩
          · exact ⟨(k.proc p).state, (k.proc p).stopping, by rw [f5]⟩
          · exact ⟨.ALIVE, false, by rw [f5]; simp⟩
      · refine ⟨_, Process_kill_generic k p s cur hpos hlt h1 h2 hc h,
          ⟨rfl, rfl, rfl, rfl, fun l => by cases l <;> rfl⟩, ⟨rfl, rfl, rfl, rfl, rfl⟩,
          fun _ _ => rfl, (k.proc p).state, (k.proc p).stopping, rfl⟩

theorem remove_thread_other (k : Kernel) (self : Nat) (t : Int) (q : Nat) :
    ((remove_thread k self t).proc q).pid = (k.proc q).pid ∧
    ((remove_thread k self t).proc q).ppid = (k.proc q).ppid ∧
    ((remove_thread k self t).proc q).state = (k.proc q).state ∧
    ((remove_thread k self t).proc q).ready_to_destroy = (k.proc q).ready_to_destroy ∧
    (q ≠ self → (remove_thread k self t).proc q = k.proc q) := by
  simp only [remove_thread, Kernel.set_proc]
  by_cases hq : q = self
  · subst hq
    simp
  · simp [hq]

/-- The end of Process::alert_thread_died, reached with the locks available: the children are
reparented, and the process is made a Zombie if its flag was clear and deleted if it was set. -/
theorem Process_alert_thread_died_finish_returns (k2 : Kernel) (self : Nat) (cur : Int)
    (h2 : locks_available k2 cur) :
    Process.alert_thread_died_finish k2 self =
      if (k2.proc self).ready_to_destroy = false then
        .ok ({ reparent_orphans k2 self with interrupts_enabled := true }.set_proc self
          { (reparent_orphans k2 self).proc self with
            ready_to_destroy := true, state := .ZOMBIE })
      else
        .ok { delete_this { reparent_orphans k2 self with interrupts_enabled := true } self
              with interrupts_enabled := true } := by
  have h3 : locks_available { reparent_orphans k2 self with interrupts_enabled := true }
      cur := by
    refine locks_available_of_same_control k2 _ cur h2 ?_
    rw [reparent_orphans_frame]
    exact ⟨rfl, rfl, rfl, rfl, fun l => by cases l <;> rfl⟩
  have hr : ((reparent_orphans k2 self).proc self).ready_to_destroy =
      (k2.proc self).ready_to_destroy := by
    rw [reparent_orphans_proc]
    split <;> rfl
  unfold Process.alert_thread_died_finish
  rw [TaskManager_reparent_orphans_returns k2 self cur h2]
  show (if (compare_exchange_strong
      ((reparent_orphans k2 self).proc self).ready_to_destroy false true).1 = true then _
    else _) = _
  rw [hr]
  cases hrtd : (k2.proc self).ready_to_destroy with
  | false =>
    rw [if_pos (show (compare_exchange_strong false false true).1 = true from rfl), if_pos rfl]
    rfl
  | true =>
    rw [if_neg (by decide), if_neg (by decide)]
    exact Process_delete_this_returns _ self cur h3

/-- The statements of Process::alert_thread_died that tell the parent, reached with the locks
available: kill(SIGCHLD) is called, on the parent, exactly when the lookup finds a process
other than this one; the call returns and leaves this process, every pid and ppid, the process
table and the deletion log as they were. -/
theorem Process_alert_thread_died_signal_returns (k : Kernel) (self : Nat) (cur : Int)
    (h : locks_available k cur) :
    ∃ k2 : Kernel, Process.alert_thread_died_signal k self = .ok k2 ∧
      locks_available k2 cur ∧
      k2.processes = k.processes ∧ k2.deleted = k.deleted ∧ k2.consts = k.consts ∧
      (∀ q, (k2.proc q).pid = (k.proc q).pid ∧ (k2.proc q).ppid = (k.proc q).ppid) ∧
      k2.proc self = k.proc self ∧
      (∀ parent, process_for_pid k (k.proc self).ppid = .ok parent → parent ≠ self →
        k2.kill_log = k.kill_log ++ [(parent, k.consts.SIGCHLD)] ∧
        Process.kill { k with kill_log := k.kill_log ++ [(parent, k.consts.SIGCHLD)] }
          parent k.consts.SIGCHLD = .ok k2) ∧
      ((∀ parent, process_for_pid k (k.proc self).ppid = .ok parent → parent = self) →
        k2 = k) := by
  unfold Process.alert_thread_died_signal
  cases hp : process_for_pid k (k.proc self).ppid with
  | error e =>
    exact ⟨k, rfl, h, rfl, rfl, rfl, fun q => ⟨rfl, rfl⟩, rfl,
      fun parent hpar => (by cases hpar), fun _ => rfl⟩
  | ok parent =>
    by_cases hs : parent = self
    · have hb : (parent != self) = false := by simp [hs]
      refine ⟨k, ?_, h, rfl, rfl, rfl, fun q => ⟨rfl, rfl⟩, rfl,
        fun p2 hpar hne => absurd ((Except.ok.inj hpar).symm.trans hs) hne, fun _ => rfl⟩
      show (if (parent != self) = true then _ else _) = _
      rw [hb, if_neg Bool.false_ne_true]
    · have hb : (parent != self) = true := by simp [hs]
      have hK1b : locks_available
          { k with kill_log := k.kill_log ++ [(parent, k.consts.SIGCHLD)] } cur :=
        locks_available_of_same_control k _ cur h
          ⟨rfl, rfl, rfl, rfl, fun l => by cases l <;> rfl⟩
      obtain ⟨k2, f1, f2, f3, f4, st, sg, f5⟩ := Process_kill_returns _ parent
        k.consts.SIGCHLD cur hK1b
      obtain ⟨t1, t2, t3, t4, t5⟩ := f3
      refine ⟨k2, ?_, locks_available_of_same_control _ _ cur hK1b f2, t1, t2, t4, fun q => ?_,
        f4 self (fun e => hs e.symm), fun p2 hpar _ => ?_,
        fun hall => absurd (hall parent rfl) hs⟩
      · show (if (parent != self) = true then _ else _) = _
        rw [hb, if_pos rfl]
        exact f1
      · by_cases hq : q = parent
        · subst hq
          rw [f5]
          exact ⟨rfl, rfl⟩
        · rw [f4 q hq]
          exact ⟨rfl, rfl⟩
      · cases hpar
        exact ⟨t3, f1⟩

/-- Process::alert_thread_died, called with the locks available, in its two cases: threads
remain, or the last thread has died. -/
theorem Process_alert_thread_died_cases (k : Kernel) (self : Nat) (t cur : Int)
    (h : locks_available k cur) :
    ((k.proc self).threads.filter (fun x => x != t) ≠ [] →
      Process.alert_thread_died k self t =
        .ok { remove_thread k self t with interrupts_enabled := true }) ∧
    ((k.proc self).threads.filter (fun x => x != t) = [] →
      ∃ k2, Process.alert_thread_died_signal
          { remove_thread k self t with interrupts_enabled := true } self = .ok k2 ∧
        Process.alert_thread_died k self t = Process.alert_thread_died_finish k2 self) := by
  have e1 := Process_remove_thread_returns k self t cur h
  have hK1a : locks_available { remove_thread k self t with interrupts_enabled := true } cur :=
    locks_available_of_same_control k _ cur h
      ⟨rfl, rfl, rfl, rfl, fun l => by cases l <;> rfl⟩
  have hthr : (({ remove_thread k self t with interrupts_enabled := true } : Kernel).proc
      self).threads = (k.proc self).threads.filter (fun x => x != t) :=
    (remove_thread_fields k self t).1
  constructor
  · intro hne
    have hlen : ¬ ((({ remove_thread k self t with interrupts_enabled := true } : Kernel).proc
        self).threads.length == 0) = true := by
      rw [hthr]
      simpa using hne
    unfold Process.alert_thread_died
    rw [e1]
    show (if _ then _ else _) = _
    rw [if_neg hlen]
  · intro hlast
    have hlen : ((({ remove_thread k self t with interrupts_enabled := true } : Kernel).proc
        self).threads.length == 0) = true := by
      rw [hthr, hlast]
      rfl
    obtain ⟨k2, f1, -⟩ := Process_alert_thread_died_signal_returns _ self cur hK1a
    refine ⟨k2, f1, ?_⟩
    unfold Process.alert_thread_died
    rw [e1]
    show (if _ then _ else _) = _
    rw [if_pos hlen, f1]

theorem set_lock_self (k : Kernel) (l : LockRef) : k.set_lock l (k.lock l) = k := by
  cases l with
  | g_tasking_lock => rfl
  | g_process_lock => rfl
  | thread_lock p =>
    have h : (fun a => if a = p then k.thread_lock p else k.thread_lock a) = k.thread_lock := by
      funext a
      by_cases ha : a = p
      · simp [ha]
      · simp [ha]
    simp only [Kernel.set_lock, Kernel.lock]
    rw [h]
  | starting_lock p =>
    have h : (fun a => if a = p then k.starting_lock p else k.starting_lock a) =
        k.starting_lock := by
      funext a
      by_cases ha : a = p
      · simp [ha]
      · simp [ha]
    simp only [Kernel.set_lock, Kernel.lock]
    rw [h]

/-- A `LOCK` scope entered inside a critical section, with tasking enabled and no panic in
progress, by a thread that could take the lock: the assertion of Mutex::acquire fails. -/
theorem LOCK_in_critical_section {α : Type} (l : LockRef)
    (body : Kernel → Except String (Kernel × α)) (k : Kernel) (cur : Int)
    (hen : k.tasking_enabled = true) (hp : k.g_panicking = false)
    (hc : k.g_critical_count ≠ 0) (hcur : k.cur_thread = some cur)
    (hm : (k.lock l).free_or_held_by cur) :
    LOCK l body k = .error "Assertion failed: !TaskManager::in_critical() || g_panicking" := by
  unfold LOCK
  rcases hm with ⟨h1, -⟩ | ⟨h1, -⟩
  · simp [Mutex.acquire, Mutex.acquire_with_mode, hen, hp, hc, hcur, h1, in_critical]
  · by_cases hA : cur = -1
    · simp [Mutex.acquire, Mutex.acquire_with_mode, hen, hp, hc, hcur, h1, hA, in_critical]
    · simp [Mutex.acquire, Mutex.acquire_with_mode, hen, hp, hc, hcur, h1, hA, in_critical]

/-- A `CRITICAL_LOCK` scope entered with tasking disabled and no critical section open: the
constructor returns at once, and the destructor fails the assertion of leave_critical. -/
theorem CRITICAL_LOCK_tasking_disabled (l : LockRef) (body : Kernel → Except String Kernel)
    (k k2 : Kernel) (hen : k.tasking_enabled = false) (hbody : body k = .ok k2)
    (hen2 : k2.tasking_enabled = false) (hc2 : k2.g_critical_count = 0) :
    CRITICAL_LOCK l body k = .error "Assertion failed: g_critical_count.load() > 0" := by
  have ha : Mutex.acquire_and_enter_critical k (k.lock l) = .ok (.returned true, k, k.lock l) := by
    unfold Mutex.acquire_and_enter_critical Mutex.acquire_with_mode
    cases k.cur_thread <;> simp [hen]
  have hs : k.set_lock l (k.lock l) = k := set_lock_self k l
  have hr : Mutex.release k2 (k2.lock l) = .ok (k2, k2.lock l) := by
    simp [Mutex.release, hen2]
  have hs2 : k2.set_lock l (k2.lock l) = k2 := set_lock_self k2 l
  unfold CRITICAL_LOCK
  rw [ha]
  simp only [hs, hbody, hr, hs2]
  simp [leave_critical, hc2]

/-! ### Process::kill, the whole call -/

/-- C16: kill(signal) with a valid signal, called by a thread that can take locks: tasking is
enabled, no panic is in progress, no critical section is open and no lock is held by another
thread (inside a critical section the LOCK of for_each_thread fails the assertion of
Mutex::acquire). For a signal other than SIGSTOP, SIGTSTP and SIGCONT, kill offers the signal to
the threads for_each_thread visits (the entries of _tids, in order, that have a thread in the
map) up to and including the first one whose handle_signal returns true: handle_signal is
called on exactly those, in that order, the call returns, and nothing else is changed but the
interrupt flag, which the release of the lock sets. If threads pre come before the first
accepting thread t, exactly pre followed by t are asked; if no thread accepts, every visited
thread has been asked and nothing is queued or changed. SIGSTOP and SIGTSTP end in
stop(signal), SIGCONT in cont(), and neither calls any handle_signal. -/
theorem kill_offers_signal_in_order (k : Kernel) (self : Nat) (signal cur : Int)
    (hpos : 0 < signal) (hlt : signal < k.consts.NSIG) (h : locks_available k cur) :
    (signal ≠ k.consts.SIGSTOP → signal ≠ k.consts.SIGTSTP → signal ≠ k.consts.SIGCONT →
      Process.kill k self signal =
        .ok { k with
              signal_log := k.signal_log ++
                (offered_threads (fun t => k.accepts_signal t signal)
                  (visited_threads k self)).map (fun t => (t, signal))
              interrupts_enabled := true } ∧
      (∀ pre t post, visited_threads k self = pre ++ t :: post →
        (∀ x ∈ pre, k.accepts_signal x signal = false) → k.accepts_signal t signal = true →
        offered_threads (fun t => k.accepts_signal t signal) (visited_threads k self) =
          pre ++ [t]) ∧
      ((∀ x ∈ visited_threads k self, k.accepts_signal x signal = false) →
        offered_threads (fun t => k.accepts_signal t signal) (visited_threads k self) =
          visited_threads k self)) ∧
    ((signal = k.consts.SIGSTOP ∨ signal = k.consts.SIGTSTP) →
      ∃ b k1, Process.stop k self signal = .ok (b, k1) ∧ Process.kill k self signal = .ok k1 ∧
        k1.signal_log = k.signal_log) ∧
    (signal ≠ k.consts.SIGSTOP → signal ≠ k.consts.SIGTSTP → signal = k.consts.SIGCONT →
      Process.kill k self signal = Process.cont k self ∧
      ∃ k1, Process.cont k self = .ok k1 ∧ k1.signal_log = k.signal_log) := by
  obtain ⟨-, g2, g3⟩ := Process_kill_routes k self signal
  refine ⟨fun h1 h2 h3 => ⟨Process_kill_generic k self signal cur hpos hlt h1 h2 h3 h,
    fun pre t post hv hpre ht => ?_, fun hnone => offered_threads_none _ _ hnone⟩,
    fun hs => ?_, fun h1 h2 h3 => ⟨g3 hpos hlt h1 h2 h3, ?_⟩⟩
  · rw [hv]
    exact offered_threads_first _ pre t post hpre ht
  · obtain ⟨b, k1, f1, -, -, f4, -⟩ := Process_stop_returns k self signal cur h
    refine ⟨b, k1, f1, ?_, f4⟩
    rw [g2 hpos hlt hs, f1]
  · obtain ⟨k1, f1, -, -, f4, -⟩ := Process_cont_returns k self cur h
    exact ⟨k1, f1, f4⟩

theorem kill_offers_signal_in_order_witness :
    Process.kill sample_kernel_threads 103 15 =
      .ok { sample_kernel_threads with signal_log := [(7, 15), (8, 15)] } ∧
    (∃ b k1, Process.stop sample_kernel_threads 103 19 = .ok (b, k1) ∧
      Process.kill sample_kernel_threads 103 19 = .ok k1 ∧ k1.signal_log = []) ∧
    Process.kill sample_kernel_stopped 103 18 = Process.cont sample_kernel_stopped 103 :=
  ⟨((kill_offers_signal_in_order sample_kernel_threads 103 15 0 (by decide) (by decide)
      ⟨rfl, rfl, rfl, rfl, fun l => by cases l <;> exact Or.inl ⟨rfl, rfl⟩⟩).1
      (by decide) (by decide) (by decide)).1,
    (kill_offers_signal_in_order sample_kernel_threads 103 19 0 (by decide) (by decide)
      ⟨rfl, rfl, rfl, rfl, fun l => by cases l <;> exact Or.inl ⟨rfl, rfl⟩⟩).2.1 (Or.inl rfl),
    ((kill_offers_signal_in_order sample_kernel_stopped 103 18 0 (by decide) (by decide)
      ⟨rfl, rfl, rfl, rfl, fun l => by cases l <;> exact Or.inl ⟨rfl, rfl⟩⟩).2.2
      (by decide) (by decide) rfl).1⟩

/-! ### Process::alert_thread_died and Process::reap, the whole calls -/

theorem reparent_orphans_control (k : Kernel) (dead : Nat) :
    same_control k (reparent_orphans k dead) ∧
    (reparent_orphans k dead).processes = k.processes ∧
    (reparent_orphans k dead).deleted = k.deleted ∧
    (reparent_orphans k dead).kill_log = k.kill_log ∧
    (reparent_orphans k dead).signal_log = k.signal_log ∧
    (reparent_orphans k dead).thread = k.thread := by
  rw [reparent_orphans_frame]
  exact ⟨⟨rfl, rfl, rfl, rfl, fun l => by cases l <;> rfl⟩, rfl, rfl, rfl, rfl, rfl⟩

/-- The whole call `alert_thread_died` for the last thread of a process, by a thread that can
take locks: the signal stage returns a state `k2`, the call returns a state `k1`, and the
fields of `k1` are these. -/
theorem Process_alert_thread_died_last_returns (k : Kernel) (self : Nat) (t cur : Int)
    (h : locks_available k cur)
    (hlast : (k.proc self).threads.filter (fun x => x != t) = []) :
    ∃ k2 k1 : Kernel,
      Process.alert_thread_died_signal
        { remove_thread k self t with interrupts_enabled := true } self = .ok k2 ∧
      Process.alert_thread_died k self t = .ok k1 ∧
      locks_available k1 cur ∧
      k1.kill_log = k2.kill_log ∧ k1.signal_log = k2.signal_log ∧ k1.thread = k2.thread ∧
      (∀ parent, process_for_pid k (k.proc self).ppid = .ok parent → parent ≠ self →
        k2.kill_log = k.kill_log ++ [(parent, k.consts.SIGCHLD)] ∧
        Process.kill
          { remove_thread k self t with
            interrupts_enabled := true
            kill_log := k.kill_log ++ [(parent, k.consts.SIGCHLD)] }
          parent k.consts.SIGCHLD = .ok k2) ∧
      ((∀ parent, process_for_pid k (k.proc self).ppid = .ok parent → parent = self) →
        k2 = { remove_thread k self t with interrupts_enabled := true }) ∧
      (k1.proc self).threads = [] ∧
      (∀ q, (k1.proc q).ppid =
        if q ∈ k.processes ∧ (k.proc q).ppid = (k.proc self).pid then 1 else (k.proc q).ppid) ∧
      (∀ q, (k1.proc q).pid = (k.proc q).pid) ∧
      ((k.proc self).ready_to_destroy = false →
        (k1.proc self).ready_to_destroy = true ∧ (k1.proc self).state = .ZOMBIE ∧
        k1.deleted = k.deleted ∧ k1.processes = k.processes) ∧
      ((k.proc self).ready_to_destroy = true →
        k1.deleted = k.deleted ++ [self] ∧ k1.processes = k.processes.erase self) := by
  have hK : locks_available { remove_thread k self t with interrupts_enabled := true } cur :=
    locks_available_of_same_control k _ cur h
      ⟨rfl, rfl, rfl, rfl, fun l => by cases l <;> rfl⟩
  obtain ⟨k2, s1, s2, s3, s4, s5, s6, s7, s8, s9⟩ :=
    Process_alert_thread_died_signal_returns
      { remove_thread k self t with interrupts_enabled := true } self cur hK
  obtain ⟨k2b, c1, c2⟩ := (Process_alert_thread_died_cases k self t cur h).2 hlast
  rw [s1] at c1
  cases c1
  have hf := Process_alert_thread_died_finish_returns k2 self cur s2
  have hpp : process_for_pid { remove_thread k self t with interrupts_enabled := true }
      (({ remove_thread k self t with interrupts_enabled := true } : Kernel).proc self).ppid =
        process_for_pid k (k.proc self).ppid := by
    have e1 : (({ remove_thread k self t with interrupts_enabled := true } : Kernel).proc
        self).ppid = (k.proc self).ppid := (remove_thread_other k self t self).2.1
    rw [e1]
    exact process_for_pid_remove_thread k self t _
  rw [hpp] at s8 s9
  have hpid : ∀ q, (k2.proc q).pid = (k.proc q).pid := fun q =>
    ((s6 q).1).trans (remove_thread_other k self t q).1
  have hppid : ∀ q, (k2.proc q).ppid = (k.proc q).ppid := fun q =>
    ((s6 q).2).trans (remove_thread_other k self t q).2.1
  have hproc : k2.processes = k.processes := s3.trans (remove_thread_fields k self t).2.2.2.2
  have hdel : k2.deleted = k.deleted := s4.trans (remove_thread_fields k self t).2.2.2.1
  have hthr : (k2.proc self).threads = [] := by
    rw [s7]
    exact ((remove_thread_fields k self t).1).trans hlast
  have hrtd : (k2.proc self).ready_to_destroy = (k.proc self).ready_to_destroy := by
    rw [s7]
    exact (remove_thread_fields k self t).2.1
  obtain ⟨r1, r2, r3, r4, r5, r6⟩ := reparent_orphans_control k2 self
  have rp := reparent_orphans_proc k2 self
  have rppid : ∀ q, ((reparent_orphans k2 self).proc q).ppid =
      if q ∈ k.processes ∧ (k.proc q).ppid = (k.proc self).pid then 1 else (k.proc q).ppid := by
    intro q
    rw [rp q, hproc, hppid q, hpid self]
    split_ifs <;> first | rfl | exact hppid q
  have rpid : ∀ q, ((reparent_orphans k2 self).proc q).pid = (k.proc q).pid := by
    intro q
    rw [rp q]
    split_ifs <;> exact hpid q
  have rthr : ((reparent_orphans k2 self).proc self).threads = [] := by
    rw [rp self]
    split_ifs <;> exact hthr
  by_cases hflag : (k.proc self).ready_to_destroy = false
  · rw [if_pos (hrtd.trans hflag)] at hf
    refine ⟨k2, _, s1, c2.trans hf, ?_, r4, r5, r6, s8, s9, ?_, ?_, ?_, ?_, ?_⟩
    · exact locks_available_of_same_control k2 _ cur s2
        ⟨r1.1, r1.2.1, r1.2.2.1, r1.2.2.2.1, fun l => by
          have := r1.2.2.2.2 l
          cases l <;> exact this⟩
    · simp [Kernel.set_proc, rthr]
    · intro q
      by_cases hq : q = self
      · subst hq
        simp only [Kernel.set_proc, if_true]
        exact rppid q
      · simp only [Kernel.set_proc, if_neg hq]
        exact rppid q
    · intro q
      by_cases hq : q = self
      · subst hq
        simp only [Kernel.set_proc, if_true]
        exact rpid q
      · simp only [Kernel.set_proc, if_neg hq]
        exact rpid q
    · intro _
      refine ⟨by simp [Kernel.set_proc], by simp [Kernel.set_proc], ?_, ?_⟩
      · exact r3.trans hdel
      · exact r2.trans hproc
    · intro hc
      rw [hflag] at hc
      cases hc
  · have hflag2 : (k.proc self).ready_to_destroy = true := by
      cases hb : (k.proc self).ready_to_destroy
      · exact absurd hb hflag
      · rfl
    rw [if_neg (by rw [hrtd, hflag2]; decide)] at hf
    refine ⟨k2, _, s1, c2.trans hf, ?_, r4, r5, r6, s8, s9, ?_, ?_, ?_, ?_, ?_⟩
    · exact locks_available_of_same_control k2 _ cur s2
        ⟨r1.1, r1.2.1, r1.2.2.1, r1.2.2.2.1, fun l => by
          have := r1.2.2.2.2 l
          cases l <;> exact this⟩
    · exact rthr
    · exact rppid
    · exact rpid
    · intro hc
      rw [hflag2] at hc
      cases hc
    · intro _
      refine ⟨?_, ?_⟩
      · show (reparent_orphans k2 self).deleted ++ [self] = _
        rw [r3, hdel]
      · show (reparent_orphans k2 self).processes.erase self = _
        rw [r2, hproc]

/-- Process::kill, called inside a critical section with a signal that goes to the threads:
the LOCK of for_each_thread fails the assertion of Mutex::acquire. -/
theorem Process_kill_in_critical_section (k : Kernel) (self : Nat) (signal cur : Int)
    (hpos : 0 < signal) (hlt : signal < k.consts.NSIG)
    (h1 : signal ≠ k.consts.SIGSTOP) (h2 : signal ≠ k.consts.SIGTSTP)
    (h3 : signal ≠ k.consts.SIGCONT)
    (hen : k.tasking_enabled = true) (hp : k.g_panicking = false)
    (hc : k.g_critical_count ≠ 0) (hcur : k.cur_thread = some cur)
    (hm : (k.thread_lock self).free_or_held_by cur) :
    Process.kill k self signal =
      .error "Assertion failed: !TaskManager::in_critical() || g_panicking" := by
  have e := LOCK_in_critical_section (LockRef.thread_lock self)
    (fun k1 => DuckOS.for_each_thread k1 self false (kill_callback signal)) k cur hen hp hc hcur hm
  unfold Process.kill
  rw [if_neg (by simp; omega), if_neg (by simp [h1, h2]), if_neg (by simp [h3]), hcur]
  simp only [Thread.enter_critical, Process.for_each_thread]
  rw [e]

/-- Process::alert_thread_died for the last thread of process 102 of the sample kernel, with
tasking disabled: the destructor of the CRITICAL_LOCK of reparent_orphans fails the assertion of
leave_critical. -/
theorem Process_alert_thread_died_tasking_disabled :
    Process.alert_thread_died { sample_kernel with tasking_enabled := false } 102 5 =
      .error "Assertion failed: g_critical_count.load() > 0" := by
  rfl

/-- Process::alert_thread_died of the sample kernel inside a critical section: the LOCK of
remove_thread fails the assertion of Mutex::acquire. -/
theorem Process_alert_thread_died_in_critical_section :
    Process.alert_thread_died { sample_kernel with g_critical_count := 1 } 102 5 =
      .error "Assertion failed: !TaskManager::in_critical() || g_panicking" := by
  rfl

/-- C1: for a process whose ready_to_destroy flag is false and whose thread set holds the single
thread t, with both calls made by a thread that can take locks (tasking enabled, no panic in
progress, no critical section open, no lock held by another thread; the calls take
_thread_lock, g_tasking_lock and g_process_lock): in both orders of alert_thread_died(t) and
reap() each call returns, the call that runs first sets ready_to_destroy without deleting and
leaves the process in the table (the thread-death path also sets the state to Zombie), and the
call that runs second deletes the object and takes it out of the table: over the two calls the
deletion log grows by exactly one entry, the process itself. -/
theorem destroy_exactly_once (k : Kernel) (self : Nat) (t cur : Int)
    (hflag : (k.proc self).ready_to_destroy = false)
    (hlast : (k.proc self).threads = [t])
    (h : locks_available k cur) :
    (∃ k1 k2 : Kernel, Process.alert_thread_died k self t = .ok k1 ∧
      (k1.proc self).ready_to_destroy = true ∧ (k1.proc self).state = .ZOMBIE ∧
      k1.deleted = k.deleted ∧ k1.processes = k.processes ∧
      Process.reap k1 self = .ok k2 ∧
      k2.deleted = k.deleted ++ [self] ∧ k2.processes = k.processes.erase self) ∧
    (∃ k1 k2 : Kernel, Process.reap k self = .ok k1 ∧
      (k1.proc self).ready_to_destroy = true ∧
      k1.deleted = k.deleted ∧ k1.processes = k.processes ∧
      Process.alert_thread_died k1 self t = .ok k2 ∧
      k2.deleted = k.deleted ++ [self] ∧ k2.processes = k.processes.erase self) := by
  have hf : (k.proc self).threads.filter (fun x => x != t) = [] := by
    rw [hlast]
    simp
  constructor
  · obtain ⟨-, k1, -, a1, a2, -, -, -, -, -, -, -, -, a3, -⟩ :=
      Process_alert_thread_died_last_returns k self t cur h hf
    obtain ⟨b1, b2, b3, b4⟩ := a3 hflag
    obtain ⟨-, c1, c2⟩ := (reap_fields k1 self).2 b1
    refine ⟨k1, _, a1, b1, b2, b3, b4, (Process_reap_returns k1 self cur a2).2 b1, ?_, ?_⟩
    · show (reap k1 self).deleted = _
      rw [c1, b3]
    · show (reap k1 self).processes = _
      rw [c2, b4]
  · obtain ⟨r1, r2, r3⟩ := (reap_fields k self).1 hflag
    have e : reap k self = k.set_proc self { k.proc self with ready_to_destroy := true } := by
      simp [reap, compare_exchange_strong, hflag]
    have hK : locks_available (reap k self) cur := by
      rw [e]
      exact locks_available_of_same_control k _ cur h
        ⟨rfl, rfl, rfl, rfl, fun l => by cases l <;> rfl⟩
    have hf2 : ((reap k self).proc self).threads.filter (fun x => x != t) = [] := by
      rw [r1]
      exact hf
    have hr : ((reap k self).proc self).ready_to_destroy = true := by
      rw [r1]
    obtain ⟨-, k2, -, a1, -, -, -, -, -, -, -, -, -, -, a4⟩ :=
      Process_alert_thread_died_last_returns (reap k self) self t cur hK hf2
    obtain ⟨d1, d2⟩ := a4 hr
    refine ⟨reap k self, k2, (Process_reap_returns k self cur h).1 hflag, hr, r2, r3, a1, ?_, ?_⟩
    · rw [d1, r2]
    · rw [d2, r3]

theorem destroy_exactly_once_witness :
    (sample_kernel.proc 102).ready_to_destroy = false ∧
    (sample_kernel.proc 102).threads = [5] ∧
    (∃ k1 k2 : Kernel, Process.alert_thread_died sample_kernel 102 5 = .ok k1 ∧
      (k1.proc 102).ready_to_destroy = true ∧ (k1.proc 102).state = .ZOMBIE ∧
      k1.deleted = [] ∧ k1.processes = [100, 101, 102] ∧
      Process.reap k1 102 = .ok k2 ∧
      k2.deleted = [102] ∧ k2.processes = [100, 101]) ∧
    (∃ k1 k2 : Kernel, Process.reap sample_kernel 102 = .ok k1 ∧
      (k1.proc 102).ready_to_destroy = true ∧
      k1.deleted = [] ∧ k1.processes = [100, 101, 102] ∧
      Process.alert_thread_died k1 102 5 = .ok k2 ∧
      k2.deleted = [102] ∧ k2.processes = [100, 101]) :=
  ⟨rfl, rfl,
    destroy_exactly_once sample_kernel 102 5 0 rfl rfl
      ⟨rfl, rfl, rfl, rfl, fun l => by cases l <;> exact Or.inl ⟨rfl, rfl⟩⟩⟩

/-- C26: alert_thread_died(thread), called by a thread that can take locks (tasking enabled, no
panic in progress, no critical section open, no lock held by another thread), returns and
removes the thread from the thread set. If threads remain it is remove_thread and nothing more:
no kill is made, no handle_signal is called, no ppid changes, state and ready_to_destroy are as
before and nothing is deleted. If none remains: the parent is sent kill(SIGCHLD), in place and
before the reparenting, exactly when process_for_pid(ppid) finds a process other than the dying
one (the call is recorded, it returns, and what it did to the threads and the signal record is
in the final state; otherwise no kill is made and no handle_signal is called); every process of
the table whose ppid is the pid of the dying process gets ppid 1 and every other ppid is
unchanged; and the process, now without threads, is in state Zombie when ready_to_destroy was
false and deleted when it was true. -/
theorem alert_thread_died_effects (k : Kernel) (self : Nat) (t cur : Int)
    (h : locks_available k cur) :
    ((k.proc self).threads.filter (fun x => x != t) ≠ [] →
      ∃ k1 : Kernel, Process.alert_thread_died k self t = .ok k1 ∧
        k1 = { remove_thread k self t with interrupts_enabled := true } ∧
        (k1.proc self).threads = (k.proc self).threads.filter (fun x => x != t) ∧
        k1.kill_log = k.kill_log ∧ k1.signal_log = k.signal_log ∧
        (∀ q, (k1.proc q).ppid = (k.proc q).ppid) ∧
        (k1.proc self).state = (k.proc self).state ∧
        (k1.proc self).ready_to_destroy = (k.proc self).ready_to_destroy ∧
        k1.deleted = k.deleted ∧ k1.processes = k.processes) ∧
    ((k.proc self).threads.filter (fun x => x != t) = [] →
      ∃ k1 : Kernel, Process.alert_thread_died k self t = .ok k1 ∧
        (k1.proc self).threads = [] ∧
        (∀ parent, process_for_pid k (k.proc self).ppid = .ok parent → parent ≠ self →
          k1.kill_log = k.kill_log ++ [(parent, k.consts.SIGCHLD)] ∧
          ∃ k2 : Kernel,
            Process.kill
              { remove_thread k self t with
                interrupts_enabled := true
                kill_log := k.kill_log ++ [(parent, k.consts.SIGCHLD)] }
              parent k.consts.SIGCHLD = .ok k2 ∧
            k1.signal_log = k2.signal_log ∧ k1.thread = k2.thread) ∧
        ((∀ parent, process_for_pid k (k.proc self).ppid = .ok parent → parent = self) →
          k1.kill_log = k.kill_log ∧ k1.signal_log = k.signal_log ∧ k1.thread = k.thread) ∧
        (∀ q, q ∈ k.processes → (k.proc q).ppid = (k.proc self).pid → (k1.proc q).ppid = 1) ∧
        (∀ q, (q ∉ k.processes ∨ (k.proc q).ppid ≠ (k.proc self).pid) →
          (k1.proc q).ppid = (k.proc q).ppid) ∧
        ((k.proc self).ready_to_destroy = false →
          (k1.proc self).state = .ZOMBIE ∧ k1.deleted = k.deleted ∧
          k1.processes = k.processes) ∧
        ((k.proc self).ready_to_destroy = true →
          k1.deleted = k.deleted ++ [self] ∧ k1.processes = k.processes.erase self)) := by
  constructor
  · intro hne
    obtain ⟨f1, f2, f3, f4, f5⟩ := remove_thread_fields k self t
    exact ⟨_, (Process_alert_thread_died_cases k self t cur h).1 hne, rfl, f1, rfl, rfl,
      fun q => (remove_thread_other k self t q).2.1, f3, f2, f4, f5⟩
  · intro hlast
    obtain ⟨k2, k1, -, a1, -, a2, a3, a4, a5, a6, a7, a8, -, a9, a10⟩ :=
      Process_alert_thread_died_last_returns k self t cur h hlast
    refine ⟨k1, a1, a7, fun parent hpar hne => ?_, fun hall => ?_, fun q hq hp => ?_,
      fun q hq => ?_, fun hf => ⟨(a9 hf).2.1, (a9 hf).2.2.1, (a9 hf).2.2.2⟩, a10⟩
    · obtain ⟨b1, b2⟩ := a5 parent hpar hne
      exact ⟨a2.trans b1, k2, b2, a3, a4⟩
    · have e := a6 hall
      refine ⟨?_, ?_, ?_⟩
      · rw [a2, e]
        rfl
      · rw [a3, e]
        rfl
      · rw [a4, e]
        rfl
    · rw [a8 q, if_pos ⟨hq, hp⟩]
    · rw [a8 q, if_neg]
      rintro ⟨a, b⟩
      rcases hq with hq | hq
      · exact hq a
      · exact hq b

theorem alert_thread_died_effects_witness :
    (∃ k1 : Kernel, Process.alert_thread_died sample_kernel 102 5 = .ok k1 ∧
      (k1.proc 102).threads = [] ∧
      (∀ parent, process_for_pid sample_kernel 1 = .ok parent → parent ≠ 102 →
        k1.kill_log = [(parent, 17)] ∧
        ∃ k2 : Kernel,
          Process.kill
            { remove_thread sample_kernel 102 5 with
              interrupts_enabled := true
              kill_log := [(parent, 17)] }
            parent 17 = .ok k2 ∧
          k1.signal_log = k2.signal_log ∧ k1.thread = k2.thread) ∧
      ((∀ parent, process_for_pid sample_kernel 1 = .ok parent → parent = 102) →
        k1.kill_log = [] ∧ k1.signal_log = [] ∧ k1.thread = sample_kernel.thread) ∧
      (∀ q, q ∈ [100, 101, 102] → (sample_kernel.proc q).ppid = 5 → (k1.proc q).ppid = 1) ∧
      (∀ q, (q ∉ [100, 101, 102] ∨ (sample_kernel.proc q).ppid ≠ 5) →
        (k1.proc q).ppid = (sample_kernel.proc q).ppid) ∧
      ((sample_kernel.proc 102).ready_to_destroy = false →
        (k1.proc 102).state = .ZOMBIE ∧ k1.deleted = [] ∧ k1.processes = [100, 101, 102]) ∧
      ((sample_kernel.proc 102).ready_to_destroy = true →
        k1.deleted = [102] ∧ k1.processes = [100, 101])) ∧
    (∃ k1 : Kernel, Process.alert_thread_died sample_kernel 100 0 = .ok k1 ∧
      (k1.proc 100).threads = [2] ∧ k1.kill_log = [] ∧ k1.deleted = []) :=
  ⟨(alert_thread_died_effects sample_kernel 102 5 0
      ⟨rfl, rfl, rfl, rfl, fun l => by cases l <;> exact Or.inl ⟨rfl, rfl⟩⟩).2 rfl,
    Exists.elim ((alert_thread_died_effects sample_kernel 100 0 0
      ⟨rfl, rfl, rfl, rfl, fun l => by cases l <;> exact Or.inl ⟨rfl, rfl⟩⟩).1 (by decide))
      (fun k1 hk => ⟨k1, hk.1, hk.2.2.1, hk.2.2.2.1, hk.2.2.2.2.2.2.2.2.1⟩)⟩

end DuckOS
